import Mathlib

/-!
# School ERP backend: attendance subsystem

A shallow embedding of `internal/handlers/attendance.go`,
`internal/repository/attendance_repo.go`, `internal/repository/student_repo.go`
and `internal/models/attendance.go`, followed by theorems about the embedded
handlers.

Conventions of the embedding.

* The database is explicit state: a `DB` holds the `students` table and the
  `attendances` table, each a list of rows.  Handlers are functions from the
  request and the `DB` to a `Response` and the next `DB`.
* A `time.Time` is an `Int`: seconds relative to `0001-01-01T00:00:00Z`, the
  zero value of `time.Time` (so `IsZero` is `t = 0`).
* Store calls may fail.  Whether a call returns an error is read from a
  `Faults` record, so that every theorem quantified over `Faults` covers every
  pattern of store errors.
* `uint` identifiers are natural numbers; no arithmetic is done on them.
* Fields of the models that no attendance operation reads or writes
  (`CreatedAt`, `UpdatedAt`, the preloaded relations) are left out.
-/

namespace ERP

/-! ## Time -/

/-- Seconds relative to `0001-01-01T00:00:00Z`. -/
abbrev Time := Int

/-- Go `time.Time.IsZero`. -/
def Time.IsZero (t : Time) : Bool := t == 0

/-- SQL `DATE(t)`: the day number of an instant (time of day dropped). -/
def DATE (t : Time) : Int := t / 86400

/-- Gregorian leap-year rule (Go `time.isLeap`). -/
def isLeap (year : Int) : Bool :=
  year % 4 == 0 && (year % 100 != 0 || year % 400 == 0)

/-- Go `time.daysIn`: number of days of month `m` (1..12) in `year`. -/
def daysIn (m : Nat) (year : Int) : Nat :=
  if m == 2 then (if isLeap year then 29 else 28)
  else if m == 4 || m == 6 || m == 9 || m == 11 then 30
  else 31

/-- Days from `0001-01-01` to the first of January of `year`. -/
def daysSinceYearOne (year : Int) : Int :=
  365 * (year - 1) + (year - 1) / 4 - (year - 1) / 100 + (year - 1) / 400

/-- Days of `year` that precede its month `m` (1..12). -/
def daysBefore (m : Nat) (year : Int) : Int :=
  (((List.range (m - 1)).map (fun k => daysIn (k + 1) year)).sum : Nat)

/-- Go `time.Date(year, month, day, hour, min, sec, 0, loc)` for a location at
a fixed offset of `offset` seconds east of UTC.  Month and day values outside
their usual range are normalised as Go does: month 13 is January of the next
year, day 0 is the last day of the previous month. -/
def timeDate (year month day hour min sec offset : Int) : Time :=
  let m := month - 1
  let y := year + m / 12
  let m := m % 12
  (daysSinceYearOne y + daysBefore (m.toNat + 1) y + (day - 1)) * 86400
    + hour * 3600 + min * 60 + sec - offset

/-- Value of a decimal digit character. -/
def digitVal (c : Char) : Option Nat :=
  if c.isDigit then some (c.toNat - 48) else none

/-- Value of a string of decimal digits (Go `time.atoi` on a digit run). -/
def digitsVal : List Char → Option Nat
  | [] => some 0
  | c :: cs =>
    match digitVal c, digitsVal cs with
    | some d, some r => some (d * 10 ^ cs.length + r)
    | _, _ => none

/-- Go `time.Parse("2006-01-02", s)`: four year digits, `-`, two month
digits, `-`, two day digits and nothing else; the month must be 1..12 and the
day must exist in that month.  The result is midnight UTC of that day; `none`
is a parse error. -/
def timeParse (s : String) : Option Time :=
  match s.toList with
  | [y1, y2, y3, y4, s1, m1, m2, s2, d1, d2] =>
    if s1 == '-' && s2 == '-' then
      match digitsVal [y1, y2, y3, y4], digitsVal [m1, m2], digitsVal [d1, d2] with
      | some y, some m, some d =>
        if 1 ≤ m && m ≤ 12 && 1 ≤ d && d ≤ daysIn m y then
          some (timeDate y m d 0 0 0 0)
        else none
      | _, _, _ => none
    else none
  | _ => none

/-! ## Models -/

/-- The columns of `models.Attendance` used by the attendance operations.
`Deleted` is `DeletedAt` being set (a soft-deleted row). -/
structure Attendance where
  ID : Nat
  StudentID : Nat
  ClassID : Nat
  SectionID : Nat
  Date : Time
  Status : String
  MarkedBy : Nat
  Deleted : Bool
deriving DecidableEq, Repr

/-- The columns of `models.Student` used by the roster lookup. -/
structure Student where
  ID : Nat
  ClassID : Nat
  SectionID : Nat
  Deleted : Bool
deriving DecidableEq, Repr

/-- The tables behind `database.DB` that the attendance handlers touch. -/
structure DB where
  students : List Student
  attendances : List Attendance
deriving DecidableEq, Repr

/-- The zero value of `models.Attendance` (Go `var attendance models.Attendance`). -/
def Attendance.zero : Attendance :=
  { ID := 0, StudentID := 0, ClassID := 0, SectionID := 0, Date := 0,
    Status := "", MarkedBy := 0, Deleted := false }

/-! ## Store errors -/

/-- Which store calls of a request return an error.  `findExisting k` and
`update k a` are asked for the `k`-th iteration (from 0) of the roster loop,
`update` and `createBatch` also see the rows being written, so a store that
rejects rows (a CHECK or foreign-key constraint) is one of the `Faults`.
`query` is for the one read of a list handler or of `UpdateAttendance`,
`count k` for the `k`-th count (from 0) of a statistics call. -/
structure Faults where
  findStudents : Bool
  findExisting : Nat → Bool
  update : Nat → Attendance → Bool
  createBatch : List Attendance → Bool
  query : Bool
  count : Nat → Bool

/-- The store that never returns an error. -/
def Faults.none : Faults :=
  { findStudents := false, findExisting := fun _ => false,
    update := fun _ _ => false, createBatch := fun _ => false, query := false,
    count := fun _ => false }

/-- The store enforces the foreign key of `attendances.student_id`, the one
that migrating `models.Attendance` with its `Student` relation creates: saving
a row whose student id is not the id of a row of `students` fails. -/
def Faults.enforcesStudentKey (f : Faults) (students : List Student) : Prop :=
  ∀ i a, (∀ s ∈ students, s.ID ≠ a.StudentID) → f.update i a = true

/-- No failed lookup can write: either no existing-record lookup fails, or the
store enforces the foreign key of `student_id` and, primary keys being counted
from 1, no student has id 0. -/
def lookupsSafe (f : Faults) (students : List Student) : Prop :=
  (∀ j, f.findExisting j = false) ∨
    (f.enforcesStudentKey students ∧ ∀ s ∈ students, s.ID ≠ 0)

/-! ## HTTP -/

/-- Aggregates returned by the statistics operations. -/
structure Stats where
  total : Nat
  present : Nat
  absent : Nat
  late : Nat
  excused : Nat
  percentage : ℚ
deriving DecidableEq, Repr

/-- The JSON body of a response. -/
inductive Body where
  | error (msg : String)
  | message (msg : String)
  | records (rows : List Attendance)
  | record (row : Attendance)
  | stats (s : Stats)
deriving DecidableEq, Repr

/-- What `c.JSON(code, body)` sends. -/
structure Response where
  code : Nat
  body : Body
deriving DecidableEq, Repr

/-- Go `MarkAttendanceRequest` after JSON decoding.  `Attendance` is the
`map[uint]string`; `none` is the nil map (field missing or null). -/
structure MarkAttendanceRequest where
  ClassID : Nat
  SectionID : Nat
  Date : String
  Attendance : Option (List (Nat × String))
deriving DecidableEq, Repr

/-- Go `req.Attendance[id]`: the zero string when the key is missing. -/
def MarkAttendanceRequest.status (req : MarkAttendanceRequest) (id : Nat) : String :=
  match req.Attendance with
  | none => ""
  | some m => (m.lookup id).getD ""

/-- The text of a binding error, `err.Error()`. -/
def bindError : String := "invalid request body"

/-- Gin `c.ShouldBindJSON(&req)` for `MarkAttendanceRequest`: `none` when the
body does not decode (`body = none`) or a `binding:"required"` field holds its
zero value. -/
def ShouldBindJSON (body : Option MarkAttendanceRequest) : Option MarkAttendanceRequest :=
  match body with
  | none => none
  | some req =>
    if req.ClassID == 0 || req.SectionID == 0 || req.Date == "" || req.Attendance.isNone
    then none else some req

/-! ## Repositories -/

/-- Repository method `StudentRepository.FindByClassAndSection`: the live students of the class
and section, in table order; `none` is a store error. -/
def StudentRepository.FindByClassAndSection (fault : Bool) (students : List Student)
    (classID sectionID : Nat) : Option (List Student) :=
  if fault then none
  else some (students.filter
    (fun s => !s.Deleted && s.ClassID == classID && s.SectionID == sectionID))

/-- The condition `student_id = ? AND DATE(date) = DATE(?)` on live rows. -/
def existingCond (studentID : Nat) (date : Time) (a : Attendance) : Bool :=
  !a.Deleted && a.StudentID == studentID && DATE a.Date == DATE date

/-- Gorm `First`: the row with the least primary key. -/
def firstByID : List Attendance → Option Attendance
  | [] => none
  | a :: rest =>
    match firstByID rest with
    | none => some a
    | some b => if a.ID ≤ b.ID then some a else some b

/-- Repository method `AttendanceRepository.FindExisting`, returning the pointer and whether the
error is non-nil.  Not found is `(none, false)`; any other store error is a
pointer to the untouched zero record together with the error. -/
def AttendanceRepository.FindExisting (fault : Bool) (rows : List Attendance)
    (studentID : Nat) (date : Time) : Option Attendance × Bool :=
  if fault then (some Attendance.zero, true)
  else
    match firstByID (rows.filter (existingCond studentID date)) with
    | none => (none, false)
    | some a => (some a, false)

/-- The next value of the auto-increment primary key. -/
def nextID (rows : List Attendance) : Nat :=
  (rows.map (fun a => a.ID)).foldr max 0 + 1

/-- Gorm `Create` of one record: the row is appended under a fresh key. -/
def insertRow (rows : List Attendance) (a : Attendance) : List Attendance :=
  rows ++ [{ a with ID := nextID rows }]

/-- Repository method `AttendanceRepository.Update`, that is gorm `Save`: a record whose primary
key is zero is created; otherwise the row with that key is overwritten with
all fields of the record, and the record is inserted under its key when no
row has it.  `none` is a store error, which leaves the table as it was. -/
def AttendanceRepository.Update (fault : Bool) (rows : List Attendance)
    (a : Attendance) : Option (List Attendance) :=
  if fault then none
  else if a.ID == 0 then some (insertRow rows a)
  else if rows.any (fun r => r.ID == a.ID) then
    some (rows.map (fun r => if r.ID == a.ID then a else r))
  else some (rows ++ [a])

/-- Repository method `AttendanceRepository.CreateBatch`: one insert of all records, each under
a fresh key; `none` is a store error, which inserts nothing. -/
def AttendanceRepository.CreateBatch (fault : Bool) (rows : List Attendance)
    (attendances : List Attendance) : Option (List Attendance) :=
  if fault then none else some (attendances.foldl insertRow rows)

/-! ## MarkAttendance -/

/-- How the roster loop of `MarkAttendance` ends: it runs to its end with the
table `rows` and the slice `attendances` of staged records, or an `Update`
fails and the handler returns at once. -/
inductive LoopResult where
  | done (rows attendances : List Attendance)
  | aborted (rows : List Attendance)
deriving DecidableEq, Repr

/-- The record staged for a student without an existing record. -/
def newRecord (req : MarkAttendanceRequest) (date : Time) (markedBy : Nat)
    (student : Student) : Attendance :=
  let status := req.status student.ID
  let status := if status == "" then "absent" else status
  { ID := 0, StudentID := student.ID, ClassID := req.ClassID, SectionID := req.SectionID,
    Date := date, Status := status, MarkedBy := markedBy, Deleted := false }

/-- The loop `for _, student := range students` of `MarkAttendance`, from
iteration `i` on, with the current table and the staged records. -/
def markLoop (f : Faults) (req : MarkAttendanceRequest) (date : Time) (markedBy : Nat) :
    Nat → List Student → List Attendance → List Attendance → LoopResult
  | _, [], rows, attendances => .done rows attendances
  | i, student :: rest, rows, attendances =>
    match (AttendanceRepository.FindExisting (f.findExisting i) rows student.ID date).1 with
    | some existing =>
      let existing := { existing with Status := req.status student.ID }
      match AttendanceRepository.Update (f.update i existing) rows existing with
      | none => .aborted rows
      | some rows => markLoop f req date markedBy (i + 1) rest rows attendances
    | none =>
      markLoop f req date markedBy (i + 1) rest rows
        (attendances ++ [newRecord req date markedBy student])

/-- Handler `AttendanceHandler.MarkAttendance`.  `userID` is `c.Get("user_id")`,
`body` the decoded JSON body. -/
def AttendanceHandler.MarkAttendance (f : Faults) (userID : Option Nat)
    (body : Option MarkAttendanceRequest) (db : DB) : Response × DB :=
  match ShouldBindJSON body with
  | none => (⟨400, .error bindError⟩, db)
  | some req =>
    match timeParse req.Date with
    | none => (⟨400, .error "Invalid date format. Use YYYY-MM-DD"⟩, db)
    | some date =>
      match userID with
      | none => (⟨401, .error "User not authenticated"⟩, db)
      | some markedBy =>
        match StudentRepository.FindByClassAndSection f.findStudents db.students
            req.ClassID req.SectionID with
        | none => (⟨400, .error "Failed to fetch students"⟩, db)
        | some students =>
          if students.length == 0 then
            (⟨400, .error "No students found for the selected class and section"⟩, db)
          else
            match markLoop f req date markedBy 0 students db.attendances [] with
            | .aborted rows =>
              (⟨500, .error "Failed to update attendance"⟩, { db with attendances := rows })
            | .done rows attendances =>
              if attendances.length > 0 then
                match AttendanceRepository.CreateBatch (f.createBatch attendances) rows
                    attendances with
                | none =>
                  (⟨500, .error "Failed to create attendance records"⟩,
                    { db with attendances := rows })
                | some rows =>
                  (⟨201, .message "Attendance marked successfully"⟩,
                    { db with attendances := rows })
              else
                (⟨201, .message "Attendance marked successfully"⟩,
                  { db with attendances := rows })

/-! ## Calendar -/

/-- The civil year and the day of that year (from 0) of day number `d`
(days since `0001-01-01`), by 400-, 100-, 4- and 1-year cycles as Go's
`absDate` does. -/
def yearOfDay (d : Int) : Int × Int :=
  let n400 := d / 146097
  let r := d % 146097
  let n100 := min (r / 36524) 3
  let r := r - n100 * 36524
  let n4 := r / 1461
  let r := r - n4 * 1461
  let n1 := min (r / 365) 3
  (1 + 400 * n400 + 100 * n100 + 4 * n4 + n1, r - n1 * 365)

/-- The month (1..12) that holds day `yday` (from 0) of `year`, looking from
month `m` on, `k` months being left to try. -/
def monthOfYday (year : Int) : Nat → Nat → Int → Nat
  | 0, m, _ => m
  | k + 1, m, yday =>
    if yday < daysIn m year then m else monthOfYday year k (m + 1) (yday - daysIn m year)

/-- Go `t.Year()` in a location `offset` seconds east of UTC. -/
def Time.Year (t : Time) (offset : Int) : Int :=
  (yearOfDay ((t + offset) / 86400)).1

/-- Go `t.Month()` in a location `offset` seconds east of UTC. -/
def Time.Month (t : Time) (offset : Int) : Int :=
  let yd := yearOfDay ((t + offset) / 86400)
  monthOfYday yd.1 11 1 yd.2

/-- A civil timestamp in UTC: a date and a time of day. -/
structure Civil where
  year : Int
  month : Nat
  day : Int
  hour : Int
  min : Int
  sec : Int
deriving DecidableEq, Repr

/-- The date exists and the time of day is one of the day. -/
def Civil.valid (c : Civil) : Prop :=
  1 ≤ c.month ∧ c.month ≤ 12 ∧ 1 ≤ c.day ∧ c.day ≤ daysIn c.month c.year ∧
  0 ≤ c.hour ∧ c.hour < 24 ∧ 0 ≤ c.min ∧ c.min < 60 ∧ 0 ≤ c.sec ∧ c.sec < 60

instance (c : Civil) : Decidable c.valid := by
  unfold Civil.valid; infer_instance

/-- The instant of a civil timestamp, Go `time.Date(year, month, day, hour,
min, sec, 0, time.UTC)`. -/
def Civil.instant (c : Civil) : Time :=
  timeDate c.year c.month c.day c.hour c.min c.sec 0

/-- Two civil timestamps are on the same calendar day. -/
def Civil.sameDay (c c' : Civil) : Prop :=
  c.year = c'.year ∧ c.month = c'.month ∧ c.day = c'.day

/-! ## Query parameters -/

/-- Go `strconv.ParseUint(s, 10, 32)` with its error dropped, as the handlers
use it: 0 for a string that is not a run of digits, the largest `uint32` for
one that is out of range. -/
def parseUint32 (s : String) : Nat :=
  match digitsVal s.toList with
  | some n => if n < 2 ^ 32 then n else 2 ^ 32 - 1
  | none => 0

/-- The handlers' treatment of an optional date parameter: the zero time when
the parameter is empty, and also when it does not parse. -/
def optionalDate (s : String) : Time :=
  if s != "" then
    match timeParse s with
    | some parsed => parsed
    | none => 0
  else 0

/-! ## Queries of the attendance repository -/

/-- The text of a store error, `err.Error()`. -/
def storeError : String := "store error"

/-- SQL `ORDER BY date DESC`. -/
def orderDateDesc (rows : List Attendance) : List Attendance :=
  rows.insertionSort (fun a b => a.Date ≥ b.Date)

/-- SQL `ORDER BY student_id ASC`. -/
def orderStudentAsc (rows : List Attendance) : List Attendance :=
  rows.insertionSort (fun a b => a.StudentID ≤ b.StudentID)

/-- SQL `ORDER BY date DESC, student_id ASC`. -/
def orderDateDescStudentAsc (rows : List Attendance) : List Attendance :=
  rows.insertionSort
    (fun a b => a.Date > b.Date ∨ (a.Date = b.Date ∧ a.StudentID ≤ b.StudentID))

/-- Repository method `AttendanceRepository.FindByStudentID`; `none` is a store error. -/
def AttendanceRepository.FindByStudentID (fault : Bool) (rows : List Attendance)
    (studentID : Nat) (startDate endDate : Time) : Option (List Attendance) :=
  if fault then none
  else some (orderDateDesc (rows.filter (fun a =>
    !a.Deleted && a.StudentID == studentID &&
    (startDate.IsZero || decide (a.Date ≥ startDate)) &&
    (endDate.IsZero || decide (a.Date ≤ endDate)))))

/-- Repository method `AttendanceRepository.FindByClassID`; `none` is a store error. -/
def AttendanceRepository.FindByClassID (fault : Bool) (rows : List Attendance)
    (classID : Nat) (date : Time) : Option (List Attendance) :=
  if fault then none
  else some (orderStudentAsc (rows.filter (fun a =>
    !a.Deleted && a.ClassID == classID &&
    (date.IsZero || DATE a.Date == DATE date))))

/-- Repository method `AttendanceRepository.FindByClassAndSection`; `none` is a store error. -/
def AttendanceRepository.FindByClassAndSection (fault : Bool) (rows : List Attendance)
    (classID sectionID : Nat) (date : Time) : Option (List Attendance) :=
  if fault then none
  else some (orderStudentAsc (rows.filter (fun a =>
    !a.Deleted && (a.ClassID == classID && a.SectionID == sectionID) &&
    (date.IsZero || DATE a.Date == DATE date))))

/-- Repository method `AttendanceRepository.FindByDateRange`; the class and section filters are
the nil-able pointers; `none` is a store error. -/
def AttendanceRepository.FindByDateRange (fault : Bool) (rows : List Attendance)
    (startDate endDate : Time) (classID sectionID : Option Nat) : Option (List Attendance) :=
  if fault then none
  else some (orderDateDescStudentAsc (rows.filter (fun a =>
    !a.Deleted && (decide (a.Date ≥ startDate) && decide (a.Date ≤ endDate)) &&
    (match classID with | some c => a.ClassID == c | none => true) &&
    (match sectionID with | some s => a.SectionID == s | none => true))))

/-- A gorm statement on `attendances`: its WHERE conditions, all of which a
row must meet. -/
abbrev Query := List (Attendance → Bool)

/-- Gorm `Count` on a statement: the number of live rows that meet every
condition.  When the query fails the destination keeps its zero. -/
def Query.Count (q : Query) (fault : Bool) (rows : List Attendance) : Nat :=
  if fault then 0 else (rows.filter (fun a => !a.Deleted && q.all (fun c => c a))).length

/-- Rounding of a rational to the nearest integer, a tie going to the even
one. -/
def roundHalfEven (q : ℚ) : ℤ :=
  let n := ⌊q⌋
  if q - n < 1 / 2 then n
  else if 1 / 2 < q - n then n + 1
  else if n % 2 = 0 then n else n + 1

/-- The `float64` nearest to a rational, as a rational: IEEE 754 rounding to
nearest, ties to even, with a 53-bit significand.  Values are taken to stay in
the normal range, as counts and their quotients do. -/
def float64 (q : ℚ) : ℚ :=
  if q = 0 then 0
  else if 0 < q then roundHalfEven (q / 2 ^ (Int.log 2 q - 52)) * 2 ^ (Int.log 2 q - 52)
  else -(roundHalfEven (-q / 2 ^ (Int.log 2 (-q) - 52)) * 2 ^ (Int.log 2 (-q) - 52))

/-- The `percentage` of the statistics: the value of the `float64` expression
`float64(present) / float64(total) * 100`, each conversion and operation
rounded, and 0 when `total` is 0. -/
def percentageOf (present total : Nat) : ℚ :=
  if total > 0 then float64 (float64 (float64 present / float64 total) * 100) else 0

/-- The five counts of `GetStatistics` and `GetClassStatistics` on
`baseQuery`.  `baseQuery` is one `*gorm.DB` that already carries conditions
(it comes from `Model(...).Where(...)`), and on such a value gorm's `Where`
does not start a new statement: each `baseQuery.Where(...)` adds its condition
to that same statement, so the status conditions of earlier counts are still
in force for later ones.  The errors of the counts are not looked at; `fault
k` is whether the store fails the `k`-th count, and since an error stays on
the statement and gorm runs no query on a statement that carries one, the
counts after a failed count fail too. -/
def countByStatus (fault : Nat → Bool) (rows : List Attendance) (baseQuery : Query) : Stats :=
  let failed := fault 0
  let total := Query.Count baseQuery failed rows
  let baseQuery : Query := baseQuery ++ [fun a => a.Status == "present"]
  let failed := failed || fault 1
  let present := Query.Count baseQuery failed rows
  let baseQuery : Query := baseQuery ++ [fun a => a.Status == "absent"]
  let failed := failed || fault 2
  let absent := Query.Count baseQuery failed rows
  let baseQuery : Query := baseQuery ++ [fun a => a.Status == "late"]
  let failed := failed || fault 3
  let late := Query.Count baseQuery failed rows
  let baseQuery : Query := baseQuery ++ [fun a => a.Status == "excused"]
  let failed := failed || fault 4
  let excused := Query.Count baseQuery failed rows
  { total := total, present := present, absent := absent, late := late, excused := excused,
    percentage := percentageOf present total }

/-- Repository method `AttendanceRepository.GetStatistics`; the returned error is always nil. -/
def AttendanceRepository.GetStatistics (fault : Nat → Bool) (rows : List Attendance)
    (studentID : Nat) (startDate endDate : Time) : Stats :=
  let baseQuery : Query := [fun a => a.StudentID == studentID]
  let baseQuery : Query :=
    if !startDate.IsZero then baseQuery ++ [fun a => decide (a.Date ≥ startDate)] else baseQuery
  let baseQuery : Query :=
    if !endDate.IsZero then baseQuery ++ [fun a => decide (a.Date ≤ endDate)] else baseQuery
  countByStatus fault rows baseQuery

/-- Repository method `AttendanceRepository.GetClassStatistics`; the returned
error is always nil. -/
def AttendanceRepository.GetClassStatistics (fault : Nat → Bool) (rows : List Attendance)
    (classID sectionID : Nat) (startDate endDate : Time) : Stats :=
  let baseQuery : Query := [fun a => a.ClassID == classID]
  let baseQuery : Query :=
    if sectionID > 0 then baseQuery ++ [fun a => a.SectionID == sectionID] else baseQuery
  let baseQuery : Query :=
    if !startDate.IsZero then baseQuery ++ [fun a => decide (a.Date ≥ startDate)] else baseQuery
  let baseQuery : Query :=
    if !endDate.IsZero then baseQuery ++ [fun a => decide (a.Date ≤ endDate)] else baseQuery
  countByStatus fault rows baseQuery

/-! ## Query handlers -/

/-- The answer of a list handler: 500 with the error text, or 200 with the rows. -/
def listResponse (result : Option (List Attendance)) : Response :=
  match result with
  | none => ⟨500, .error storeError⟩
  | some attendances => ⟨200, .records attendances⟩

/-- Handler `AttendanceHandler.GetAttendanceByClass`; the arguments are the path
parameter `class_id` and the query parameters `section_id` and `date` (empty
when not given). -/
def AttendanceHandler.GetAttendanceByClass (f : Faults) (classIDParam sectionIDStr dateStr : String)
    (db : DB) : Response :=
  let classID := parseUint32 classIDParam
  let sectionID := if sectionIDStr != "" then parseUint32 sectionIDStr else 0
  let date := optionalDate dateStr
  listResponse (
    if sectionID > 0 && !date.IsZero then
      AttendanceRepository.FindByClassAndSection f.query db.attendances classID sectionID date
    else if sectionID > 0 then
      AttendanceRepository.FindByClassAndSection f.query db.attendances classID sectionID 0
    else if !date.IsZero then
      AttendanceRepository.FindByClassID f.query db.attendances classID date
    else
      AttendanceRepository.FindByClassID f.query db.attendances classID 0)

/-- Handler `AttendanceHandler.GetAttendanceByStudent`. -/
def AttendanceHandler.GetAttendanceByStudent (f : Faults)
    (studentIDParam startDateStr endDateStr : String) (db : DB) : Response :=
  let studentID := parseUint32 studentIDParam
  let startDate := optionalDate startDateStr
  let endDate := optionalDate endDateStr
  listResponse
    (AttendanceRepository.FindByStudentID f.query db.attendances studentID startDate endDate)

/-- Handler `AttendanceHandler.GetAttendanceStatistics`. -/
def AttendanceHandler.GetAttendanceStatistics (f : Faults)
    (studentIDStr classIDStr sectionIDStr startDateStr endDateStr : String) (db : DB) :
    Response :=
  let startDate := optionalDate startDateStr
  let endDate := optionalDate endDateStr
  if studentIDStr != "" then
    ⟨200, .stats (AttendanceRepository.GetStatistics f.count db.attendances
      (parseUint32 studentIDStr) startDate endDate)⟩
  else if classIDStr != "" then
    let sectionID := if sectionIDStr != "" then parseUint32 sectionIDStr else 0
    ⟨200, .stats (AttendanceRepository.GetClassStatistics f.count db.attendances
      (parseUint32 classIDStr) sectionID startDate endDate)⟩
  else ⟨400, .error "Either student_id or class_id is required"⟩

/-- The start of the range of `GetAttendanceReports`: the parsed `start_date`
(the zero time when it does not parse), and when the parameter is empty the
first day of the month of `now` at 00:00:00 in the server's location. -/
def reportStart (now : Time) (offset : Int) (startDateStr : String) : Time :=
  if startDateStr != "" then
    match timeParse startDateStr with
    | some parsed => parsed
    | none => 0
  else timeDate (now.Year offset) (now.Month offset) 1 0 0 0 offset

/-- The end of the range of `GetAttendanceReports`: the parsed `end_date` (the
zero time when it does not parse), and when the parameter is empty day 0 of
the month after the month of `now`, at 23:59:59 in the server's location. -/
def reportEnd (now : Time) (offset : Int) (endDateStr : String) : Time :=
  if endDateStr != "" then
    match timeParse endDateStr with
    | some parsed => parsed
    | none => 0
  else timeDate (now.Year offset) (now.Month offset + 1) 0 23 59 59 offset

/-- Handler `AttendanceHandler.GetAttendanceReports`.  `now₁` and `now₂` are
what the two calls of `time.Now()` return, `offset` is the offset of the
server's location in seconds east of UTC. -/
def AttendanceHandler.GetAttendanceReports (f : Faults) (now₁ now₂ : Time) (offset : Int)
    (classIDStr sectionIDStr startDateStr endDateStr : String) (db : DB) : Response :=
  let startDate := reportStart now₁ offset startDateStr
  let endDate := reportEnd now₂ offset endDateStr
  let classID := if classIDStr != "" then some (parseUint32 classIDStr) else none
  let sectionID := if sectionIDStr != "" then some (parseUint32 sectionIDStr) else none
  listResponse
    (AttendanceRepository.FindByDateRange f.query db.attendances startDate endDate classID
      sectionID)

/-! ## UpdateAttendance -/

/-- Go `UpdateAttendanceRequest` after JSON decoding. -/
structure UpdateAttendanceRequest where
  Status : String
deriving DecidableEq, Repr

/-- The values that the `oneof` rule of `UpdateAttendanceRequest.Status` lists. -/
def allowedStatuses : List String := ["present", "absent", "late", "excused"]

/-- Gin `c.ShouldBindJSON(&req)` for `UpdateAttendanceRequest`, whose `Status`
is bound with `required,oneof=present absent late excused`: `none` when the
body does not decode (`body = none`), when the status is empty and when it is
none of the four values. -/
def bindUpdateRequest (body : Option UpdateAttendanceRequest) :
    Option UpdateAttendanceRequest :=
  match body with
  | none => none
  | some req =>
    if req.Status != "" && allowedStatuses.contains req.Status then some req else none

/-- Repository method `AttendanceRepository.FindByID`: the live row with that
primary key; `none` is an error, not-found or any other. -/
def AttendanceRepository.FindByID (fault : Bool) (rows : List Attendance) (id : Nat) :
    Option Attendance :=
  if fault then none
  else firstByID (rows.filter (fun a => !a.Deleted && a.ID == id))

/-- Handler `AttendanceHandler.UpdateAttendance`; `idParam` is the path
parameter `id`, `body` the decoded JSON body.  The read is `f.query`, the
write is `f.update 0`. -/
def AttendanceHandler.UpdateAttendance (f : Faults) (idParam : String)
    (body : Option UpdateAttendanceRequest) (db : DB) : Response × DB :=
  let id := parseUint32 idParam
  match bindUpdateRequest body with
  | none => (⟨400, .error bindError⟩, db)
  | some req =>
    match AttendanceRepository.FindByID f.query db.attendances id with
    | none => (⟨404, .error "Attendance record not found"⟩, db)
    | some attendance =>
      let attendance :=
        if req.Status != "" then { attendance with Status := req.Status } else attendance
      match AttendanceRepository.Update (f.update 0 attendance) db.attendances attendance with
      | none => (⟨500, .error storeError⟩, db)
      | some rows => (⟨200, .record attendance⟩, { db with attendances := rows })

/-! ## Middleware and routes -/

/-- What `jwt.ValidateToken` hands back for a valid token, as far as
`AuthMiddleware` reads it. -/
structure Claims where
  UserID : Nat
  Email : String
  Role : String
deriving DecidableEq, Repr

/-- The keys of the gin context that the middleware sets and reads; `none` is
a key that has not been set. -/
structure Context where
  user_id : Option Nat
  user_email : Option String
  user_role : Option String
deriving DecidableEq, Repr

/-- The context of a request before any middleware has run. -/
def Context.empty : Context := { user_id := none, user_email := none, user_role := none }

/-- How a middleware leaves a request: with `c.Next()`, the context being what
the middleware has made of it, or with `c.JSON(code, gin.H{"error": msg})`
followed by `c.Abort()`. -/
inductive Step where
  | next (c : Context)
  | abort (code : Nat) (msg : String)
deriving DecidableEq, Repr

/-- Go `unicode.IsSpace`. -/
def isSpace (c : Char) : Bool :=
  [0x09, 0x0A, 0x0B, 0x0C, 0x0D, 0x20, 0x85, 0xA0, 0x1680, 0x2028, 0x2029, 0x202F, 0x205F,
    0x3000].contains c.toNat || (0x2000 ≤ c.toNat && c.toNat ≤ 0x200A)

/-- Go `strings.TrimSpace`. -/
def TrimSpace (s : String) : String :=
  String.mk ((s.toList.dropWhile isSpace).reverse.dropWhile isSpace).reverse

/-- Go `strings.HasPrefix(s, pre)`. -/
def startsWith (s pre : String) : Bool := pre.toList.isPrefixOf s.toList

/-- Go `strings.TrimPrefix(s, pre)`. -/
def trimLeading (s pre : String) : String :=
  if startsWith s pre then String.mk (s.toList.drop pre.toList.length) else s

/-- Middleware `AuthMiddleware`.  `ValidateToken` is `jwt.ValidateToken`, with
the text of its error; `authorization` is the value of the `Authorization`
header, empty when the request has none (the three spellings that the source
tries name the same header). -/
def AuthMiddleware (ValidateToken : String → Except String Claims) (authorization : String)
    (c : Context) : Step :=
  let authHeader := authorization
  if authHeader == "" then .abort 401 "Authorization header required"
  else
    let tokenString :=
      if startsWith authHeader "Bearer " then trimLeading authHeader "Bearer "
      else if startsWith authHeader "bearer " then trimLeading authHeader "bearer "
      else TrimSpace authHeader
    let tokenString := TrimSpace tokenString
    if tokenString == "" then .abort 401 "Invalid authorization header format"
    else
      match ValidateToken tokenString with
      | .error err => .abort 401 ("Invalid or expired token: " ++ err)
      | .ok claims =>
        .next { c with user_id := some claims.UserID, user_email := some claims.Email,
                       user_role := some claims.Role }

/-- Middleware `RoleMiddleware(allowedRoles...)`. -/
def RoleMiddleware (allowedRoles : List String) (c : Context) : Step :=
  match c.user_role with
  | none => .abort 401 "User role not found"
  | some role =>
    if allowedRoles.any (fun allowedRole => role == allowedRole) then .next c
    else .abort 403 "Insufficient permissions"

/-- The handlers that `main` puts on routes: the two of `gin.Default()`, the
CORS function, the two middlewares, and the final handlers by name. -/
inductive HandlerFunc where
  | Logger
  | Recovery
  | CORS
  | AuthMiddleware
  | RoleMiddleware (allowedRoles : List String)
  | handler (name : String)
deriving DecidableEq, Repr

/-- A registered route: method, full path and handler chain. -/
structure RouteInfo where
  Method : String
  Path : String
  Handlers : List HandlerFunc
deriving DecidableEq, Repr

/-- Gin `RouterGroup`: a base path and the handlers that routes of the group
start with. -/
structure RouterGroup where
  basePath : String
  Handlers : List HandlerFunc
deriving DecidableEq, Repr

/-- Gin `group.Use(middleware...)`. -/
def RouterGroup.Use (group : RouterGroup) (middleware : List HandlerFunc) : RouterGroup :=
  { group with Handlers := group.Handlers ++ middleware }

/-- Gin `group.Group(relativePath)`; joining the paths of `main` is
concatenation. -/
def RouterGroup.Group (group : RouterGroup) (relativePath : String) : RouterGroup :=
  { basePath := group.basePath ++ relativePath, Handlers := group.Handlers }

/-- Gin `group.handle(httpMethod, relativePath, handlers)`, which `GET`,
`POST`, `PUT` and `DELETE` call. -/
def RouterGroup.handle (group : RouterGroup) (httpMethod relativePath : String)
    (handlers : List HandlerFunc) : RouteInfo :=
  { Method := httpMethod, Path := group.basePath ++ relativePath,
    Handlers := group.Handlers ++ handlers }

/-- The routes that `main` registers, in its order. -/
def routes : List RouteInfo :=
  let router : RouterGroup := { basePath := "", Handlers := [.Logger, .Recovery] }
  let router := router.Use [.CORS]
  let api := router.Group "/api"
  let auth := api.Group "/auth"
  let admin := (api.Group "/admin").Use [.AuthMiddleware, .RoleMiddleware ["admin"]]
  let users := admin.Group "/users"
  let students := admin.Group "/students"
  let teachers := admin.Group "/teachers"
  let classes := admin.Group "/classes"
  let sections := admin.Group "/sections"
  let subjects := admin.Group "/subjects"
  let attendance := admin.Group "/attendance"
  [router.handle "GET" "/health" [.handler "health"],
    auth.handle "POST" "/login" [.handler "authHandler.Login"],
    auth.handle "POST" "/register"
      [.AuthMiddleware, .RoleMiddleware ["admin"], .handler "authHandler.Register"],
    users.handle "GET" "" [.handler "userHandler.GetUsers"],
    users.handle "GET" "/:id" [.handler "userHandler.GetUser"],
    users.handle "POST" "" [.handler "userHandler.CreateUser"],
    users.handle "PUT" "/:id" [.handler "userHandler.UpdateUser"],
    users.handle "DELETE" "/:id" [.handler "userHandler.DeleteUser"],
    students.handle "GET" "" [.handler "studentHandler.GetStudents"],
    students.handle "GET" "/:id" [.handler "studentHandler.GetStudent"],
    students.handle "POST" "" [.handler "studentHandler.CreateStudent"],
    students.handle "PUT" "/:id" [.handler "studentHandler.UpdateStudent"],
    students.handle "DELETE" "/:id" [.handler "studentHandler.DeleteStudent"],
    teachers.handle "GET" "" [.handler "teacherHandler.GetTeachers"],
    teachers.handle "GET" "/:id" [.handler "teacherHandler.GetTeacher"],
    teachers.handle "POST" "" [.handler "teacherHandler.CreateTeacher"],
    teachers.handle "PUT" "/:id" [.handler "teacherHandler.UpdateTeacher"],
    teachers.handle "DELETE" "/:id" [.handler "teacherHandler.DeleteTeacher"],
    classes.handle "GET" "" [.handler "classHandler.GetClasses"],
    classes.handle "GET" "/:id" [.handler "classHandler.GetClass"],
    classes.handle "POST" "" [.handler "classHandler.CreateClass"],
    classes.handle "PUT" "/:id" [.handler "classHandler.UpdateClass"],
    classes.handle "DELETE" "/:id" [.handler "classHandler.DeleteClass"],
    sections.handle "GET" "" [.handler "sectionHandler.GetSections"],
    sections.handle "GET" "/:id" [.handler "sectionHandler.GetSection"],
    sections.handle "POST" "" [.handler "sectionHandler.CreateSection"],
    sections.handle "PUT" "/:id" [.handler "sectionHandler.UpdateSection"],
    sections.handle "DELETE" "/:id" [.handler "sectionHandler.DeleteSection"],
    sections.handle "POST" "/assign" [.handler "sectionHandler.AssignSectionToClass"],
    subjects.handle "GET" "" [.handler "subjectHandler.GetSubjects"],
    subjects.handle "GET" "/:id" [.handler "subjectHandler.GetSubject"],
    subjects.handle "POST" "" [.handler "subjectHandler.CreateSubject"],
    subjects.handle "PUT" "/:id" [.handler "subjectHandler.UpdateSubject"],
    subjects.handle "DELETE" "/:id" [.handler "subjectHandler.DeleteSubject"],
    attendance.handle "POST" "/mark" [.handler "attendanceHandler.MarkAttendance"],
    attendance.handle "GET" "/class/:class_id"
      [.handler "attendanceHandler.GetAttendanceByClass"],
    attendance.handle "GET" "/student/:student_id"
      [.handler "attendanceHandler.GetAttendanceByStudent"],
    attendance.handle "GET" "/statistics"
      [.handler "attendanceHandler.GetAttendanceStatistics"],
    attendance.handle "GET" "/reports" [.handler "attendanceHandler.GetAttendanceReports"],
    attendance.handle "PUT" "/:id" [.handler "attendanceHandler.UpdateAttendance"],
    router.handle "GET" "/swagger/*any" [.handler "ginSwagger.WrapHandler"]]

/-- Where a request ends on a handler chain: in the final handler `name` with
the context that the middleware has built, in an abort, in the 204 that the
CORS function gives an `OPTIONS` request, or past the end of the chain. -/
inductive Outcome where
  | handled (name : String) (c : Context)
  | aborted (code : Nat) (msg : String)
  | preflight
  | unhandled
deriving DecidableEq, Repr

/-- Gin running a handler chain: each middleware runs, and the ones after it
run only when it calls `c.Next()`. -/
def serve (ValidateToken : String → Except String Claims) (method authorization : String) :
    List HandlerFunc → Context → Outcome
  | [], _ => .unhandled
  | .Logger :: rest, c => serve ValidateToken method authorization rest c
  | .Recovery :: rest, c => serve ValidateToken method authorization rest c
  | .CORS :: rest, c =>
    if method == "OPTIONS" then .preflight
    else serve ValidateToken method authorization rest c
  | .AuthMiddleware :: rest, c =>
    match AuthMiddleware ValidateToken authorization c with
    | .next c => serve ValidateToken method authorization rest c
    | .abort code msg => .aborted code msg
  | .RoleMiddleware allowedRoles :: rest, c =>
    match RoleMiddleware allowedRoles c with
    | .next c => serve ValidateToken method authorization rest c
    | .abort code msg => .aborted code msg
  | .handler name :: _, c => .handled name c

/-- Whether a handler is a method of `attendanceHandler`. -/
def HandlerFunc.isAttendance : HandlerFunc → Bool
  | .handler name => startsWith name "attendanceHandler."
  | _ => false

/-- Whether a route is a route of the attendance group. -/
def RouteInfo.isAttendance (r : RouteInfo) : Bool := startsWith r.Path "/api/admin/attendance"

/-! ## Predicates on tables -/

/-- A row with its status blanked: everything of a row but its status. -/
def Attendance.key (a : Attendance) : Attendance := { a with Status := "" }

/-- A row with its primary key blanked. -/
def Attendance.dropID (a : Attendance) : Attendance := { a with ID := 0 }

/-- Primary-key discipline of the `attendances` table: keys are unique and,
being auto-incremented from 1, never zero. -/
def WellFormed (rows : List Attendance) : Prop :=
  (rows.map (fun a => a.ID)).Nodup ∧ ∀ a ∈ rows, a.ID ≠ 0

/-- Two rows are live rows of the same student on the same calendar day. -/
def sameStudentDay (a b : Attendance) : Bool :=
  !a.Deleted && !b.Deleted && a.StudentID == b.StudentID && DATE a.Date == DATE b.Date

/-- At most one live attendance row per (student, calendar day). -/
def UniquePerDay (rows : List Attendance) : Prop :=
  rows.Pairwise (fun a b => sameStudentDay a b = false)

instance (rows : List Attendance) : Decidable (WellFormed rows) := by
  unfold WellFormed; infer_instance

instance (rows : List Attendance) : Decidable (UniquePerDay rows) := by
  unfold UniquePerDay; infer_instance

/-- Whether the table holds a live row of the student on the day of `date`. -/
def hasRecord (rows : List Attendance) (studentID : Nat) (date : Time) : Bool :=
  rows.any (existingCond studentID date)

/-- Every id of a live row of `rows` is the id of a live row of `rows'`. -/
def keepsLive (rows rows' : List Attendance) : Prop :=
  ∀ a ∈ rows, a.Deleted = false → ∃ b ∈ rows', b.ID = a.ID ∧ b.Deleted = false

/-! ## Example data -/

/-- A store that enforces the CHECK constraint declared on
`models.Attendance.Status`: writing a row whose status is none of the four
allowed values is an error. -/
def Faults.check : Faults :=
  { Faults.none with
    update := fun _ a => !(["present", "absent", "late", "excused"].contains a.Status)
    createBatch := fun l =>
      l.any (fun a => !(["present", "absent", "late", "excused"].contains a.Status)) }

/-- A store whose existing-record lookups all fail with an error other than
not-found, every other call succeeding. -/
def Faults.lookupErrs : Faults :=
  { Faults.none with findExisting := fun _ => true }

/-- A store that enforces the foreign key of `student_id` against `students`
and whose existing-record lookup fails in the iterations that `errs` names;
every other call succeeds. -/
def Faults.foreignKeys (students : List Student) (errs : Nat → Bool) : Faults :=
  { Faults.none with
    findExisting := errs
    update := fun _ a => !(students.any (fun s => s.ID == a.StudentID))
    createBatch := fun l => l.any (fun a => !(students.any (fun s => s.ID == a.StudentID))) }

/-- A store whose `Update` fails in iteration `k` of the roster loop. -/
def Faults.updateErrsAt (k : Nat) : Faults :=
  { Faults.none with update := fun i _ => i == k }

/-- A store whose roster query fails. -/
def Faults.rosterErrs : Faults :=
  { Faults.none with findStudents := true }

/-- Student `i` of class 1, section 1. -/
def exStudent (i : Nat) : Student := { ID := i, ClassID := 1, SectionID := 1, Deleted := false }

/-- The instant `2024-03-05T00:00:00Z`. -/
def exDay : Time := 63845193600

/-- A live row of class 1, section 1 on `exDay`, marked by user 7. -/
def exRow (id studentID : Nat) (status : String) : Attendance :=
  { ID := id, StudentID := studentID, ClassID := 1, SectionID := 1, Date := exDay,
    Status := status, MarkedBy := 7, Deleted := false }

/-- Class 1, section 1 with students 1, 2, 3 and no attendance yet. -/
def exEmptyDay : DB := { students := [exStudent 1, exStudent 2, exStudent 3], attendances := [] }

/-- The same class with all three students marked on `exDay`. -/
def exMarkedDay : DB :=
  { students := [exStudent 1, exStudent 2, exStudent 3],
    attendances := [exRow 1 1 "present", exRow 2 2 "late", exRow 3 3 "absent"] }

/-- Students 1 and 2, of which only student 2 is marked on `exDay`. -/
def exHalfMarked : DB :=
  { students := [exStudent 1, exStudent 2], attendances := [exRow 1 2 "late"] }

/-- A mark request for class 1, section 1 on 2024-03-05 with the given map. -/
def exRequest (m : List (Nat × String)) : MarkAttendanceRequest :=
  { ClassID := 1, SectionID := 1, Date := "2024-03-05", Attendance := some m }

/-- A live row of student 1 (class 1, section 1), `day` days after `exDay`,
marked by user 7. -/
def exStatusRow (id : Nat) (day : Int) (status : String) : Attendance :=
  { ID := id, StudentID := 1, ClassID := 1, SectionID := 1, Date := exDay + day * 86400,
    Status := status, MarkedBy := 7, Deleted := false }

/-- Four rows of student 1, one of each status. -/
def exFourStatuses : List Attendance :=
  [exStatusRow 1 0 "present", exStatusRow 2 1 "absent", exStatusRow 3 2 "late",
    exStatusRow 4 3 "excused"]

/-- Ten rows of student 1: six `present`, two `absent`, one `late`, one
`excused`. -/
def exTenRows : List Attendance :=
  [exStatusRow 1 0 "present", exStatusRow 2 1 "present", exStatusRow 3 2 "absent",
    exStatusRow 4 3 "present", exStatusRow 5 4 "late", exStatusRow 6 5 "present",
    exStatusRow 7 6 "absent", exStatusRow 8 7 "present", exStatusRow 9 8 "excused",
    exStatusRow 10 9 "present"]

/-- A live row of student 1 (class 1, section 1) on the day of `exDay`, at
10:00:00. -/
def exMorningRow : Attendance :=
  { ID := 1, StudentID := 1, ClassID := 1, SectionID := 1, Date := exDay + 36000,
    Status := "present", MarkedBy := 7, Deleted := false }

/-- Rows of students 1 and 2 of class 1 and class 2 on three days, in an
order that is not the report's, the last one soft-deleted. -/
def exReportRows : List Attendance :=
  [{ exStatusRow 1 0 "present" with StudentID := 2 }, exStatusRow 2 1 "late",
    { exStatusRow 3 1 "absent" with StudentID := 2, ClassID := 2 }, exStatusRow 4 0 "absent",
    { exStatusRow 5 2 "present" with Deleted := true }]

/-- Student 1 alone in class 1, section 1, with no attendance yet. -/
def exOneStudent : DB := { students := [exStudent 1], attendances := [] }

/-- A token validator that knows the two tokens `admin-token` and
`teacher-token`. -/
def exValidateToken (token : String) : Except String Claims :=
  if token == "admin-token" then .ok { UserID := 7, Email := "admin@school", Role := "admin" }
  else if token == "teacher-token" then
    .ok { UserID := 8, Email := "teacher@school", Role := "teacher" }
  else .error "token is malformed"

/-- The live rows of a table as (student, day, status) triples. -/
def liveRecords (rows : List Attendance) : List (Nat × Int × String) :=
  (rows.filter (fun a => !a.Deleted)).map (fun a => (a.StudentID, DATE a.Date, a.Status))

/-! ## Lemmas about the repository -/

theorem firstByID_eq_none {l : List Attendance} : firstByID l = none ↔ l = [] := by
  cases l with
  | nil => simp [firstByID]
  | cons a rest =>
    simp only [firstByID]
    cases firstByID rest with
    | none => simp
    | some b => by_cases h : a.ID ≤ b.ID <;> simp [h]

theorem firstByID_mem {l : List Attendance} {a : Attendance} (h : firstByID l = some a) :
    a ∈ l := by
  induction l generalizing a with
  | nil => simp [firstByID] at h
  | cons x rest ih =>
    simp only [firstByID] at h
    cases hr : firstByID rest with
    | none => rw [hr] at h; simp at h; simp [h]
    | some b =>
      rw [hr] at h
      by_cases hx : x.ID ≤ b.ID
      · simp [hx] at h; simp [h]
      · simp [hx] at h; subst h; exact List.mem_cons_of_mem _ (ih hr)

theorem findExisting_some {rows : List Attendance} {sid : Nat} {date : Time} {a : Attendance}
    (h : (AttendanceRepository.FindExisting false rows sid date).1 = some a) :
    a ∈ rows ∧ existingCond sid date a = true := by
  unfold AttendanceRepository.FindExisting at h
  simp only [Bool.false_eq_true, if_false] at h
  cases hf : firstByID (rows.filter (existingCond sid date)) with
  | none => rw [hf] at h; simp at h
  | some b =>
    rw [hf] at h
    simp at h
    subst h
    have := firstByID_mem hf
    simpa [List.mem_filter] using this

theorem findExisting_none {rows : List Attendance} {sid : Nat} {date : Time} :
    (AttendanceRepository.FindExisting false rows sid date).1 = none ↔
      hasRecord rows sid date = false := by
  unfold AttendanceRepository.FindExisting hasRecord
  simp only [Bool.false_eq_true, if_false]
  cases hf : firstByID (rows.filter (existingCond sid date)) with
  | none =>
    simp only [true_iff]
    have := firstByID_eq_none.mp hf
    simp [List.filter_eq_nil_iff] at this
    simpa using this
  | some b =>
    simp only [false_iff]
    have := firstByID_mem hf
    simp [List.mem_filter] at this
    simp
    exact ⟨b, this.1, this.2⟩

theorem sameStudentDay_key (a b : Attendance) :
    sameStudentDay a.key b.key = sameStudentDay a b := rfl

theorem existingCond_key (sid : Nat) (date : Time) (a : Attendance) :
    existingCond sid date a.key = existingCond sid date a := rfl

theorem hasRecord_congr {rows rows' : List Attendance}
    (h : rows'.map Attendance.key = rows.map Attendance.key)
    (sid : Nat) (date : Time) : hasRecord rows' sid date = hasRecord rows sid date := by
  have e : ∀ l : List Attendance,
      hasRecord l sid date = (l.map Attendance.key).any (existingCond sid date) := by
    intro l
    unfold hasRecord
    rw [List.any_map]
    rfl
  rw [e, e, h]

theorem wellFormed_congr {rows rows' : List Attendance}
    (h : rows'.map Attendance.key = rows.map Attendance.key) (hw : WellFormed rows) :
    WellFormed rows' := by
  have hid : rows'.map (fun a => a.ID) = rows.map (fun a => a.ID) := by
    have := congrArg (List.map (fun a : Attendance => a.ID)) h
    simpa [List.map_map, Function.comp_def, Attendance.key] using this
  refine ⟨by rw [hid]; exact hw.1, ?_⟩
  intro a ha
  have : a.ID ∈ rows'.map (fun a => a.ID) := List.mem_map_of_mem _ ha
  rw [hid] at this
  obtain ⟨b, hb, hab⟩ := List.mem_map.mp this
  rw [← hab]
  exact hw.2 b hb

theorem uniquePerDay_congr {rows rows' : List Attendance}
    (h : rows'.map Attendance.key = rows.map Attendance.key) (hu : UniquePerDay rows) :
    UniquePerDay rows' := by
  have e : ∀ l : List Attendance, UniquePerDay l ↔ UniquePerDay (l.map Attendance.key) := by
    intro l
    unfold UniquePerDay
    rw [List.pairwise_map]
    simp only [sameStudentDay_key]
  rw [e, h, ← e]
  exact hu

/-- Saving a found row with another status changes nothing but that status. -/
theorem update_key {rows rows' : List Attendance} {existing : Attendance} {v : String}
    (hw : WellFormed rows) (hmem : existing ∈ rows)
    (h : AttendanceRepository.Update false rows { existing with Status := v } = some rows') :
    rows'.map Attendance.key = rows.map Attendance.key := by
  unfold AttendanceRepository.Update at h
  have hz : existing.ID ≠ 0 := hw.2 existing hmem
  have hany : rows.any (fun r => r.ID == existing.ID) = true := by
    simp only [List.any_eq_true]
    exact ⟨existing, hmem, by simp⟩
  simp only [Bool.false_eq_true, if_false, beq_iff_eq, hz, hany, if_true, Option.some.injEq] at h
  subst h
  rw [List.map_map]
  apply List.map_congr_left
  intro r hr
  simp only [Function.comp]
  by_cases hid : r.ID = existing.ID
  · have : r = existing := List.inj_on_of_nodup_map hw.1 hr hmem hid
    subst this
    simp [Attendance.key]
  · simp [hid]

/-- When lookups are safe, the store refuses the zero record in every iteration
whose lookup fails. -/
theorem zero_record_refused {f : Faults} {students : List Student}
    (h : lookupsSafe f students) :
    ∀ j, f.findExisting j = true →
      ∀ v, f.update j { Attendance.zero with Status := v } = true := by
  intro j hj v
  rcases h with h | ⟨hfk, hids⟩
  · rw [h j] at hj
    exact absurd hj (by simp)
  · exact hfk j _ (fun s hs => hids s hs)

/-- The roster loop when no failed lookup can write, on a well-formed table:
rows change in status only, and when the loop runs to its end the staged
records are the new records of exactly the roster students that had no live
row for the day, in roster order. -/
theorem markLoop_spec (f : Faults) (req : MarkAttendanceRequest) (date : Time) (markedBy : Nat)
    (hz : ∀ j, f.findExisting j = true →
      ∀ v, f.update j { Attendance.zero with Status := v } = true) :
    ∀ (roster : List Student) (i : Nat) (rows staged : List Attendance), WellFormed rows →
      match markLoop f req date markedBy i roster rows staged with
      | .done rows' staged' =>
        rows'.map Attendance.key = rows.map Attendance.key ∧
        staged' = staged ++ (roster.filter (fun s => !hasRecord rows s.ID date)).map
          (newRecord req date markedBy)
      | .aborted rows' => rows'.map Attendance.key = rows.map Attendance.key := by
  intro roster
  induction roster with
  | nil => intro i rows staged _; simp [markLoop]
  | cons s rest ih =>
    intro i rows staged hw
    cases hfi : f.findExisting i with
    | true =>
      have hu := hz i hfi (req.status s.ID)
      simp only [markLoop, hfi, AttendanceRepository.FindExisting, if_true]
      simp only [hu, AttendanceRepository.Update, if_true]
    | false =>
    simp only [markLoop, hfi]
    cases hfe : (AttendanceRepository.FindExisting false rows s.ID date).1 with
    | some existing =>
      obtain ⟨hmem, hcond⟩ := findExisting_some hfe
      have hhas : hasRecord rows s.ID date = true := by
        unfold hasRecord
        simp only [List.any_eq_true]
        exact ⟨existing, hmem, hcond⟩
      simp only
      cases hup : AttendanceRepository.Update
          (f.update i { existing with Status := req.status s.ID })
          rows { existing with Status := req.status s.ID } with
      | none =>
        simp only
      | some rows1 =>
        simp only
        have hfalse : f.update i { existing with Status := req.status s.ID } = false := by
          cases hb : f.update i { existing with Status := req.status s.ID } with
          | false => rfl
          | true => rw [hb] at hup; simp [AttendanceRepository.Update] at hup
        rw [hfalse] at hup
        have hk := update_key hw hmem hup
        have hw1 := wellFormed_congr hk hw
        have := ih (i + 1) rows1 staged hw1
        cases hres : markLoop f req date markedBy (i + 1) rest rows1 staged with
        | done rows' staged' =>
          rw [hres] at this
          simp only at this ⊢
          refine ⟨this.1.trans hk, ?_⟩
          rw [this.2]
          simp only [List.filter_cons, hhas, Bool.not_true, Bool.false_eq_true, if_false]
          congr 2
          apply List.filter_congr
          intro x _
          rw [hasRecord_congr hk]
        | aborted rows' =>
          rw [hres] at this
          simp only at this ⊢
          exact this.trans hk
    | none =>
      have hhas : hasRecord rows s.ID date = false := findExisting_none.mp hfe
      simp only
      have := ih (i + 1) rows (staged ++ [newRecord req date markedBy s]) hw
      cases hres : markLoop f req date markedBy (i + 1) rest rows
          (staged ++ [newRecord req date markedBy s]) with
      | done rows' staged' =>
        rw [hres] at this
        simp only at this ⊢
        refine ⟨this.1, ?_⟩
        rw [this.2]
        simp [List.filter_cons, hhas]
      | aborted rows' =>
        rw [hres] at this
        simpa using this

theorem foldl_insertRow_dropID (staged : List Attendance) : ∀ rows : List Attendance,
    (staged.foldl insertRow rows).map Attendance.dropID =
      rows.map Attendance.dropID ++ staged.map Attendance.dropID := by
  induction staged with
  | nil => intro rows; simp
  | cons a rest ih =>
    intro rows
    simp only [List.foldl_cons, ih, insertRow, List.map_append, List.map_cons, List.map_nil,
      List.append_assoc, List.singleton_append]
    rfl

theorem foldl_insertRow_length (staged : List Attendance) (rows : List Attendance) :
    (staged.foldl insertRow rows).length = rows.length + staged.length := by
  have := congrArg List.length (foldl_insertRow_dropID staged rows)
  simpa using this

theorem sameStudentDay_dropID (a b : Attendance) :
    sameStudentDay a.dropID b.dropID = sameStudentDay a b := rfl

theorem existingCond_dropID (sid : Nat) (date : Time) (a : Attendance) :
    existingCond sid date a.dropID = existingCond sid date a := rfl

theorem uniquePerDay_foldl_insertRow (rows staged : List Attendance) :
    UniquePerDay (staged.foldl insertRow rows) ↔ UniquePerDay (rows ++ staged) := by
  have e : ∀ l : List Attendance, UniquePerDay l ↔ UniquePerDay (l.map Attendance.dropID) := by
    intro l
    unfold UniquePerDay
    rw [List.pairwise_map]
    simp only [sameStudentDay_dropID]
  rw [e, foldl_insertRow_dropID, ← List.map_append, ← e]

theorem sameStudentDay_newRecord (req : MarkAttendanceRequest) (date : Time) (markedBy : Nat)
    (a : Attendance) (s : Student) :
    sameStudentDay a (newRecord req date markedBy s) = existingCond s.ID date a := by
  simp only [sameStudentDay, existingCond, newRecord]
  cases a.Deleted <;> simp

/-- The records staged for distinct students that have no live row for the
day can be inserted without breaking uniqueness per (student, day). -/
theorem uniquePerDay_insert_new (req : MarkAttendanceRequest) (date : Time) (markedBy : Nat)
    (rows : List Attendance) (roster : List Student)
    (hu : UniquePerDay rows) (hnd : (roster.map (fun s => s.ID)).Nodup) :
    UniquePerDay (rows ++ (roster.filter (fun s => !hasRecord rows s.ID date)).map
      (newRecord req date markedBy)) := by
  unfold UniquePerDay
  rw [List.pairwise_append]
  refine ⟨hu, ?_, ?_⟩
  · rw [List.pairwise_map]
    apply List.Pairwise.filter
    have hp : roster.Pairwise (fun a b => a.ID ≠ b.ID) := by
      have := hnd
      unfold List.Nodup at this
      rwa [List.pairwise_map] at this
    refine hp.imp ?_
    intro a b hab
    simp [sameStudentDay, newRecord, hab]
  · intro a ha b hb
    obtain ⟨s, hs, rfl⟩ := List.mem_map.mp hb
    rw [sameStudentDay_newRecord]
    have hs2 := (List.mem_filter.mp hs).2
    simp only [Bool.not_eq_true', hasRecord] at hs2
    by_contra hne
    have : rows.any (existingCond s.ID date) = true := by
      simp only [List.any_eq_true]
      exact ⟨a, ha, by simpa using hne⟩
    rw [this] at hs2
    exact absurd hs2 (by simp)

/-- The table after the roster loop and the batch insert keeps uniqueness per
(student, day), when no failed lookup can write. -/
theorem reconcile_unique (f : Faults) (req : MarkAttendanceRequest) (date : Time) (markedBy : Nat)
    (hlk : ∀ j, f.findExisting j = true →
      ∀ v, f.update j { Attendance.zero with Status := v } = true) (roster : List Student)
    (rows rows' staged : List Attendance)
    (hw : WellFormed rows) (hu : UniquePerDay rows) (hnd : (roster.map (fun s => s.ID)).Nodup)
    (h : markLoop f req date markedBy 0 roster rows [] = .done rows' staged) :
    UniquePerDay rows' ∧ UniquePerDay (staged.foldl insertRow rows') := by
  have hs := markLoop_spec f req date markedBy hlk roster 0 rows [] hw
  rw [h] at hs
  simp only [List.nil_append] at hs
  obtain ⟨hk, hst⟩ := hs
  have hu' := uniquePerDay_congr hk hu
  refine ⟨hu', ?_⟩
  rw [uniquePerDay_foldl_insertRow, hst]
  have := uniquePerDay_insert_new req date markedBy rows' roster hu' hnd
  have e : (roster.filter (fun s => !hasRecord rows' s.ID date)) =
      (roster.filter (fun s => !hasRecord rows s.ID date)) := by
    apply List.filter_congr
    intro x _
    rw [hasRecord_congr hk]
  rwa [e] at this

theorem markLoop_append (f : Faults) (req : MarkAttendanceRequest) (date : Time) (markedBy : Nat)
    (pre post : List Student) : ∀ (i : Nat) (rows staged : List Attendance),
    markLoop f req date markedBy i (pre ++ post) rows staged =
      match markLoop f req date markedBy i pre rows staged with
      | .done rows' staged' => markLoop f req date markedBy (i + pre.length) post rows' staged'
      | .aborted rows' => .aborted rows' := by
  induction pre with
  | nil => intro i rows staged; simp [markLoop]
  | cons s rest ih =>
    intro i rows staged
    simp only [List.cons_append, markLoop, List.length_cons]
    cases (AttendanceRepository.FindExisting (f.findExisting i) rows s.ID date).1 with
    | some existing =>
      simp only
      cases AttendanceRepository.Update (f.update i { existing with Status := req.status s.ID })
          rows { existing with Status := req.status s.ID } with
      | none => rfl
      | some rows1 =>
        simp only
        have e := ih (i + 1) rows1 staged
        have : i + 1 + rest.length = i + (rest.length + 1) := by omega
        rw [this] at e
        exact e
    | none =>
      simp only
      have e := ih (i + 1) rows (staged ++ [newRecord req date markedBy s])
      have : i + 1 + rest.length = i + (rest.length + 1) := by omega
      rw [this] at e
      exact e

/-- Whatever the store does, the loop only ever appends to the staged slice,
and what it appends are new records of roster students. -/
theorem markLoop_staged (f : Faults) (req : MarkAttendanceRequest) (date : Time) (markedBy : Nat)
    (roster : List Student) : ∀ (i : Nat) (rows staged rows' staged' : List Attendance),
    markLoop f req date markedBy i roster rows staged = .done rows' staged' →
      ∃ new, staged' = staged ++ new ∧
        ∀ a ∈ new, ∃ s ∈ roster, a = newRecord req date markedBy s := by
  induction roster with
  | nil =>
    intro i rows staged rows' staged' h
    simp only [markLoop, LoopResult.done.injEq] at h
    exact ⟨[], by simp [h.2]⟩
  | cons s rest ih =>
    intro i rows staged rows' staged' h
    simp only [markLoop] at h
    cases hfe : (AttendanceRepository.FindExisting (f.findExisting i) rows s.ID date).1 with
    | some existing =>
      rw [hfe] at h
      simp only at h
      cases hup : AttendanceRepository.Update
          (f.update i { existing with Status := req.status s.ID })
          rows { existing with Status := req.status s.ID } with
      | none => rw [hup] at h; simp at h
      | some rows1 =>
        rw [hup] at h
        simp only at h
        obtain ⟨new, h1, h2⟩ := ih _ _ _ _ _ h
        refine ⟨new, h1, ?_⟩
        intro a ha
        obtain ⟨t, ht, hat⟩ := h2 a ha
        exact ⟨t, List.mem_cons_of_mem _ ht, hat⟩
    | none =>
      rw [hfe] at h
      simp only at h
      obtain ⟨new, h1, h2⟩ := ih _ _ _ _ _ h
      refine ⟨newRecord req date markedBy s :: new, by simp [h1], ?_⟩
      intro a ha
      rcases List.mem_cons.mp ha with rfl | ha
      · exact ⟨s, List.mem_cons_self _ _, rfl⟩
      · obtain ⟨t, ht, hat⟩ := h2 a ha
        exact ⟨t, List.mem_cons_of_mem _ ht, hat⟩

open AttendanceHandler

/-! ## Claims about MarkAttendance -/

/-- C1 (fails on the code).  Students 1 and 2 are on the roster, student 2 is
already marked `late` for 2024-03-05, and the request's status map names
student 1 only.  On a store that accepts the write the call answers 201 and
the existing row of student 2 now carries the empty status; on a store that
enforces the CHECK constraint of the model the same write is refused and the
call answers 500.  In neither case is the omitted student skipped. -/
theorem markAttendance_omitted_student_status_overwritten :
    MarkAttendance Faults.none (some 7) (some (exRequest [(1, "present")])) exHalfMarked =
        (⟨201, .message "Attendance marked successfully"⟩,
          { exHalfMarked with attendances := [exRow 1 2 "", exRow 2 1 "present"] }) ∧
    MarkAttendance Faults.check (some 7) (some (exRequest [(1, "present")])) exHalfMarked =
        (⟨500, .error "Failed to update attendance"⟩, exHalfMarked) := by
  decide

/-- C2.  Let the roster list each student once and let the loop reach
`student` (after the students `pre`) with the table `rows₁`.  If the lookup for
`student` does not err and `rows₁` holds no live row of `student` on the day
of `date`, then this iteration stages one record and writes nothing, and the
slice handed to the batch insert at the end of the loop holds exactly one
record for `student`: student id, class id, section id, date and marking
actor are the roster student's id, the request's class and section ids, the
parsed date and the authenticated user id, and the status is the non-empty
value the map supplies for the student, else `absent`. -/
theorem markLoop_stages_one_new_record (f : Faults) (req : MarkAttendanceRequest) (date : Time)
    (markedBy : Nat) (pre post : List Student) (student : Student)
    (rows rows₁ staged₁ : List Attendance)
    (hroster : ((pre ++ student :: post).map (fun s => s.ID)).Nodup)
    (hpre : markLoop f req date markedBy 0 pre rows [] = .done rows₁ staged₁)
    (hlookup : f.findExisting pre.length = false)
    (hnone : ∀ a ∈ rows₁, ¬ (a.Deleted = false ∧ a.StudentID = student.ID ∧
      DATE a.Date = DATE date)) :
    let staged : Attendance :=
      { ID := 0, StudentID := student.ID, ClassID := req.ClassID, SectionID := req.SectionID,
        Date := date,
        Status := match (req.Attendance.getD []).lookup student.ID with
          | some v => if v = "" then "absent" else v
          | none => "absent",
        MarkedBy := markedBy, Deleted := false }
    markLoop f req date markedBy 0 (pre ++ [student]) rows [] =
        .done rows₁ (staged₁ ++ [staged]) ∧
    ∀ rows₂ staged₂,
      markLoop f req date markedBy 0 (pre ++ student :: post) rows [] = .done rows₂ staged₂ →
        staged₂.filter (fun a => a.StudentID == student.ID) = [staged] := by
  intro staged
  have hrec : newRecord req date markedBy student = staged := by
    simp only [newRecord, MarkAttendanceRequest.status, staged]
    cases req.Attendance with
    | none => simp
    | some m =>
      simp only [Option.getD_some]
      cases m.lookup student.ID with
      | none => simp
      | some v => simp
  have hfe : (AttendanceRepository.FindExisting (f.findExisting pre.length) rows₁ student.ID
      date).1 = none := by
    rw [hlookup, findExisting_none]
    unfold hasRecord
    rw [Bool.eq_false_iff]
    intro hany
    obtain ⟨a, ha, hc⟩ := List.any_eq_true.mp hany
    apply hnone a ha
    simpa [existingCond, and_assoc] using hc
  have hstep : ∀ rest, markLoop f req date markedBy 0 (pre ++ student :: rest) rows [] =
      markLoop f req date markedBy (pre.length + 1) rest rows₁ (staged₁ ++ [staged]) := by
    intro rest
    rw [markLoop_append, hpre]
    simp only [Nat.zero_add, markLoop, hfe, hrec]
  refine ⟨?_, ?_⟩
  · rw [hstep]; simp [markLoop]
  · intro rows₂ staged₂ h
    rw [hstep] at h
    obtain ⟨new₁, h1, h1'⟩ := markLoop_staged f req date markedBy pre _ _ _ _ _ hpre
    obtain ⟨new₂, h2, h2'⟩ := markLoop_staged f req date markedBy post _ _ _ _ _ h
    simp only [List.nil_append] at h1
    have hnd := hroster
    rw [List.map_append, List.map_cons, List.nodup_append] at hnd
    obtain ⟨_, hnd2, hdisj⟩ := hnd
    have hpre_ne : ∀ s ∈ pre, s.ID ≠ student.ID := by
      intro s hs heq
      exact hdisj (List.mem_map_of_mem _ hs) (by simp [heq])
    have hpost_ne : ∀ s ∈ post, s.ID ≠ student.ID := by
      intro s hs heq
      have := (List.nodup_cons.mp hnd2).1
      exact this (by rw [← heq]; exact List.mem_map_of_mem _ hs)
    have e1 : staged₁.filter (fun a => a.StudentID == student.ID) = [] := by
      rw [List.filter_eq_nil_iff]
      intro a ha
      rw [h1] at ha
      obtain ⟨s, hs, rfl⟩ := h1' a ha
      simpa [newRecord] using hpre_ne s hs
    have e2 : new₂.filter (fun a => a.StudentID == student.ID) = [] := by
      rw [List.filter_eq_nil_iff]
      intro a ha
      obtain ⟨s, hs, rfl⟩ := h2' a ha
      simpa [newRecord] using hpost_ne s hs
    rw [h2, List.filter_append, List.filter_append, e1, e2]
    simp [staged]

/-- An instance of C2: student 1 of the roster 1, 2, of which student 2 is
already marked. -/
theorem markLoop_stages_one_new_record_witness :
    markLoop Faults.none (exRequest [(1, "present")]) exDay 7 0 ([] ++ [exStudent 1])
        exHalfMarked.attendances [] =
      .done exHalfMarked.attendances ([] ++ [exRow 0 1 "present"]) ∧
    ∀ rows₂ staged₂,
      markLoop Faults.none (exRequest [(1, "present")]) exDay 7 0
        ([] ++ exStudent 1 :: [exStudent 2]) exHalfMarked.attendances [] =
          .done rows₂ staged₂ →
        staged₂.filter (fun a => a.StudentID == (exStudent 1).ID) = [exRow 0 1 "present"] :=
  markLoop_stages_one_new_record Faults.none (exRequest [(1, "present")]) exDay 7
    [] [exStudent 2] (exStudent 1) exHalfMarked.attendances exHalfMarked.attendances []
    (by decide) rfl rfl (by decide)

/-- C3 (fails on the code).  Roster 1, 2, 3, all marked on 2024-03-05
(`present`, `late`, `absent`); re-marking that day with the map {1: absent}.
On a store that accepts the writes the call answers 201 and leaves three live
rows, student 1 now `absent`, but the rows of students 2 and 3 are not
unchanged: both carry the empty status.  On a store that enforces the CHECK
constraint of the model the call is not successful: it answers 500 at
student 2. -/
theorem markAttendance_remark_blanks_omitted_students :
    MarkAttendance Faults.none (some 7) (some (exRequest [(1, "absent")])) exMarkedDay =
      (⟨201, .message "Attendance marked successfully"⟩,
        { exMarkedDay with
          attendances := [exRow 1 1 "absent", exRow 2 2 "", exRow 3 3 ""] }) ∧
    (MarkAttendance Faults.check (some 7) (some (exRequest [(1, "absent")]))
      exMarkedDay).1 = ⟨500, .error "Failed to update attendance"⟩ := by
  decide

/-- C4 (fails on the code).  Marking the roster 1, 2, 3 on an empty day with
the map {1: present, 2: late} and then once more with the same request, on a
store that accepts the writes: both calls answer 201, the first leaves
student 3 `absent`, the second leaves student 3 with the empty status, so the
live records after the second call are not those after the first.  (On a
store that enforces the CHECK constraint of the model the second call answers
500.) -/
theorem markAttendance_twice_differs :
    (MarkAttendance Faults.none (some 7) (some (exRequest [(1, "present"), (2, "late")]))
      exEmptyDay).1.code = 201 ∧
    (MarkAttendance Faults.none (some 7) (some (exRequest [(1, "present"), (2, "late")]))
      (MarkAttendance Faults.none (some 7) (some (exRequest [(1, "present"), (2, "late")]))
        exEmptyDay).2).1.code = 201 ∧
    liveRecords (MarkAttendance Faults.none (some 7)
      (some (exRequest [(1, "present"), (2, "late")])) exEmptyDay).2.attendances =
      [(1, DATE exDay, "present"), (2, DATE exDay, "late"), (3, DATE exDay, "absent")] ∧
    liveRecords (MarkAttendance Faults.none (some 7)
      (some (exRequest [(1, "present"), (2, "late")]))
      (MarkAttendance Faults.none (some 7) (some (exRequest [(1, "present"), (2, "late")]))
        exEmptyDay).2).2.attendances =
      [(1, DATE exDay, "present"), (2, DATE exDay, "late"), (3, DATE exDay, "")] ∧
    (MarkAttendance Faults.check (some 7) (some (exRequest [(1, "present"), (2, "late")]))
      (MarkAttendance Faults.check (some 7) (some (exRequest [(1, "present"), (2, "late")]))
        exEmptyDay).2).1 = ⟨500, .error "Failed to update attendance"⟩ := by
  decide

theorem foreignKeys_enforces (students : List Student) (errs : Nat → Bool) :
    (Faults.foreignKeys students errs).enforcesStudentKey students := by
  intro i a h
  simp only [Faults.foreignKeys, Bool.not_eq_true', List.any_eq_false, beq_iff_eq]
  exact fun s hs => h s hs

/-- What the foreign key keeps out: on a store that accepts rows of student id
0, with roster 1, 2, 3 on an empty day, lookups that fail leave three live rows
of student 0 on the zero day. -/
theorem markAttendance_lookup_errors_break_uniquePerDay :
    UniquePerDay exEmptyDay.attendances ∧
    (exEmptyDay.students.map (fun s => s.ID)).Nodup ∧
    ¬ UniquePerDay (MarkAttendance Faults.lookupErrs (some 7)
        (some (exRequest [(1, "present"), (2, "late")])) exEmptyDay).2.attendances := by
  decide

/-- C5.  On the schema of the program, where `attendances` has sound primary
keys and `student_id` is a foreign key into `students`, whose ids are not 0
(`lookupsSafe`, which also holds of any store in a call whose lookups do not
fail): when the table holds at most one live row per (student, day) and the
roster lists each student once, every call of `MarkAttendance`, whatever its
answer and whichever store calls fail, lookups included, leaves at most one
live row per (student, day). -/
theorem markAttendance_preserves_uniquePerDay (f : Faults) (userID : Option Nat)
    (body : Option MarkAttendanceRequest) (db : DB)
    (hstore : lookupsSafe f db.students)
    (hkeys : WellFormed db.attendances)
    (hunique : UniquePerDay db.attendances)
    (hroster : ∀ req students, ShouldBindJSON body = some req →
      StudentRepository.FindByClassAndSection f.findStudents db.students req.ClassID
        req.SectionID = some students → (students.map (fun s => s.ID)).Nodup) :
    UniquePerDay (MarkAttendance f userID body db).2.attendances := by
  have hlookup := zero_record_refused hstore
  unfold MarkAttendance
  split
  · exact hunique
  · rename_i req hreq
    split
    · exact hunique
    · rename_i date _
      split
      · exact hunique
      · rename_i markedBy
        split
        · exact hunique
        · rename_i students hst
          have hnd := hroster req students hreq hst
          split
          · exact hunique
          · split
            · rename_i rows hloop
              have := markLoop_spec f req date markedBy hlookup students 0 db.attendances [] hkeys
              rw [hloop] at this
              exact uniquePerDay_congr this hunique
            · rename_i rows staged hloop
              have hr := reconcile_unique f req date markedBy hlookup students db.attendances
                rows staged hkeys hunique hnd hloop
              split
              · split
                · exact hr.1
                · rename_i rows' hb
                  unfold AttendanceRepository.CreateBatch at hb
                  split at hb
                  · simp at hb
                  · simp only [Option.some.injEq] at hb
                    subst hb
                    exact hr.2
              · exact hr.1

/-- An instance of C5: re-marking the marked day on a store that enforces the
foreign key, the lookup for the second student failing.  Student 1 is updated,
the zero record of the failed lookup is refused and the call answers 500. -/
theorem markAttendance_preserves_uniquePerDay_witness :
    (MarkAttendance (Faults.foreignKeys exMarkedDay.students (fun j => j == 1)) (some 7)
      (some (exRequest [(1, "absent")])) exMarkedDay).1.code = 500 ∧
    UniquePerDay (MarkAttendance (Faults.foreignKeys exMarkedDay.students (fun j => j == 1))
      (some 7) (some (exRequest [(1, "absent")])) exMarkedDay).2.attendances :=
  ⟨by decide,
    markAttendance_preserves_uniquePerDay
      (Faults.foreignKeys exMarkedDay.students (fun j => j == 1)) (some 7)
      (some (exRequest [(1, "absent")])) exMarkedDay
      (Or.inr ⟨foreignKeys_enforces _ _, by decide⟩) (by decide) (by decide)
      (by
        intro req students h1 h2
        simp only [ShouldBindJSON, StudentRepository.FindByClassAndSection] at h1 h2
        have : exRequest [(1, "absent")] = req := by
          simpa [exRequest] using h1
        subst this
        have h3 : students = [exStudent 1, exStudent 2, exStudent 3] := by
          have h4 : (some [exStudent 1, exStudent 2, exStudent 3] : Option (List Student)) =
              some students := by
            rw [← h2]; decide
          exact (Option.some.inj h4).symm
        subst h3
        decide)⟩

theorem shouldBindJSON_some {body : Option MarkAttendanceRequest} {req : MarkAttendanceRequest}
    (h : ShouldBindJSON body = some req) : body = some req := by
  unfold ShouldBindJSON at h
  cases body with
  | none => simp at h
  | some r =>
    simp only at h
    split at h
    · simp at h
    · simpa using h

/-- What a call that answers 201 has done: the request was bound, dated and
authenticated, the roster was fetched and is not empty, the loop ran to its
end, and the table is the loop's table with the staged records inserted. -/
theorem markAttendance_created (f : Faults) (userID : Option Nat)
    (body : Option MarkAttendanceRequest) (db : DB)
    (h : (MarkAttendance f userID body db).1.code = 201) :
    ∃ req date markedBy students rows staged,
      ShouldBindJSON body = some req ∧ timeParse req.Date = some date ∧
      userID = some markedBy ∧
      StudentRepository.FindByClassAndSection f.findStudents db.students req.ClassID
        req.SectionID = some students ∧
      students ≠ [] ∧
      markLoop f req date markedBy 0 students db.attendances [] = .done rows staged ∧
      (MarkAttendance f userID body db).2.attendances = staged.foldl insertRow rows := by
  unfold MarkAttendance at h ⊢
  split at h
  · simp at h
  · rename_i req hreq
    split at h
    · simp at h
    · rename_i date hdate
      split at h
      · simp at h
      · rename_i markedBy
        split at h
        · simp at h
        · rename_i students hst
          split at h
          · simp at h
          · rename_i hne
            split at h
            · simp at h
            · rename_i rows staged hloop
              refine ⟨req, date, markedBy, students, rows, staged, hreq, hdate, rfl, hst, ?_,
                hloop, ?_⟩
              · intro h0; apply hne; simp [h0]
              · simp only [hreq, hdate, hst, hne, hloop, if_false]
                split at h
                · rename_i hpos
                  simp only [hpos, if_true]
                  split at h
                  · simp at h
                  · rename_i rows' hb
                    unfold AttendanceRepository.CreateBatch at hb
                    split at hb
                    · simp at hb
                    · simp only [Option.some.injEq] at hb
                      subst hb
                      simp
                · rename_i hpos
                  simp only [hpos, if_false]
                  have : staged = [] := by
                    cases staged with
                    | nil => rfl
                    | cons a l => simp at hpos
                  simp [this]

theorem hasRecord_foldl_insertRow (rows staged : List Attendance) (sid : Nat) (date : Time) :
    hasRecord (staged.foldl insertRow rows) sid date =
      (hasRecord rows sid date || hasRecord staged sid date) := by
  have e : ∀ l : List Attendance, hasRecord l sid date =
      (l.map Attendance.dropID).any (existingCond sid date) := by
    intro l
    unfold hasRecord
    rw [List.any_map]
    rfl
  rw [e, foldl_insertRow_dropID, List.any_append, ← e, ← e]

/-- What the foreign key keeps out: on a store that accepts rows of student id
0, with roster 1, 2, 3 on an empty day, when the lookups fail the call answers
201 and inserts three rows, none of them a row of a roster student. -/
theorem markAttendance_created_without_roster_rows :
    (MarkAttendance Faults.lookupErrs (some 7)
      (some (exRequest [(1, "present"), (2, "late")])) exEmptyDay).1.code = 201 ∧
    (MarkAttendance Faults.lookupErrs (some 7)
      (some (exRequest [(1, "present"), (2, "late")])) exEmptyDay).2.attendances.length = 3 ∧
    (∀ s ∈ exEmptyDay.students,
      hasRecord (MarkAttendance Faults.lookupErrs (some 7)
        (some (exRequest [(1, "present"), (2, "late")])) exEmptyDay).2.attendances s.ID
        exDay = false) := by
  decide

/-- C6.  On the schema of the program, where `attendances` has sound primary
keys and `student_id` is a foreign key into `students`, whose ids are not 0
(`lookupsSafe`, which also holds of any store in a call whose lookups do not
fail): after a call that answers 201, every roster student has a live row for
the requested day, and the table has grown by as many rows as the roster lists
students that had no live row for that day before the call. -/
theorem markAttendance_created_covers_roster (f : Faults) (userID : Option Nat)
    (req : MarkAttendanceRequest) (db : DB) (date : Time) (students : List Student)
    (hstore : lookupsSafe f db.students)
    (hkeys : WellFormed db.attendances)
    (hdate : timeParse req.Date = some date)
    (hstudents : StudentRepository.FindByClassAndSection f.findStudents db.students
      req.ClassID req.SectionID = some students)
    (hcode : (MarkAttendance f userID (some req) db).1.code = 201) :
    (∀ s ∈ students,
      hasRecord (MarkAttendance f userID (some req) db).2.attendances s.ID date = true) ∧
    (MarkAttendance f userID (some req) db).2.attendances.length =
      db.attendances.length +
        (students.filter (fun s => !hasRecord db.attendances s.ID date)).length := by
  obtain ⟨req', date', markedBy, students', rows, staged, h1, h2, _, h4, _, h6, h7⟩ :=
    markAttendance_created f userID (some req) db hcode
  have hreq : req = req' := by
    have := shouldBindJSON_some h1
    simpa using this
  subst hreq
  rw [hdate] at h2
  have hd : date = date' := by simpa using h2
  subst hd
  rw [hstudents] at h4
  have hs : students = students' := by simpa using h4
  subst hs
  have hspec := markLoop_spec f req date markedBy (zero_record_refused hstore) students 0
    db.attendances [] hkeys
  rw [h6] at hspec
  simp only [List.nil_append] at hspec
  obtain ⟨hk, hst⟩ := hspec
  rw [h7]
  refine ⟨?_, ?_⟩
  · intro s hs
    rw [hasRecord_foldl_insertRow, hasRecord_congr hk]
    cases hhas : hasRecord db.attendances s.ID date with
    | true => simp
    | false =>
      simp only [Bool.false_or]
      unfold hasRecord
      simp only [List.any_eq_true]
      refine ⟨newRecord req date markedBy s, ?_, ?_⟩
      · rw [hst]
        apply List.mem_map_of_mem
        simp [List.mem_filter, hs, hhas]
      · simp [existingCond, newRecord]
  · rw [foldl_insertRow_length, hst, List.length_map]
    have := congrArg List.length hk
    simp only [List.length_map] at this
    rw [this]

/-- An instance of C6: the roster 1, 2, 3 marked on an empty day, on a store
that enforces the foreign key. -/
theorem markAttendance_created_covers_roster_witness :
    (∀ s ∈ [exStudent 1, exStudent 2, exStudent 3],
      hasRecord (MarkAttendance (Faults.foreignKeys exEmptyDay.students (fun _ => false))
        (some 7) (some (exRequest [(1, "present"), (2, "late")]))
        exEmptyDay).2.attendances s.ID exDay = true) ∧
    (MarkAttendance (Faults.foreignKeys exEmptyDay.students (fun _ => false)) (some 7)
        (some (exRequest [(1, "present"), (2, "late")])) exEmptyDay).2.attendances.length =
      exEmptyDay.attendances.length +
        ([exStudent 1, exStudent 2, exStudent 3].filter
          (fun s => !hasRecord exEmptyDay.attendances s.ID exDay)).length :=
  markAttendance_created_covers_roster
    (Faults.foreignKeys exEmptyDay.students (fun _ => false)) (some 7)
    (exRequest [(1, "present"), (2, "late")]) exEmptyDay exDay
    [exStudent 1, exStudent 2, exStudent 3] (Or.inr ⟨foreignKeys_enforces _ _, by decide⟩)
    (by decide) (by decide) (by decide) (by decide)

/-- C7.  When the request is bound, dated and authenticated and the roster
query returns no student, `MarkAttendance` answers 400 with the no-students
message and the database is what it was, whatever the store would have done
on a lookup, an update or a batch insert. -/
theorem markAttendance_empty_roster (f : Faults) (userID : Option Nat)
    (body : Option MarkAttendanceRequest) (db : DB) (req : MarkAttendanceRequest) (date : Time)
    (markedBy : Nat)
    (hbind : ShouldBindJSON body = some req)
    (hdate : timeParse req.Date = some date)
    (huser : userID = some markedBy)
    (hroster : StudentRepository.FindByClassAndSection f.findStudents db.students req.ClassID
      req.SectionID = some []) :
    MarkAttendance f userID body db =
      (⟨400, .error "No students found for the selected class and section"⟩, db) := by
  unfold MarkAttendance
  simp [hbind, hdate, huser, hroster]

/-- An instance of C7: a request for class 2, which has no students. -/
theorem markAttendance_empty_roster_witness :
    MarkAttendance Faults.none (some 7)
        (some { ClassID := 2, SectionID := 1, Date := "2024-03-05", Attendance := some [] })
        exMarkedDay =
      (⟨400, .error "No students found for the selected class and section"⟩, exMarkedDay) :=
  markAttendance_empty_roster Faults.none (some 7)
    (some { ClassID := 2, SectionID := 1, Date := "2024-03-05", Attendance := some [] })
    exMarkedDay { ClassID := 2, SectionID := 1, Date := "2024-03-05", Attendance := some [] }
    exDay 7 (by decide) (by decide) rfl (by decide)

/-- How `MarkAttendance` ends when the `Update` of a roster student fails. -/
theorem markAttendance_of_update_failure (f : Faults) (userID : Option Nat)
    (body : Option MarkAttendanceRequest) (db : DB) (req : MarkAttendanceRequest) (date : Time)
    (markedBy : Nat) (pre post : List Student) (student : Student)
    (rows₁ staged₁ : List Attendance) (existing : Attendance)
    (hbind : ShouldBindJSON body = some req)
    (hdate : timeParse req.Date = some date)
    (huser : userID = some markedBy)
    (hroster : StudentRepository.FindByClassAndSection f.findStudents db.students req.ClassID
      req.SectionID = some (pre ++ student :: post))
    (hpre : markLoop f req date markedBy 0 pre db.attendances [] = .done rows₁ staged₁)
    (hfound : (AttendanceRepository.FindExisting (f.findExisting pre.length) rows₁ student.ID
      date).1 = some existing)
    (hfail : f.update pre.length { existing with Status := req.status student.ID } = true) :
    MarkAttendance f userID body db =
      (⟨500, .error "Failed to update attendance"⟩, { db with attendances := rows₁ }) := by
  have hloop : markLoop f req date markedBy 0 (pre ++ student :: post) db.attendances [] =
      .aborted rows₁ := by
    rw [markLoop_append, hpre]
    simp only [Nat.zero_add, markLoop, hfound, hfail, AttendanceRepository.Update, if_true]
  unfold MarkAttendance
  simp [hbind, hdate, huser, hroster, hloop]

/-- When no `Update` fails the roster loop runs to its end. -/
theorem markLoop_done (f : Faults) (req : MarkAttendanceRequest) (date : Time) (markedBy : Nat)
    (hupdate : ∀ j a, f.update j a = false) (roster : List Student) :
    ∀ (i : Nat) (rows staged : List Attendance),
      ∃ rows' staged',
        markLoop f req date markedBy i roster rows staged = .done rows' staged' := by
  induction roster with
  | nil => intro i rows staged; exact ⟨rows, staged, rfl⟩
  | cons s rest ih =>
    intro i rows staged
    simp only [markLoop]
    cases (AttendanceRepository.FindExisting (f.findExisting i) rows s.ID date).1 with
    | some existing =>
      simp only [hupdate]
      obtain ⟨r, hr⟩ : ∃ r, AttendanceRepository.Update false rows
          { existing with Status := req.status s.ID } = some r := by
        unfold AttendanceRepository.Update
        simp only [Bool.false_eq_true, if_false]
        split
        · exact ⟨_, rfl⟩
        · split <;> exact ⟨_, rfl⟩
      rw [hr]
      exact ih _ _ _
    | none => exact ih _ _ _

/-- C8, as stated, fails.  Students 1 and 2 on the roster, student 2 already
marked; the first iteration stages a new record for student 1, the `Update`
for student 2 fails, the call answers 500, and the table is what it was: the
staged record of student 1 has not been inserted. -/
theorem markAttendance_update_failure_skips_batch_insert :
    markLoop (Faults.updateErrsAt 1) (exRequest [(1, "present"), (2, "absent")]) exDay 7 0
        [exStudent 1] exHalfMarked.attendances [] =
      .done exHalfMarked.attendances [exRow 0 1 "present"] ∧
    MarkAttendance (Faults.updateErrsAt 1) (some 7)
        (some (exRequest [(1, "present"), (2, "absent")])) exHalfMarked =
      (⟨500, .error "Failed to update attendance"⟩, exHalfMarked) ∧
    hasRecord exHalfMarked.attendances 1 exDay = false := by
  decide

/-- C8, amended.  Let the loop reach `student` (after the students `pre`) with
the table `rows₁` and the staged records `staged₁`, find a row for `student`,
and let the `Update` of that row fail.  Then the call answers 500 and the
table is `rows₁`: the updates applied for the earlier students stay applied,
nothing is written for `student` or for the later students `post`, and the
staged records `staged₁` are not inserted (when no lookup erred, on a table
with sound primary keys, `rows₁` is the initial table up to statuses). -/
theorem markAttendance_update_failure_aborts (f : Faults) (userID : Option Nat)
    (body : Option MarkAttendanceRequest) (db : DB) (req : MarkAttendanceRequest) (date : Time)
    (markedBy : Nat) (pre post : List Student) (student : Student)
    (rows₁ staged₁ : List Attendance) (existing : Attendance)
    (hbind : ShouldBindJSON body = some req)
    (hdate : timeParse req.Date = some date)
    (huser : userID = some markedBy)
    (hroster : StudentRepository.FindByClassAndSection f.findStudents db.students req.ClassID
      req.SectionID = some (pre ++ student :: post))
    (hpre : markLoop f req date markedBy 0 pre db.attendances [] = .done rows₁ staged₁)
    (hfound : (AttendanceRepository.FindExisting (f.findExisting pre.length) rows₁ student.ID
      date).1 = some existing)
    (hfail : f.update pre.length { existing with Status := req.status student.ID } = true) :
    MarkAttendance f userID body db =
      (⟨500, .error "Failed to update attendance"⟩, { db with attendances := rows₁ }) ∧
    ((∀ j, f.findExisting j = false) → WellFormed db.attendances →
      rows₁.map Attendance.key = db.attendances.map Attendance.key) := by
  refine ⟨markAttendance_of_update_failure f userID body db req date markedBy pre post student
    rows₁ staged₁ existing hbind hdate huser hroster hpre hfound hfail, ?_⟩
  intro hlookup hkeys
  have := markLoop_spec f req date markedBy
    (@zero_record_refused f db.students (Or.inl hlookup)) pre 0 db.attendances []
    hkeys
  rw [hpre] at this
  exact this.1

/-- An instance of C8, amended: the roster 1, 2, 3, all marked; the `Update`
for student 2 fails after the one for student 1 was applied. -/
theorem markAttendance_update_failure_aborts_witness :
    MarkAttendance (Faults.updateErrsAt 1) (some 7)
        (some (exRequest [(1, "absent"), (2, "absent"), (3, "late")])) exMarkedDay =
      (⟨500, .error "Failed to update attendance"⟩,
        { exMarkedDay with
          attendances := [exRow 1 1 "absent", exRow 2 2 "late", exRow 3 3 "absent"] }) ∧
    ((∀ j, (Faults.updateErrsAt 1).findExisting j = false) →
      WellFormed exMarkedDay.attendances →
      [exRow 1 1 "absent", exRow 2 2 "late", exRow 3 3 "absent"].map Attendance.key =
        exMarkedDay.attendances.map Attendance.key) :=
  markAttendance_update_failure_aborts (Faults.updateErrsAt 1) (some 7)
    (some (exRequest [(1, "absent"), (2, "absent"), (3, "late")])) exMarkedDay
    (exRequest [(1, "absent"), (2, "absent"), (3, "late")]) exDay 7
    [exStudent 1] [exStudent 3] (exStudent 2)
    [exRow 1 1 "absent", exRow 2 2 "late", exRow 3 3 "absent"] [] (exRow 2 2 "late")
    (by decide) (by decide) rfl (by decide) (by decide) (by decide) (by decide)

/-- C9, as stated, fails: when the roster query fails, a well-formed,
authenticated mark request is answered 400, not 500. -/
theorem markAttendance_roster_error_is_400 :
    MarkAttendance Faults.rosterErrs (some 7)
        (some (exRequest [(1, "present"), (2, "late")])) exEmptyDay =
      (⟨400, .error "Failed to fetch students"⟩, exEmptyDay) := by
  decide

/-- C9, amended.  For a mark request that is bound, dated and authenticated:
(1) when no store call fails and the roster is not empty the answer is 201
with a message; (2) when the roster query fails the answer is 400; (3) when
the `Update` of a roster student fails the answer is 500; (4) when the batch
insert of the staged records fails the answer is 500; and (5) for any request,
400 is answered only for a body that does not bind, a date that does not
parse, a failed roster query or an empty roster.  (What an erring
existing-record lookup leads to is not part of this statement.) -/
theorem markAttendance_status_mapping (f : Faults) (userID : Option Nat)
    (body : Option MarkAttendanceRequest) (db : DB) :
    (∀ req date markedBy students,
      ShouldBindJSON body = some req → timeParse req.Date = some date →
      userID = some markedBy →
      StudentRepository.FindByClassAndSection f.findStudents db.students req.ClassID
        req.SectionID = some students →
      students ≠ [] →
      (∀ j, f.findExisting j = false) → (∀ j a, f.update j a = false) →
      (∀ l, f.createBatch l = false) →
      (MarkAttendance f userID body db).1 =
        ⟨201, .message "Attendance marked successfully"⟩) ∧
    (∀ req date markedBy,
      ShouldBindJSON body = some req → timeParse req.Date = some date →
      userID = some markedBy → f.findStudents = true →
      (MarkAttendance f userID body db).1 = ⟨400, .error "Failed to fetch students"⟩) ∧
    (∀ req date markedBy pre student post rows₁ staged₁ existing,
      ShouldBindJSON body = some req → timeParse req.Date = some date →
      userID = some markedBy →
      StudentRepository.FindByClassAndSection f.findStudents db.students req.ClassID
        req.SectionID = some (pre ++ student :: post) →
      markLoop f req date markedBy 0 pre db.attendances [] = .done rows₁ staged₁ →
      (AttendanceRepository.FindExisting (f.findExisting pre.length) rows₁ student.ID
        date).1 = some existing →
      f.update pre.length { existing with Status := req.status student.ID } = true →
      (MarkAttendance f userID body db).1 = ⟨500, .error "Failed to update attendance"⟩) ∧
    (∀ req date markedBy students rows staged,
      ShouldBindJSON body = some req → timeParse req.Date = some date →
      userID = some markedBy →
      StudentRepository.FindByClassAndSection f.findStudents db.students req.ClassID
        req.SectionID = some students →
      markLoop f req date markedBy 0 students db.attendances [] = .done rows staged →
      staged ≠ [] → f.createBatch staged = true →
      (MarkAttendance f userID body db).1 =
        ⟨500, .error "Failed to create attendance records"⟩) ∧
    ((MarkAttendance f userID body db).1.code = 400 →
      ShouldBindJSON body = none ∨
      ∃ req, ShouldBindJSON body = some req ∧
        (timeParse req.Date = none ∨ f.findStudents = true ∨
          StudentRepository.FindByClassAndSection f.findStudents db.students req.ClassID
            req.SectionID = some [])) := by
  refine ⟨?_, ?_, ?_, ?_, ?_⟩
  · intro req date markedBy students hbind hdate huser hst hne _ hupdate hbatch
    obtain ⟨rows, staged, hloop⟩ :=
      markLoop_done f req date markedBy hupdate students 0 db.attendances []
    have hlen : (students.length == 0) = false := by
      cases students with
      | nil => exact absurd rfl hne
      | cons a l => simp
    unfold MarkAttendance
    simp only [hbind, hdate, huser, hst, hlen, hloop, hbatch, AttendanceRepository.CreateBatch,
      Bool.false_eq_true, if_false]
    split <;> rfl
  · intro req date markedBy hbind hdate huser hfail
    unfold MarkAttendance
    simp [hbind, hdate, huser, hfail, StudentRepository.FindByClassAndSection]
  · intro req date markedBy pre student post rows₁ staged₁ existing hbind hdate huser hst hpre
      hfound hfail
    rw [markAttendance_of_update_failure f userID body db req date markedBy pre post student
      rows₁ staged₁ existing hbind hdate huser hst hpre hfound hfail]
  · intro req date markedBy students rows staged hbind hdate huser hst hloop hne hfail
    have hlen : (students.length == 0) = false := by
      cases students with
      | nil => simp [markLoop] at hloop; exact absurd hloop.2 hne
      | cons a l => simp
    have hpos : staged.length > 0 := by
      cases staged with
      | nil => exact absurd rfl hne
      | cons a l => simp
    unfold MarkAttendance
    simp [hbind, hdate, huser, hst, hlen, hloop, hfail, hpos, AttendanceRepository.CreateBatch]
  · intro h
    unfold MarkAttendance at h
    split at h
    · left; assumption
    · rename_i req hreq
      right
      refine ⟨req, hreq, ?_⟩
      split at h
      · left; assumption
      · right
        split at h
        · simp at h
        · split at h
          · rename_i hst
            left
            unfold StudentRepository.FindByClassAndSection at hst
            split at hst
            · assumption
            · simp at hst
          · rename_i students hst
            right
            split at h
            · rename_i hlen
              have : students = [] := by
                cases students with
                | nil => rfl
                | cons a l => simp at hlen
              rw [hst, this]
            · split at h
              · simp at h
              · split at h
                · split at h <;> simp at h
                · simp at h

/-- An instance of C9, amended (its first part): the roster 1, 2, 3 marked on
an empty day on a store without errors. -/
theorem markAttendance_status_mapping_witness :
    (MarkAttendance Faults.none (some 7) (some (exRequest [(1, "present"), (2, "late")]))
        exEmptyDay).1 = ⟨201, .message "Attendance marked successfully"⟩ :=
  (markAttendance_status_mapping Faults.none (some 7)
    (some (exRequest [(1, "present"), (2, "late")])) exEmptyDay).1
    (exRequest [(1, "present"), (2, "late")]) exDay 7
    [exStudent 1, exStudent 2, exStudent 3] (by decide) (by decide) rfl (by decide) (by decide)
    (fun _ => rfl) (fun _ _ => rfl) (fun _ => rfl)

theorem optionalDate_of_parse_error {s : String} (h : timeParse s = none) :
    optionalDate s = optionalDate "" := by
  unfold optionalDate
  rw [h]
  simp

/-- C10, as stated, fails: `garbage` is not a date, yet the by-student,
by-class, statistics and reports operations given it answer 200. -/
theorem query_handlers_accept_unparsable_date :
    timeParse "garbage" = none ∧ "garbage" ≠ "" ∧
    (GetAttendanceByStudent Faults.none "1" "garbage" "" exMarkedDay).code = 200 ∧
    (GetAttendanceByClass Faults.none "1" "" "garbage" exMarkedDay).code = 200 ∧
    (GetAttendanceStatistics Faults.none "1" "" "" "" "garbage" exMarkedDay).code = 200 ∧
    (GetAttendanceReports Faults.none exDay exDay 0 "" "" "garbage" "" exMarkedDay).code = 200 := by
  decide

/-- C10, amended.  Let `s` be a non-empty string that does not parse as
`YYYY-MM-DD`.  A mark request that carries `s` as its date is answered 400
(with the invalid-date message when the body binds) and writes nothing.  The
by-class, by-student and statistics operations answer a call that carries `s`
as a date exactly as they answer the call without that date, and the reports
operation answers it exactly as it answers the call with the zero date
`0001-01-01` in its place; by-class, by-student and reports never answer
400. -/
theorem unparsable_date_handling (f : Faults) (s : String) (hne : s ≠ "")
    (hs : timeParse s = none) :
    (∀ userID req db, req.Date = s →
      (MarkAttendance f userID (some req) db).1.code = 400 ∧
      (MarkAttendance f userID (some req) db).2 = db ∧
      (ShouldBindJSON (some req) = some req →
        (MarkAttendance f userID (some req) db).1 =
          ⟨400, .error "Invalid date format. Use YYYY-MM-DD"⟩)) ∧
    (∀ classID sectionID db,
      GetAttendanceByClass f classID sectionID s db =
        GetAttendanceByClass f classID sectionID "" db ∧
      (GetAttendanceByClass f classID sectionID s db).code ≠ 400) ∧
    (∀ studentID other db,
      GetAttendanceByStudent f studentID s other db =
        GetAttendanceByStudent f studentID "" other db ∧
      GetAttendanceByStudent f studentID other s db =
        GetAttendanceByStudent f studentID other "" db ∧
      (GetAttendanceByStudent f studentID s other db).code ≠ 400 ∧
      (GetAttendanceByStudent f studentID other s db).code ≠ 400) ∧
    (∀ studentID classID sectionID other db,
      GetAttendanceStatistics f studentID classID sectionID s other db =
        GetAttendanceStatistics f studentID classID sectionID "" other db ∧
      GetAttendanceStatistics f studentID classID sectionID other s db =
        GetAttendanceStatistics f studentID classID sectionID other "" db) ∧
    (∀ now₁ now₂ offset classID sectionID other db,
      GetAttendanceReports f now₁ now₂ offset classID sectionID s other db =
        GetAttendanceReports f now₁ now₂ offset classID sectionID "0001-01-01" other db ∧
      GetAttendanceReports f now₁ now₂ offset classID sectionID other s db =
        GetAttendanceReports f now₁ now₂ offset classID sectionID other "0001-01-01" db ∧
      (GetAttendanceReports f now₁ now₂ offset classID sectionID s other db).code ≠ 400 ∧
      (GetAttendanceReports f now₁ now₂ offset classID sectionID other s db).code ≠ 400) := by
  have hopt := optionalDate_of_parse_error hs
  have hzero : timeParse "0001-01-01" = some 0 := by decide
  have hne : (s != "") = true := by
    rw [bne_iff_ne]
    exact hne
  have hlist : ∀ r : Option (List Attendance), (listResponse r).code ≠ 400 := by
    intro r
    cases r <;> simp [listResponse]
  refine ⟨?_, ?_, ?_, ?_, ?_⟩
  · intro userID req db hdate
    have hs' : timeParse req.Date = none := by rw [hdate]; exact hs
    cases hb : ShouldBindJSON (some req) with
    | none =>
      unfold MarkAttendance
      simp [hb]
    | some req' =>
      have hreq : req = req' := by
        have := shouldBindJSON_some hb
        simpa using this
      subst hreq
      unfold MarkAttendance
      simp [hb, hs']
  · intro classID sectionID db
    refine ⟨?_, hlist _⟩
    unfold GetAttendanceByClass
    rw [hopt]
  · intro studentID other db
    refine ⟨?_, ?_, hlist _, hlist _⟩
    · unfold GetAttendanceByStudent
      rw [hopt]
    · unfold GetAttendanceByStudent
      rw [hopt]
  · intro studentID classID sectionID other db
    constructor
    · unfold GetAttendanceStatistics
      rw [hopt]
    · unfold GetAttendanceStatistics
      rw [hopt]
  · intro now₁ now₂ offset classID sectionID other db
    refine ⟨?_, ?_, hlist _, hlist _⟩
    · unfold GetAttendanceReports reportStart
      simp [hs, hzero, hne]
    · unfold GetAttendanceReports reportEnd
      simp [hs, hzero, hne]

/-- An instance of C10, amended (its by-student part): the start date `garbage`. -/
theorem unparsable_date_handling_witness :
    GetAttendanceByStudent Faults.none "1" "garbage" "2024-03-31" exMarkedDay =
      GetAttendanceByStudent Faults.none "1" "" "2024-03-31" exMarkedDay :=
  ((unparsable_date_handling Faults.none "garbage" (by decide) (by decide)).2.2.1 "1"
    "2024-03-31" exMarkedDay).1

/-! ## Lemmas about the statistics -/

theorem count_append_status (q : Query) (rows : List Attendance) (s t : String) (hst : s ≠ t)
    (rest : Query) (fault : Bool) :
    Query.Count (q ++ [fun a => a.Status == s] ++ [fun a => a.Status == t] ++ rest) fault
      rows = 0 := by
  unfold Query.Count
  split
  · rfl
  · rw [List.length_eq_zero, List.filter_eq_nil_iff]
    intro a _
    simp only [List.all_append, List.all_cons, List.all_nil, Bool.and_true, beq_iff_eq,
      Bool.and_eq_true, not_and, Bool.not_eq_true', decide_eq_true_eq]
    intro _ h _
    exact absurd (h.1.2.symm.trans h.2) hst

/-- The counts that `countByStatus` returns, whatever the store holds: only
`total` and `present` are counts of rows; `absent`, `late` and `excused`
carry the condition `status = 'present'` as well and are 0. -/
theorem countByStatus_absent_late_excused (fault : Nat → Bool) (rows : List Attendance)
    (q : Query) :
    (countByStatus fault rows q).absent = 0 ∧ (countByStatus fault rows q).late = 0 ∧
    (countByStatus fault rows q).excused = 0 := by
  refine ⟨?_, ?_, ?_⟩
  · have := count_append_status q rows "present" "absent" (by decide) []
      (fault 0 || fault 1 || fault 2)
    simpa [countByStatus] using this
  · have := count_append_status q rows "present" "absent" (by decide)
      [fun a => a.Status == "late"] (fault 0 || fault 1 || fault 2 || fault 3)
    simpa [countByStatus] using this
  · have := count_append_status q rows "present" "absent" (by decide)
      [fun a => a.Status == "late", fun a => a.Status == "excused"]
      (fault 0 || fault 1 || fault 2 || fault 3 || fault 4)
    simpa [countByStatus] using this

theorem countByStatus_total (fault : Nat → Bool) (rows : List Attendance) (q : Query)
    (h0 : fault 0 = false) :
    (countByStatus fault rows q).total =
      (rows.filter (fun a => !a.Deleted && q.all (fun c => c a))).length := by
  simp [countByStatus, Query.Count, h0]

theorem countByStatus_present (fault : Nat → Bool) (rows : List Attendance) (q : Query)
    (h0 : fault 0 = false) (h1 : fault 1 = false) :
    (countByStatus fault rows q).present =
      (rows.filter (fun a => !a.Deleted && q.all (fun c => c a) &&
        a.Status == "present")).length := by
  simp only [countByStatus, Query.Count, h0, h1, Bool.or_self, Bool.false_eq_true, if_false]
  congr 1
  apply List.filter_congr
  intro a _
  simp [List.all_append, Bool.and_assoc]

theorem countByStatus_percentage (fault : Nat → Bool) (rows : List Attendance) (q : Query) :
    (countByStatus fault rows q).percentage =
      percentageOf (countByStatus fault rows q).present (countByStatus fault rows q).total :=
  rfl

/-! ## Claims about the statistics -/

/-- C11 (fails on the code).  Student 1 has four live rows, one of each
status, and statistics are asked for student 1, and for class 1, without a
date window.  `total` is 4 and `present` is 1, but `absent`, `late` and
`excused` are 0, not 1: the condition `status = 'present'` of the first status
count is still on the statement when the later counts run. -/
theorem statistics_later_counts_are_zero :
    (exFourStatuses.filter (fun a => a.Status == "absent")).length = 1 ∧
    (exFourStatuses.filter (fun a => a.Status == "late")).length = 1 ∧
    (exFourStatuses.filter (fun a => a.Status == "excused")).length = 1 ∧
    (AttendanceRepository.GetStatistics Faults.none.count exFourStatuses 1 0 0).total = 4 ∧
    (AttendanceRepository.GetStatistics Faults.none.count exFourStatuses 1 0 0).present = 1 ∧
    (AttendanceRepository.GetStatistics Faults.none.count exFourStatuses 1 0 0).absent = 0 ∧
    (AttendanceRepository.GetStatistics Faults.none.count exFourStatuses 1 0 0).late = 0 ∧
    (AttendanceRepository.GetStatistics Faults.none.count exFourStatuses 1 0 0).excused = 0 ∧
    (AttendanceRepository.GetClassStatistics Faults.none.count exFourStatuses 1 0 0 0).total
      = 4 ∧
    (AttendanceRepository.GetClassStatistics Faults.none.count exFourStatuses 1 0 0 0).present
      = 1 ∧
    (AttendanceRepository.GetClassStatistics Faults.none.count exFourStatuses 1 0 0 0).absent
      = 0 ∧
    (AttendanceRepository.GetClassStatistics Faults.none.count exFourStatuses 1 0 0 0).late
      = 0 ∧
    (AttendanceRepository.GetClassStatistics Faults.none.count exFourStatuses 1 0 0 0).excused
      = 0 := by
  decide

theorem float64_of_bounds {q : ℚ} (k : ℤ) (h1 : (2 : ℚ) ^ k ≤ q) (h2 : q < (2 : ℚ) ^ (k + 1)) :
    float64 q = roundHalfEven (q / 2 ^ (k - 52)) * 2 ^ (k - 52) := by
  have hpos : 0 < q := lt_of_lt_of_le (by positivity) h1
  have hlog : Int.log 2 q = k := by
    have a : k ≤ Int.log 2 q :=
      (Int.zpow_le_iff_le_log (by norm_num) hpos).mp (by exact_mod_cast h1)
    have b : Int.log 2 q < k + 1 :=
      (Int.lt_zpow_iff_log_lt (by norm_num) hpos).mp (by exact_mod_cast h2)
    omega
  unfold float64
  rw [if_neg (ne_of_gt hpos), if_pos hpos, hlog]

theorem roundHalfEven_of_near {q : ℚ} (n : ℤ) (h1 : (n : ℚ) - 1 / 2 < q)
    (h2 : q < n + 1 / 2) : roundHalfEven q = n := by
  unfold roundHalfEven
  simp only
  by_cases hq : (n : ℚ) ≤ q
  · have hf : ⌊q⌋ = n := by
      rw [Int.floor_eq_iff]; constructor <;> linarith
    rw [hf, if_pos (by linarith)]
  · have hf : ⌊q⌋ = n - 1 := by
      rw [Int.floor_eq_iff]; push_cast; constructor <;> linarith
    rw [hf]
    push_cast
    rw [if_neg (by linarith), if_pos (by linarith)]
    ring

/-- In `float64` arithmetic `6 / 10 * 100` is exactly 60: the quotient rounds
to `5404319552844595 / 2 ^ 53` and its product with 100 rounds to 60. -/
theorem percentageOf_six_of_ten : percentageOf 6 10 = 60 := by
  have h6 : float64 6 = 6 := by
    rw [float64_of_bounds 2 (by norm_num) (by norm_num),
      roundHalfEven_of_near (6 * 2 ^ 50) (by norm_num) (by norm_num)]
    norm_num
  have h10 : float64 10 = 10 := by
    rw [float64_of_bounds 3 (by norm_num) (by norm_num),
      roundHalfEven_of_near (10 * 2 ^ 49) (by norm_num) (by norm_num)]
    norm_num
  have hq : float64 (6 / 10) = 5404319552844595 / 2 ^ 53 := by
    rw [float64_of_bounds (-1) (by norm_num) (by norm_num),
      roundHalfEven_of_near 5404319552844595 (by norm_num) (by norm_num)]
    norm_num
  have hr : float64 (5404319552844595 / 2 ^ 53 * 100) = 60 := by
    rw [float64_of_bounds 5 (by norm_num) (by norm_num),
      roundHalfEven_of_near (60 * 2 ^ 47) (by norm_num) (by norm_num)]
    norm_num
  unfold percentageOf
  simp only [gt_iff_lt, Nat.ofNat_pos, if_true, Nat.cast_ofNat]
  rw [h6, h10, hq, hr]

/-- C12.  For every result `s` of `GetStatistics` or `GetClassStatistics`,
whatever the store holds and whichever counts fail: when the returned `total`
is 0 the `percentage` is 0; when it is positive the `percentage` is the
`float64` value of `float64(present) / float64(total) * 100`; and when `total`
is 10 and `present` is 6 the `percentage` is exactly 60. -/
theorem statistics_percentage (fault : Nat → Bool) (rows : List Attendance) (s : Stats)
    (hs : (∃ studentID startDate endDate,
        s = AttendanceRepository.GetStatistics fault rows studentID startDate endDate) ∨
      (∃ classID sectionID startDate endDate,
        s = AttendanceRepository.GetClassStatistics fault rows classID sectionID
          startDate endDate)) :
    (s.total = 0 → s.percentage = 0) ∧
    (0 < s.total → s.percentage =
      float64 (float64 (float64 s.present / float64 s.total) * 100)) ∧
    (s.total = 10 → s.present = 6 → s.percentage = 60) := by
  have hp : s.percentage = percentageOf s.present s.total := by
    rcases hs with ⟨a, b, c, rfl⟩ | ⟨a, b, c, d, rfl⟩
    · exact countByStatus_percentage _ _ _
    · exact countByStatus_percentage _ _ _
  refine ⟨?_, ?_, ?_⟩
  · intro h0
    rw [hp, h0]
    simp [percentageOf]
  · intro hpos
    rw [hp]
    simp [percentageOf, hpos]
  · intro h10 h6
    rw [hp, h10, h6]
    exact percentageOf_six_of_ten

/-- An instance of C12: student 1 with ten rows, six of them `present`, two
`absent`, one `late` and one `excused`, over the full range. -/
theorem statistics_percentage_witness :
    (AttendanceRepository.GetStatistics Faults.none.count exTenRows 1 0 0).total = 10 ∧
    (AttendanceRepository.GetStatistics Faults.none.count exTenRows 1 0 0).present = 6 ∧
    (AttendanceRepository.GetStatistics Faults.none.count exTenRows 1 0 0).percentage = 60 :=
  ⟨by decide, by decide,
    (statistics_percentage Faults.none.count exTenRows
      (AttendanceRepository.GetStatistics Faults.none.count exTenRows 1 0 0)
      (Or.inl ⟨1, 0, 0, rfl⟩)).2.2 (by decide) (by decide)⟩

theorem isZero_eq_false {t : Time} (h : t ≠ 0) : Time.IsZero t = false := by
  simp [Time.IsZero, h]

/-- The rows that `FindByDateRange` returns are the rows its WHERE clause
keeps, each as often as the table holds it. -/
theorem findByDateRange_perm (rows l : List Attendance) (startDate endDate : Time)
    (classID sectionID : Option Nat) :
    AttendanceRepository.FindByDateRange false rows startDate endDate classID sectionID
      = some l →
    l.Perm (rows.filter (fun a =>
      !a.Deleted && (decide (a.Date ≥ startDate) && decide (a.Date ≤ endDate)) &&
      (match classID with | some c => a.ClassID == c | none => true) &&
      (match sectionID with | some s => a.SectionID == s | none => true))) := by
  intro h
  unfold AttendanceRepository.FindByDateRange at h
  simp only [Bool.false_eq_true, if_false, Option.some.injEq] at h
  subst h
  unfold orderDateDescStudentAsc
  exact List.perm_insertionSort
    (fun a b : Attendance => a.Date > b.Date ∨ (a.Date = b.Date ∧ a.StudentID ≤ b.StudentID)) _

/-- The `total` of `GetStatistics` when its first count does not fail. -/
theorem getStatistics_total (fault : Nat → Bool) (rows : List Attendance) (studentID : Nat)
    (startDate endDate : Time) (h0 : fault 0 = false) :
    (AttendanceRepository.GetStatistics fault rows studentID startDate endDate).total =
      (rows.filter (fun a => !a.Deleted && a.StudentID == studentID &&
        (startDate.IsZero || decide (startDate ≤ a.Date)) &&
        (endDate.IsZero || decide (a.Date ≤ endDate)))).length := by
  unfold AttendanceRepository.GetStatistics
  rw [countByStatus_total _ _ _ h0]
  congr 1
  apply List.filter_congr
  intro a _
  cases startDate.IsZero <;> cases endDate.IsZero <;> simp [Bool.and_assoc]

/-- The `total` of `GetClassStatistics` when its first count does not fail. -/
theorem getClassStatistics_total (fault : Nat → Bool) (rows : List Attendance)
    (classID sectionID : Nat) (startDate endDate : Time) (h0 : fault 0 = false) :
    (AttendanceRepository.GetClassStatistics fault rows classID sectionID startDate
        endDate).total =
      (rows.filter (fun a => !a.Deleted && a.ClassID == classID &&
        (sectionID == 0 || a.SectionID == sectionID) &&
        (startDate.IsZero || decide (startDate ≤ a.Date)) &&
        (endDate.IsZero || decide (a.Date ≤ endDate)))).length := by
  unfold AttendanceRepository.GetClassStatistics
  rw [countByStatus_total _ _ _ h0]
  congr 1
  apply List.filter_congr
  intro a _
  by_cases hsec : sectionID > 0
  · have : (sectionID == 0) = false := by
      rw [beq_eq_false_iff_ne]; omega
    cases startDate.IsZero <;> cases endDate.IsZero <;> simp [hsec, this, Bool.and_assoc]
  · have : sectionID = 0 := by omega
    cases startDate.IsZero <;> cases endDate.IsZero <;> simp [this, Bool.and_assoc]

theorem midnight_ge_iff (s a : Int) (hs : s % 86400 = 0) (ha : a % 86400 = 0) :
    s ≤ a ↔ s / 86400 ≤ a / 86400 := by
  omega

theorem midnight_le_iff (a e : Int) (ha : a % 86400 = 0) :
    a ≤ e ↔ a / 86400 ≤ e / 86400 := by
  omega

/-- C13, as stated, fails: `0001-01-01` is a date, and it parses to the zero
time, which the statistics read as no bound.  With the start and the end both
`0001-01-01`, the statistics of student 1 and of class 1 on the marked day
count the rows of 2024-03-05, which are dated after the end. -/
theorem zero_date_window_is_ignored :
    timeParse "0001-01-01" = some 0 ∧ optionalDate "0001-01-01" = 0 ∧
    (∀ a ∈ exMarkedDay.attendances, a.Deleted = false ∧ a.ClassID = 1 ∧ (0 : Int) < a.Date) ∧
    (AttendanceRepository.GetStatistics Faults.none.count exMarkedDay.attendances 1 0 0).total
      = 1 ∧
    (AttendanceRepository.GetClassStatistics Faults.none.count exMarkedDay.attendances 1 0 0
      0).total = 3 := by
  decide

/-- C13, amended.  On a table whose rows are dated at midnight UTC, as the rows
that `MarkAttendance` writes are, and for a start at midnight UTC, as a parsed
date is, the window is one of days, both ends included: `total` of
`GetStatistics` and of `GetClassStatistics` (when the first count does not
fail) is the number of live rows of the subject whose day is from the day of
the start, unless the start is the zero time, to the day of the end, unless the
end is the zero time; `FindByDateRange` returns a row exactly when it is a live
row that meets the class and section filters and whose day is from the day of
the start to the day of the end.  So a row of the start's day or of the end's
day takes part and a row dated before the start or after the end does not,
except that a statistics bound of `0001-01-01`, which is the zero time, is no
bound. -/
theorem date_window_by_day (fault : Nat → Bool) (rows : List Attendance)
    (startDate endDate : Time) (hrows : ∀ a ∈ rows, a.Date % 86400 = 0)
    (hstart : startDate % 86400 = 0) :
    (∀ studentID, fault 0 = false →
      (AttendanceRepository.GetStatistics fault rows studentID startDate endDate).total =
        (rows.filter (fun a => !a.Deleted && a.StudentID == studentID &&
          (startDate == 0 || decide (DATE startDate ≤ DATE a.Date)) &&
          (endDate == 0 || decide (DATE a.Date ≤ DATE endDate)))).length) ∧
    (∀ classID sectionID, fault 0 = false →
      (AttendanceRepository.GetClassStatistics fault rows classID sectionID startDate
          endDate).total =
        (rows.filter (fun a => !a.Deleted && a.ClassID == classID &&
          (sectionID == 0 || a.SectionID == sectionID) &&
          (startDate == 0 || decide (DATE startDate ≤ DATE a.Date)) &&
          (endDate == 0 || decide (DATE a.Date ≤ DATE endDate)))).length) ∧
    (∀ classID sectionID l,
      AttendanceRepository.FindByDateRange false rows startDate endDate classID sectionID
        = some l →
      ∀ a, a ∈ l ↔ (a ∈ rows ∧ a.Deleted = false ∧ DATE startDate ≤ DATE a.Date ∧
        DATE a.Date ≤ DATE endDate ∧
        (∀ c, classID = some c → a.ClassID = c) ∧
        (∀ s, sectionID = some s → a.SectionID = s))) ∧
    timeParse "0001-01-01" = some 0 := by
  have h1 : ∀ a ∈ rows, decide (startDate ≤ a.Date) = decide (DATE startDate ≤ DATE a.Date) :=
    fun a ha => decide_eq_decide.mpr (midnight_ge_iff startDate a.Date hstart (hrows a ha))
  have h2 : ∀ a ∈ rows, decide (a.Date ≤ endDate) = decide (DATE a.Date ≤ DATE endDate) :=
    fun a ha => decide_eq_decide.mpr (midnight_le_iff a.Date endDate (hrows a ha))
  refine ⟨?_, ?_, ?_, by decide⟩
  · intro studentID h0
    rw [getStatistics_total _ _ _ _ _ h0]
    congr 1
    apply List.filter_congr
    intro a ha
    simp only [Time.IsZero, h1 a ha, h2 a ha]
  · intro classID sectionID h0
    rw [getClassStatistics_total _ _ _ _ _ _ h0]
    congr 1
    apply List.filter_congr
    intro a ha
    simp only [Time.IsZero, h1 a ha, h2 a ha]
  · intro classID sectionID l h a
    rw [(findByDateRange_perm _ _ _ _ _ _ h).mem_iff, List.mem_filter]
    constructor
    · rintro ⟨ha, hc⟩
      have e1 := h1 a ha
      have e2 := h2 a ha
      simp only [ge_iff_le] at hc
      rw [e1, e2] at hc
      refine ⟨ha, ?_⟩
      revert hc
      cases classID <;> cases sectionID <;> simp [and_assoc]
    · rintro ⟨ha, hc⟩
      refine ⟨ha, ?_⟩
      have e1 := h1 a ha
      have e2 := h2 a ha
      simp only [ge_iff_le]
      rw [e1, e2]
      revert hc
      cases classID <;> cases sectionID <;> simp [and_assoc]

/-- An instance of C13, amended: the window from 2024-03-05 to 2024-03-06 on
the four rows of student 1, dated 2024-03-05 to 2024-03-08, holds the rows of
those two days. -/
theorem date_window_by_day_witness :
    (AttendanceRepository.GetStatistics Faults.none.count exFourStatuses 1 exDay
        (exDay + 86400)).total = 2 ∧
    (AttendanceRepository.GetStatistics Faults.none.count exFourStatuses 1 exDay
        (exDay + 86400)).total =
      (exFourStatuses.filter (fun a => !a.Deleted && a.StudentID == 1 &&
        (exDay == 0 || decide (DATE exDay ≤ DATE a.Date)) &&
        (exDay + 86400 == 0 || decide (DATE a.Date ≤ DATE (exDay + 86400))))).length :=
  ⟨by decide,
    (date_window_by_day Faults.none.count exFourStatuses exDay (exDay + 86400)
      (by decide) (by decide)).1 1 rfl⟩

/-- C14, as stated, fails: with `class_id` 1 alone, a `section_id` of `0`, or
one that is not a number, is supplied and restricts nothing.  On the marked
day, whose three rows are of class 1 and section 1, the answer is the answer
without `section_id` and counts the three rows, none of which is of section 0;
`section_id` 2 does restrict, to no row. -/
theorem section_id_zero_restricts_nothing :
    parseUint32 "0" = 0 ∧ parseUint32 "abc" = 0 ∧
    (∀ a ∈ exMarkedDay.attendances, a.ClassID = 1 ∧ a.SectionID = 1) ∧
    GetAttendanceStatistics Faults.none "" "1" "0" "" "" exMarkedDay =
      GetAttendanceStatistics Faults.none "" "1" "" "" "" exMarkedDay ∧
    GetAttendanceStatistics Faults.none "" "1" "abc" "" "" exMarkedDay =
      GetAttendanceStatistics Faults.none "" "1" "" "" "" exMarkedDay ∧
    (AttendanceRepository.GetClassStatistics Faults.none.count exMarkedDay.attendances
      (parseUint32 "1") (parseUint32 "0") (optionalDate "") (optionalDate "")).total = 3 ∧
    (AttendanceRepository.GetClassStatistics Faults.none.count exMarkedDay.attendances
      (parseUint32 "1") (parseUint32 "2") (optionalDate "") (optionalDate "")).total = 0 := by
  have h0 : parseUint32 "0" = 0 := by decide
  have habc : parseUint32 "abc" = 0 := by decide
  refine ⟨h0, habc, by decide, ?_, ?_, by decide, by decide⟩
  · simp [GetAttendanceStatistics, h0]
  · simp [GetAttendanceStatistics, habc]

/-- C14, amended.  `GetAttendanceStatistics` answers 400 when neither
`student_id` nor `class_id` is given, whatever the store holds or does.  With
a `student_id` and no `class_id` it answers 200 with what `GetStatistics`
returns for that student and the date window.  With a `class_id` and no
`student_id` it answers 200 with what `GetClassStatistics` returns for that
class and the number that `section_id` parses to, 0 when it is empty: when
that number is positive (and the first count does not fail) `total` counts rows
of that class and section only, and when it is 0, as for `0` and for a
`section_id` that is not a number, the answer is the answer without
`section_id`, for the whole class. -/
theorem getAttendanceStatistics_dispatch (f : Faults) (sectionIDStr startDateStr
    endDateStr : String) (db : DB) :
    GetAttendanceStatistics f "" "" sectionIDStr startDateStr endDateStr db =
      ⟨400, .error "Either student_id or class_id is required"⟩ ∧
    (∀ studentIDStr, studentIDStr ≠ "" →
      GetAttendanceStatistics f studentIDStr "" sectionIDStr startDateStr endDateStr db =
        ⟨200, .stats (AttendanceRepository.GetStatistics f.count db.attendances
          (parseUint32 studentIDStr) (optionalDate startDateStr)
          (optionalDate endDateStr))⟩) ∧
    (∀ classIDStr, classIDStr ≠ "" →
      (sectionIDStr = "" →
        GetAttendanceStatistics f "" classIDStr sectionIDStr startDateStr endDateStr db =
          ⟨200, .stats (AttendanceRepository.GetClassStatistics f.count db.attendances
            (parseUint32 classIDStr) 0 (optionalDate startDateStr)
            (optionalDate endDateStr))⟩) ∧
      (sectionIDStr ≠ "" →
        GetAttendanceStatistics f "" classIDStr sectionIDStr startDateStr endDateStr db =
          ⟨200, .stats (AttendanceRepository.GetClassStatistics f.count db.attendances
            (parseUint32 classIDStr) (parseUint32 sectionIDStr) (optionalDate startDateStr)
            (optionalDate endDateStr))⟩ ∧
        (0 < parseUint32 sectionIDStr → f.count 0 = false →
          (AttendanceRepository.GetClassStatistics f.count db.attendances
            (parseUint32 classIDStr) (parseUint32 sectionIDStr) (optionalDate startDateStr)
            (optionalDate endDateStr)).total =
          (db.attendances.filter (fun a => !a.Deleted &&
            a.ClassID == parseUint32 classIDStr &&
            a.SectionID == parseUint32 sectionIDStr &&
            ((optionalDate startDateStr).IsZero ||
              decide (optionalDate startDateStr ≤ a.Date)) &&
            ((optionalDate endDateStr).IsZero ||
              decide (a.Date ≤ optionalDate endDateStr)))).length) ∧
        (parseUint32 sectionIDStr = 0 →
          GetAttendanceStatistics f "" classIDStr sectionIDStr startDateStr endDateStr db =
            GetAttendanceStatistics f "" classIDStr "" startDateStr endDateStr db))) := by
  refine ⟨?_, ?_, ?_⟩
  · simp [GetAttendanceStatistics]
  · intro studentIDStr h
    simp [GetAttendanceStatistics, h]
  · intro classIDStr h
    refine ⟨?_, ?_⟩
    · intro hsec
      simp [GetAttendanceStatistics, h, hsec]
    · intro hsec
      refine ⟨by simp [GetAttendanceStatistics, h, hsec], ?_, ?_⟩
      · intro hpos h0
        rw [getClassStatistics_total _ _ _ _ _ _ h0]
        have : (parseUint32 sectionIDStr == 0) = false := by
          rw [beq_eq_false_iff_ne]; omega
        simp [this]
      · intro hzero
        simp [GetAttendanceStatistics, h, hsec, hzero]

/-- An instance of C14, amended: statistics of class 1 with `section_id` `abc`
are the statistics of class 1. -/
theorem getAttendanceStatistics_dispatch_witness :
    GetAttendanceStatistics Faults.none "" "1" "abc" "" "" exMarkedDay =
      GetAttendanceStatistics Faults.none "" "1" "" "" "" exMarkedDay :=
  (((getAttendanceStatistics_dispatch Faults.none "abc" "" "" exMarkedDay).2.2 "1"
    (by decide)).2 (by decide)).2.2 (by decide)

/-! ## Lemmas about the calendar -/

theorem daysSinceYearOne_succ (y : Int) :
    daysSinceYearOne (y + 1) = daysSinceYearOne y + (if isLeap y then 366 else 365) := by
  unfold daysSinceYearOne isLeap
  split <;> rename_i h <;> simp at h <;> omega

theorem yearOfDay_spec (d : Int) :
    d = daysSinceYearOne (yearOfDay d).1 + (yearOfDay d).2 ∧ 0 ≤ (yearOfDay d).2 ∧
      (yearOfDay d).2 < (if isLeap (yearOfDay d).1 then 366 else 365) := by
  obtain ⟨q, hq⟩ : ∃ q, d / 146097 = q := ⟨_, rfl⟩
  obtain ⟨r, hr⟩ : ∃ r, d % 146097 = r := ⟨_, rfl⟩
  have hd : d = 146097 * q + r := by omega
  have hr0 : 0 ≤ r ∧ r < 146097 := by omega
  obtain ⟨a, ha⟩ : ∃ a, r / 36524 = a := ⟨_, rfl⟩
  have ha0 : 0 ≤ a ∧ a ≤ 4 ∧ 36524 * a ≤ r ∧ r < 36524 * a + 36524 := by omega
  obtain ⟨n100, hn100⟩ : ∃ n, min a 3 = n := ⟨_, rfl⟩
  have hn : (a ≤ 3 ∧ n100 = a) ∨ (a = 4 ∧ n100 = 3) := by
    rcases le_or_lt a 3 with h | h
    · left; exact ⟨h, by rw [← hn100]; exact min_eq_left h⟩
    · right; exact ⟨by omega, by rw [← hn100]; exact min_eq_right (by omega)⟩
  obtain ⟨r1, hr1⟩ : ∃ r1, r - n100 * 36524 = r1 := ⟨_, rfl⟩
  have hr1b : 0 ≤ r1 ∧ r1 ≤ 36524 ∧ (r1 = 36524 → n100 = 3) := by omega
  obtain ⟨n4, hn4⟩ : ∃ n, r1 / 1461 = n := ⟨_, rfl⟩
  have hn4b : 0 ≤ n4 ∧ n4 ≤ 24 ∧ 1461 * n4 ≤ r1 ∧ r1 < 1461 * n4 + 1461 := by omega
  obtain ⟨r2, hr2⟩ : ∃ r2, r1 - n4 * 1461 = r2 := ⟨_, rfl⟩
  have hr2b : 0 ≤ r2 ∧ r2 ≤ 1460 := by omega
  obtain ⟨b, hb⟩ : ∃ b, r2 / 365 = b := ⟨_, rfl⟩
  have hb0 : 0 ≤ b ∧ b ≤ 4 ∧ 365 * b ≤ r2 ∧ r2 < 365 * b + 365 := by omega
  obtain ⟨n1, hn1⟩ : ∃ n, min b 3 = n := ⟨_, rfl⟩
  have hn1' : (b ≤ 3 ∧ n1 = b) ∨ (b = 4 ∧ n1 = 3) := by
    rcases le_or_lt b 3 with h | h
    · left; exact ⟨h, by rw [← hn1]; exact min_eq_left h⟩
    · right; exact ⟨by omega, by rw [← hn1]; exact min_eq_right (by omega)⟩
  have hy : yearOfDay d = (1 + 400 * q + 100 * n100 + 4 * n4 + n1, r2 - n1 * 365) := by
    unfold yearOfDay
    simp only [hq, hr, ha, hn100, hr1, hn4, hr2, hb, hn1]
  rw [hy]
  simp only
  have e4 : (1 + 400 * q + 100 * n100 + 4 * n4 + n1 - 1) / 4 = 100 * q + 25 * n100 + n4 := by
    omega
  have e100 : (1 + 400 * q + 100 * n100 + 4 * n4 + n1 - 1) / 100 = 4 * q + n100 := by omega
  have e400 : (1 + 400 * q + 100 * n100 + 4 * n4 + n1 - 1) / 400 = q := by omega
  refine ⟨?_, by omega, ?_⟩
  · unfold daysSinceYearOne
    rw [e4, e100, e400]
    omega
  · unfold isLeap
    split
    · omega
    · rename_i hleap
      simp only [Bool.and_eq_true, beq_iff_eq, Bool.or_eq_true, bne_iff_ne, ne_eq, not_and,
        not_or, Decidable.not_not] at hleap
      by_contra hcon
      have h365 : r2 - n1 * 365 = 365 := by omega
      have hn13 : n1 = 3 := by omega
      have hy4 : (1 + 400 * q + 100 * n100 + 4 * n4 + n1) % 4 = 0 := by omega
      have := hleap hy4
      omega

theorem daysBefore_values (y : Int) :
    daysBefore 1 y = 0 ∧ daysBefore 2 y = 31 ∧
    daysBefore 3 y = 31 + daysIn 2 y ∧ daysBefore 4 y = 62 + daysIn 2 y ∧
    daysBefore 5 y = 92 + daysIn 2 y ∧ daysBefore 6 y = 123 + daysIn 2 y ∧
    daysBefore 7 y = 153 + daysIn 2 y ∧ daysBefore 8 y = 184 + daysIn 2 y ∧
    daysBefore 9 y = 215 + daysIn 2 y ∧ daysBefore 10 y = 245 + daysIn 2 y ∧
    daysBefore 11 y = 276 + daysIn 2 y ∧ daysBefore 12 y = 306 + daysIn 2 y := by
  simp only [daysBefore, List.range, List.range.loop, List.map, List.sum_cons, List.sum_nil,
    daysIn]
  refine ⟨?_, ?_, ?_, ?_, ?_, ?_, ?_, ?_, ?_, ?_, ?_, ?_⟩ <;> simp <;> split <;> omega

theorem daysIn_values (y : Int) :
    daysIn 1 y = 31 ∧ (daysIn 2 y = if isLeap y then 29 else 28) ∧ daysIn 3 y = 31 ∧
    daysIn 4 y = 30 ∧ daysIn 5 y = 31 ∧ daysIn 6 y = 30 ∧ daysIn 7 y = 31 ∧ daysIn 8 y = 31 ∧
    daysIn 9 y = 30 ∧ daysIn 10 y = 31 ∧ daysIn 11 y = 30 ∧ daysIn 12 y = 31 := by
  simp [daysIn]

theorem daysBefore_succ (y : Int) (m : Nat) (hm : 1 ≤ m) :
    daysBefore (m + 1) y = daysBefore m y + daysIn m y := by
  obtain ⟨n, rfl⟩ : ∃ n, m = n + 1 := ⟨m - 1, by omega⟩
  simp [daysBefore, List.range_succ]

theorem monthOfYday_step (y : Int) : ∀ (k m : Nat) (yd : Int), 1 ≤ m → 0 ≤ yd →
    yd < daysBefore (m + k + 1) y - daysBefore m y →
    m ≤ monthOfYday y k m yd ∧ monthOfYday y k m yd ≤ m + k ∧
    daysBefore (monthOfYday y k m yd) y - daysBefore m y ≤ yd ∧
    yd < daysBefore (monthOfYday y k m yd) y + daysIn (monthOfYday y k m yd) y
      - daysBefore m y := by
  intro k
  induction k with
  | zero =>
    intro m yd hm h0 h1
    simp only [monthOfYday]
    have := daysBefore_succ y m hm
    simp only [Nat.add_zero] at h1
    refine ⟨le_refl _, le_refl _, by omega, by omega⟩
  | succ k ih =>
    intro m yd hm h0 h1
    simp only [monthOfYday]
    have hs := daysBefore_succ y m hm
    split
    · rename_i hlt
      refine ⟨le_refl _, by omega, by omega, by omega⟩
    · rename_i hge
      have e : m + (k + 1) + 1 = m + 1 + k + 1 := by omega
      rw [e] at h1
      obtain ⟨a, b, c, d⟩ := ih (m + 1) (yd - daysIn m y) (by omega) (by omega) (by omega)
      refine ⟨by omega, by omega, by omega, by omega⟩

theorem monthOfYday_spec (y : Int) (yd : Int) (h0 : 0 ≤ yd)
    (h1 : yd < (if isLeap y then 366 else 365)) :
    1 ≤ monthOfYday y 11 1 yd ∧ monthOfYday y 11 1 yd ≤ 12 ∧
    daysBefore (monthOfYday y 11 1 yd) y ≤ yd ∧
    yd < daysBefore (monthOfYday y 11 1 yd) y + daysIn (monthOfYday y 11 1 yd) y := by
  obtain ⟨b1, -, -, -, -, -, -, -, -, -, -, b12⟩ := daysBefore_values y
  obtain ⟨-, d2, -, -, -, -, -, -, -, -, -, d12⟩ := daysIn_values y
  have h13 : daysBefore 13 y = (if isLeap y then 366 else 365) := by
    rw [daysBefore_succ y 12 (by omega), b12, d12, d2]
    split <;> simp
  obtain ⟨a, b, c, d⟩ := monthOfYday_step y 11 1 yd (le_refl _) h0 (by rw [b1, h13]; omega)
  rw [b1] at c d
  exact ⟨a, by omega, by omega, by omega⟩

/-- A month from 1 to 12 needs no normalisation in `timeDate`. -/
theorem timeDate_of_month (y : Int) (m : Nat) (hm1 : 1 ≤ m) (hm2 : m ≤ 12)
    (day hour min sec offset : Int) :
    timeDate y m day hour min sec offset =
      (daysSinceYearOne y + daysBefore m y + (day - 1)) * 86400
        + hour * 3600 + min * 60 + sec - offset := by
  unfold timeDate
  have e1 : ((m : Int) - 1) / 12 = 0 := by omega
  have e2 : ((m : Int) - 1) % 12 = (m : Int) - 1 := by omega
  have e3 : ((m : Int) - 1).toNat + 1 = m := by omega
  simp only [e1, e2, e3, add_zero]

/-- Day 0 of the month after month `m` is the last day of month `m`, also when
`m` is December and the month after it is month 13. -/
theorem timeDate_day_zero_of_next_month (y : Int) (m : Nat) (hm1 : 1 ≤ m) (hm2 : m ≤ 12)
    (hour min sec offset : Int) :
    timeDate y ((m : Int) + 1) 0 hour min sec offset =
      timeDate y m (daysIn m y) hour min sec offset := by
  rw [timeDate_of_month y m hm1 hm2]
  rcases Nat.lt_or_ge m 12 with hlt | hge
  · have := timeDate_of_month y (m + 1) (by omega) (by omega) 0 hour min sec offset
    rw [Nat.cast_add, Nat.cast_one] at this
    rw [this, daysBefore_succ y m hm1]
    ring
  · have hm : m = 12 := by omega
    subst hm
    obtain ⟨b1, -, -, -, -, -, -, -, -, -, -, b12⟩ := daysBefore_values (y + 1)
    obtain ⟨-, -, -, -, -, -, -, -, -, -, -, c12⟩ := daysBefore_values y
    obtain ⟨-, d2, -, -, -, -, -, -, -, -, -, d12⟩ := daysIn_values y
    unfold timeDate
    have e1 : ((12 : Nat) : Int) + 1 - 1 = 12 := by norm_num
    simp only [e1]
    norm_num
    rw [b1, c12, d12, d2, daysSinceYearOne_succ]
    split <;> push_cast <;> ring

theorem daysSinceYearOne_mono_step (a : Int) :
    daysSinceYearOne a + 365 ≤ daysSinceYearOne (a + 1) := by
  rw [daysSinceYearOne_succ]; split <;> omega

theorem daysSinceYearOne_lt_of_lt (a : Int) : ∀ n : Nat,
    daysSinceYearOne a + (if isLeap a then 366 else 365) ≤ daysSinceYearOne (a + 1 + n) := by
  intro n
  induction n with
  | zero => simp [daysSinceYearOne_succ]
  | succ n ih =>
    have := daysSinceYearOne_mono_step (a + 1 + n)
    have e : a + 1 + (n + 1 : Nat) = a + 1 + n + 1 := by push_cast; ring
    rw [e]
    omega

/-- A day number determines its year and day of the year. -/
theorem yearOfDay_unique (y yd : Int) (h0 : 0 ≤ yd)
    (h1 : yd < (if isLeap y then 366 else 365)) :
    yearOfDay (daysSinceYearOne y + yd) = (y, yd) := by
  obtain ⟨e, p0, p1⟩ := yearOfDay_spec (daysSinceYearOne y + yd)
  generalize (yearOfDay (daysSinceYearOne y + yd)) = r at e p0 p1
  obtain ⟨y', yd'⟩ := r
  simp only at e p0 p1
  have hy : y' = y := by
    rcases lt_trichotomy y' y with h | h | h
    · obtain ⟨n, hn⟩ : ∃ n : Nat, y = y' + 1 + n := ⟨(y - y' - 1).toNat, by omega⟩
      have := daysSinceYearOne_lt_of_lt y' n
      rw [← hn] at this
      omega
    · exact h
    · obtain ⟨n, hn⟩ : ∃ n : Nat, y' = y + 1 + n := ⟨(y' - y - 1).toNat, by omega⟩
      have := daysSinceYearOne_lt_of_lt y n
      rw [← hn] at this
      omega
  subst hy
  have : yd' = yd := by omega
  subst this
  rfl

theorem daysBefore_mono (y : Int) (m : Nat) (hm : 1 ≤ m) : ∀ n : Nat,
    daysBefore m y + daysIn m y ≤ daysBefore (m + 1 + n) y := by
  intro n
  induction n with
  | zero => rw [Nat.add_zero, daysBefore_succ y m hm]
  | succ n ih =>
    have := daysBefore_succ y (m + 1 + n) (by omega)
    have e : m + 1 + (n + 1) = m + 1 + n + 1 := by omega
    rw [e]
    omega

/-- A day of the year determines its month. -/
theorem monthOfYday_unique (y : Int) (m : Nat) (yd : Int) (hm1 : 1 ≤ m) (hm2 : m ≤ 12)
    (h0 : daysBefore m y ≤ yd) (h1 : yd < daysBefore m y + daysIn m y) :
    monthOfYday y 11 1 yd = m := by
  obtain ⟨b1, -, -, -, -, -, -, -, -, -, -, b12⟩ := daysBefore_values y
  obtain ⟨-, d2, -, -, -, -, -, -, -, -, -, d12⟩ := daysIn_values y
  have hnn : ∀ k : Nat, 1 ≤ k → 0 ≤ daysBefore k y := by
    intro k hk
    rcases Nat.eq_or_lt_of_le hk with h | h
    · rw [← h, b1]
    · have := daysBefore_mono y 1 (le_refl _) (k - 2)
      have e : 1 + 1 + (k - 2) = k := by omega
      rw [e, b1] at this
      omega
  have hyd0 : 0 ≤ yd := le_trans (hnn m hm1) h0
  have hlen : yd < (if isLeap y then 366 else 365) := by
    have h13 : daysBefore 13 y = (if isLeap y then 366 else 365) := by
      rw [daysBefore_succ y 12 (by omega), b12, d12, d2]
      split <;> simp
    rcases Nat.eq_or_lt_of_le hm2 with h | h
    · subst h
      rw [← h13, daysBefore_succ y 12 (by omega)]
      exact h1
    · have := daysBefore_mono y m hm1 (12 - m)
      have e : m + 1 + (12 - m) = 13 := by omega
      rw [e, h13] at this
      omega
  obtain ⟨p1, p2, p3, p4⟩ := monthOfYday_spec y yd hyd0 hlen
  generalize monthOfYday y 11 1 yd = m' at p1 p2 p3 p4
  rcases lt_trichotomy m' m with h | h | h
  · obtain ⟨n, hn⟩ : ∃ n : Nat, m = m' + 1 + n := ⟨m - m' - 1, by omega⟩
    have := daysBefore_mono y m' p1 n
    rw [← hn] at this
    omega
  · exact h
  · obtain ⟨n, hn⟩ : ∃ n : Nat, m' = m + 1 + n := ⟨m' - m - 1, by omega⟩
    have := daysBefore_mono y m hm1 n
    rw [← hn] at this
    omega

/-- The civil year and month of an instant built by `timeDate` from a date
that exists and a time of day are that date's. -/
theorem year_month_of_timeDate (y : Int) (m : Nat) (day tod offset : Int)
    (hm1 : 1 ≤ m) (hm2 : m ≤ 12) (hd1 : 1 ≤ day) (hd2 : day ≤ daysIn m y)
    (ht1 : 0 ≤ tod) (ht2 : tod < 86400) :
    (timeDate y m day 0 0 tod offset).Year offset = y ∧
    (timeDate y m day 0 0 tod offset).Month offset = m := by
  rw [timeDate_of_month y m hm1 hm2]
  have hdiv : ((daysSinceYearOne y + daysBefore m y + (day - 1)) * 86400 + 0 * 3600 + 0 * 60
      + tod - offset + offset) / 86400 = daysSinceYearOne y + (daysBefore m y + (day - 1)) := by
    omega
  have hb0 : 0 ≤ daysBefore m y := by
    obtain ⟨b1, -⟩ := daysBefore_values y
    rcases Nat.eq_or_lt_of_le hm1 with h | h
    · rw [← h, b1]
    · have := daysBefore_mono y 1 (le_refl _) (m - 2)
      have e : 1 + 1 + (m - 2) = m := by omega
      rw [e, b1] at this
      omega
  have hlen : daysBefore m y + (day - 1) < (if isLeap y then 366 else 365) := by
    obtain ⟨-, -, -, -, -, -, -, -, -, -, -, b12⟩ := daysBefore_values y
    obtain ⟨-, d2, -, -, -, -, -, -, -, -, -, d12⟩ := daysIn_values y
    have h13 : daysBefore 13 y = (if isLeap y then 366 else 365) := by
      rw [daysBefore_succ y 12 (by omega), b12, d12, d2]
      split <;> simp
    rcases Nat.eq_or_lt_of_le hm2 with h | h
    · subst h
      rw [← h13, daysBefore_succ y 12 (by omega)]
      omega
    · have := daysBefore_mono y m hm1 (12 - m)
      have e : m + 1 + (12 - m) = 13 := by omega
      rw [e, h13] at this
      omega
  have hy := yearOfDay_unique y (daysBefore m y + (day - 1)) (by omega) hlen
  unfold Time.Year Time.Month
  simp only [hdiv, hy]
  refine ⟨trivial, ?_⟩
  rw [monthOfYday_unique y m _ hm1 hm2 (by omega) (by omega)]

/-! ## Claims about the report query -/

/-- C15.  For every instant `now` and every offset of the server's location,
with `now`'s civil year and month there: the month is one of 1 to 12; without
a `start_date` the range starts at 00:00:00 of day 1 of that month; without an
`end_date` it ends at 23:59:59 of the last day of that month, day `daysIn`
(28, 29, 30 or 31), the day 0 of month + 1 that the handler asks for being
that day also in December; `now` lies between the two; and
`GetAttendanceReports` without dates queries exactly that range.  On the 15th
of a 30-day month, at any time of day, the range is day 1 through day 30 of
that month. -/
theorem reports_default_range (now : Time) (offset : Int) :
    1 ≤ now.Month offset ∧ now.Month offset ≤ 12 ∧
    reportStart now offset "" =
      timeDate (now.Year offset) (now.Month offset) 1 0 0 0 offset ∧
    reportEnd now offset "" =
      timeDate (now.Year offset) (now.Month offset)
        (daysIn (now.Month offset).toNat (now.Year offset)) 23 59 59 offset ∧
    reportStart now offset "" ≤ now ∧ now ≤ reportEnd now offset "" ∧
    (∀ f classIDStr sectionIDStr db,
      GetAttendanceReports f now now offset classIDStr sectionIDStr "" "" db =
        listResponse (AttendanceRepository.FindByDateRange f.query db.attendances
          (timeDate (now.Year offset) (now.Month offset) 1 0 0 0 offset)
          (timeDate (now.Year offset) (now.Month offset)
            (daysIn (now.Month offset).toNat (now.Year offset)) 23 59 59 offset)
          (if classIDStr != "" then some (parseUint32 classIDStr) else none)
          (if sectionIDStr != "" then some (parseUint32 sectionIDStr) else none))) ∧
    (∀ (y : Int) (m : Nat) (tod : Int), 1 ≤ m → m ≤ 12 → daysIn m y = 30 →
      0 ≤ tod → tod < 86400 → now = timeDate y m 15 0 0 tod offset →
      reportStart now offset "" = timeDate y m 1 0 0 0 offset ∧
      reportEnd now offset "" = timeDate y m 30 23 59 59 offset) := by
  obtain ⟨hD, hyd0, hyd1⟩ := yearOfDay_spec ((now + offset) / 86400)
  obtain ⟨hm1, hm2, hb0, hb1⟩ :=
    monthOfYday_spec (yearOfDay ((now + offset) / 86400)).1
      (yearOfDay ((now + offset) / 86400)).2 hyd0 hyd1
  have hY : now.Year offset = (yearOfDay ((now + offset) / 86400)).1 := rfl
  have hM : now.Month offset =
      ((monthOfYday (yearOfDay ((now + offset) / 86400)).1 11 1
        (yearOfDay ((now + offset) / 86400)).2 : Nat) : Int) := rfl
  generalize (yearOfDay ((now + offset) / 86400)).1 = Y at *
  generalize (yearOfDay ((now + offset) / 86400)).2 = yd at *
  generalize monthOfYday Y 11 1 yd = M at *
  have hstart : reportStart now offset "" = timeDate Y M 1 0 0 0 offset := by
    simp [reportStart, hY, hM]
  have hend : reportEnd now offset "" = timeDate Y M (daysIn M Y) 23 59 59 offset := by
    rw [← timeDate_day_zero_of_next_month Y M hm1 hm2]
    simp [reportEnd, hY, hM]
  have hs2 := timeDate_of_month Y M hm1 hm2 1 0 0 0 offset
  have he2 := timeDate_of_month Y M hm1 hm2 (daysIn M Y) 23 59 59 offset
  have hle1 : (daysSinceYearOne Y + daysBefore M Y + (1 - 1)) * 86400 + 0 * 3600 + 0 * 60 + 0
      - offset ≤ (now : Int) := by omega
  have hle2 : @LE.le Int _ now ((daysSinceYearOne Y + daysBefore M Y + ((daysIn M Y : Int) - 1))
      * 86400 + 23 * 3600 + 59 * 60 + 59 - offset) := by omega
  have hle : reportStart now offset "" ≤ now ∧ now ≤ reportEnd now offset "" := by
    rw [hstart, hend, hs2, he2]
    exact ⟨hle1, hle2⟩
  rw [hY, hM, Int.toNat_ofNat]
  refine ⟨by omega, by omega, hstart, hend, hle.1, hle.2, ?_, ?_⟩
  · intro f classIDStr sectionIDStr db
    unfold GetAttendanceReports
    simp only [hstart, hend]
  · intro y m tod h1 h2 h30 ht1 ht2 hnow
    obtain ⟨ey, em⟩ := year_month_of_timeDate y m 15 tod offset h1 h2 (by omega) (by omega)
      ht1 ht2
    rw [← hnow, hY] at ey
    rw [← hnow, hM] at em
    have em' : M = m := by exact_mod_cast em
    subst ey
    subst em'
    rw [hstart, hend, h30]
    exact ⟨rfl, rfl⟩

/-- An instance of C15: 10:30:00 on 2024-04-15 in UTC; the range is from
2024-04-01 00:00:00 to 2024-04-30 23:59:59. -/
theorem reports_default_range_witness :
    reportStart (timeDate 2024 4 15 0 0 37800 0) 0 "" = timeDate 2024 4 1 0 0 0 0 ∧
    reportEnd (timeDate 2024 4 15 0 0 37800 0) 0 "" = timeDate 2024 4 30 23 59 59 0 :=
  (reports_default_range (timeDate 2024 4 15 0 0 37800 0) 0).2.2.2.2.2.2.2 2024 4 37800
    (by decide) (by decide) (by decide) (by decide) (by decide) rfl

/-! ## Lemmas about the orders -/

theorem lexOrder_total (d e : Int) (s t : Nat) :
    (d > e ∨ (d = e ∧ s ≤ t)) ∨ (e > d ∨ (e = d ∧ t ≤ s)) := by
  omega

theorem lexOrder_trans (d e g : Int) (s t u : Nat) :
    (d > e ∨ (d = e ∧ s ≤ t)) → (e > g ∨ (e = g ∧ t ≤ u)) → (d > g ∨ (d = g ∧ s ≤ u)) := by
  omega

/-- The output of `ORDER BY date DESC, student_id ASC` is sorted by it. -/
theorem orderDateDescStudentAsc_sorted (rows : List Attendance) :
    (orderDateDescStudentAsc rows).Sorted
      (fun a b => a.Date > b.Date ∨ (a.Date = b.Date ∧ a.StudentID ≤ b.StudentID)) := by
  unfold orderDateDescStudentAsc
  haveI : IsTotal Attendance
      (fun a b => a.Date > b.Date ∨ (a.Date = b.Date ∧ a.StudentID ≤ b.StudentID)) :=
    ⟨fun a b => lexOrder_total a.Date b.Date a.StudentID b.StudentID⟩
  haveI : IsTrans Attendance
      (fun a b => a.Date > b.Date ∨ (a.Date = b.Date ∧ a.StudentID ≤ b.StudentID)) :=
    ⟨fun a b c =>
      lexOrder_trans a.Date b.Date c.Date a.StudentID b.StudentID c.StudentID⟩
  exact List.sorted_insertionSort
    (fun a b : Attendance => a.Date > b.Date ∨ (a.Date = b.Date ∧ a.StudentID ≤ b.StudentID)) _

/-- The output of `ORDER BY date DESC` is sorted by it. -/
theorem orderDateDesc_sorted (rows : List Attendance) :
    (orderDateDesc rows).Sorted (fun a b => a.Date ≥ b.Date) := by
  unfold orderDateDesc
  haveI : IsTotal Attendance (fun a b => a.Date ≥ b.Date) :=
    ⟨fun a b => le_total (b.Date : Int) a.Date⟩
  haveI : IsTrans Attendance (fun a b => a.Date ≥ b.Date) :=
    ⟨fun a b c h1 h2 => le_trans (α := Int) h2 h1⟩
  exact List.sorted_insertionSort (fun a b : Attendance => a.Date ≥ b.Date) _

/-- The answer of `GetAttendanceReports` when the query does not fail, by the
repository's result. -/
theorem getAttendanceReports_ok (f : Faults) (now₁ now₂ : Time) (offset : Int)
    (classIDStr sectionIDStr startDateStr endDateStr : String) (db : DB)
    (hq : f.query = false) :
    GetAttendanceReports f now₁ now₂ offset classIDStr sectionIDStr startDateStr endDateStr db =
      ⟨200, .records (orderDateDescStudentAsc (db.attendances.filter (fun a =>
        !a.Deleted && (decide (a.Date ≥ reportStart now₁ offset startDateStr) &&
          decide (a.Date ≤ reportEnd now₂ offset endDateStr)) &&
        (match (if classIDStr != "" then some (parseUint32 classIDStr) else none) with
          | some c => a.ClassID == c | none => true) &&
        (match (if sectionIDStr != "" then some (parseUint32 sectionIDStr) else none) with
          | some s => a.SectionID == s | none => true))))⟩ := by
  unfold GetAttendanceReports AttendanceRepository.FindByDateRange
  simp only [hq, Bool.false_eq_true, if_false, listResponse]

/-! ## Claims about the report query, continued -/

/-- C16.  When the store answers the query, `FindByDateRange` returns a list
that holds exactly the live rows whose date is at or after the start and at
or before the end, whose class is the class filter when there is one and
whose section is the section filter when there is one, each row once; and
`GetAttendanceReports` answers 200 with such a list for the effective range
(`reportStart`, `reportEnd`), the class filter being there when `class_id` is
not empty and the section filter when `section_id` is not empty, so that an
empty parameter excludes no row. -/
theorem reports_return_filtered_rows (f : Faults) (hq : f.query = false) :
    (∀ (rows : List Attendance) (startDate endDate : Time) (classID sectionID : Option Nat),
      ∃ l, AttendanceRepository.FindByDateRange f.query rows startDate endDate classID
          sectionID = some l ∧
        l.Perm (rows.filter (fun a => !a.Deleted &&
          decide (startDate ≤ a.Date) && decide (a.Date ≤ endDate) &&
          classID.all (fun c => a.ClassID == c) &&
          sectionID.all (fun s => a.SectionID == s)))) ∧
    (∀ (now₁ now₂ : Time) (offset : Int)
      (classIDStr sectionIDStr startDateStr endDateStr : String) (db : DB),
      ∃ l, GetAttendanceReports f now₁ now₂ offset classIDStr sectionIDStr startDateStr
          endDateStr db = ⟨200, .records l⟩ ∧
        l.Perm (db.attendances.filter (fun a => !a.Deleted &&
          decide (reportStart now₁ offset startDateStr ≤ a.Date) &&
          decide (a.Date ≤ reportEnd now₂ offset endDateStr) &&
          (classIDStr == "" || a.ClassID == parseUint32 classIDStr) &&
          (sectionIDStr == "" || a.SectionID == parseUint32 sectionIDStr)))) := by
  constructor
  · intro rows startDate endDate classID sectionID
    refine ⟨_, by rw [hq]; rfl, ?_⟩
    refine (List.perm_insertionSort
      (fun a b : Attendance => a.Date > b.Date ∨ (a.Date = b.Date ∧ a.StudentID ≤ b.StudentID))
      _).trans (List.Perm.of_eq ?_)
    apply List.filter_congr
    intro a _
    cases classID <;> cases sectionID <;> simp [Bool.and_assoc]
  · intro now₁ now₂ offset classIDStr sectionIDStr startDateStr endDateStr db
    refine ⟨_, getAttendanceReports_ok f now₁ now₂ offset classIDStr sectionIDStr startDateStr
      endDateStr db hq, ?_⟩
    refine (List.perm_insertionSort
      (fun a b : Attendance => a.Date > b.Date ∨ (a.Date = b.Date ∧ a.StudentID ≤ b.StudentID))
      _).trans (List.Perm.of_eq ?_)
    apply List.filter_congr
    intro a _
    cases hc : classIDStr == "" <;> cases hs : sectionIDStr == "" <;>
      simp [bne, hc, hs, Bool.and_assoc]

/-- An instance of C16: the report of class 1 from 2024-03-05 to 2024-03-06. -/
theorem reports_return_filtered_rows_witness :
    ∃ l, GetAttendanceReports Faults.none 0 0 0 "1" "" "2024-03-05" "2024-03-06"
        { students := [], attendances := exReportRows } = ⟨200, .records l⟩ ∧
      l.Perm (exReportRows.filter (fun a => !a.Deleted &&
        decide (reportStart 0 0 "2024-03-05" ≤ a.Date) &&
        decide (a.Date ≤ reportEnd 0 0 "2024-03-06") &&
        (("1" : String) == "" || a.ClassID == parseUint32 "1") &&
        (("" : String) == "" || a.SectionID == parseUint32 ""))) :=
  (reports_return_filtered_rows Faults.none rfl).2 0 0 0 "1" "" "2024-03-05" "2024-03-06"
    { students := [], attendances := exReportRows }

/-- C17.  When the store answers the query, the list that `FindByDateRange`
returns, and so the list in the 200 answer of `GetAttendanceReports`, is in
the order date descending, then student id ascending: of every two adjacent
rows `a`, `b` either `a` has the later date, or they have the same date and
the student id of `a` is at most that of `b`. -/
theorem reports_ordered (f : Faults) (hq : f.query = false) :
    (∀ (rows : List Attendance) (startDate endDate : Time) (classID sectionID : Option Nat),
      ∃ l, AttendanceRepository.FindByDateRange f.query rows startDate endDate classID
          sectionID = some l ∧
        l.Chain' (fun a b => a.Date > b.Date ∨ (a.Date = b.Date ∧ a.StudentID ≤ b.StudentID))) ∧
    (∀ (now₁ now₂ : Time) (offset : Int)
      (classIDStr sectionIDStr startDateStr endDateStr : String) (db : DB),
      ∃ l, GetAttendanceReports f now₁ now₂ offset classIDStr sectionIDStr startDateStr
          endDateStr db = ⟨200, .records l⟩ ∧
        l.Chain' (fun a b => a.Date > b.Date ∨ (a.Date = b.Date ∧ a.StudentID ≤ b.StudentID))) := by
  constructor
  · intro rows startDate endDate classID sectionID
    exact ⟨_, by rw [hq]; rfl, (orderDateDescStudentAsc_sorted _).chain'⟩
  · intro now₁ now₂ offset classIDStr sectionIDStr startDateStr endDateStr db
    exact ⟨_, getAttendanceReports_ok f now₁ now₂ offset classIDStr sectionIDStr startDateStr
      endDateStr db hq, (orderDateDescStudentAsc_sorted _).chain'⟩

/-- An instance of C17: the report of March 2024 over all classes is rows 2,
3, 4, 1 in that order. -/
theorem reports_ordered_witness :
    GetAttendanceReports Faults.none exDay exDay 0 "" "" "" ""
        { students := [], attendances := exReportRows } =
      ⟨200, .records [exStatusRow 2 1 "late",
        { exStatusRow 3 1 "absent" with StudentID := 2, ClassID := 2 },
        exStatusRow 4 0 "absent", { exStatusRow 1 0 "present" with StudentID := 2 }]⟩ ∧
    ∃ l, GetAttendanceReports Faults.none exDay exDay 0 "" "" "" ""
        { students := [], attendances := exReportRows } = ⟨200, .records l⟩ ∧
      l.Chain' (fun a b => a.Date > b.Date ∨ (a.Date = b.Date ∧ a.StudentID ≤ b.StudentID)) :=
  ⟨by decide, (reports_ordered Faults.none rfl).2 exDay exDay 0 "" "" "" ""
    { students := [], attendances := exReportRows }⟩

/-! ## Lemmas about rows staying live -/

theorem keepsLive_refl (rows : List Attendance) : keepsLive rows rows :=
  fun a ha hl => ⟨a, ha, rfl, hl⟩

theorem keepsLive_trans {r₁ r₂ r₃ : List Attendance} (h₁ : keepsLive r₁ r₂)
    (h₂ : keepsLive r₂ r₃) : keepsLive r₁ r₃ := by
  intro a ha hl
  obtain ⟨b, hb, hid, hbl⟩ := h₁ a ha hl
  obtain ⟨c, hc, hid', hcl⟩ := h₂ b hb hbl
  exact ⟨c, hc, hid'.trans hid, hcl⟩

theorem keepsLive_insertRow (rows : List Attendance) (a : Attendance) :
    keepsLive rows (insertRow rows a) := by
  intro r hr hl
  exact ⟨r, by simp [insertRow, hr], rfl, hl⟩

theorem keepsLive_foldl_insertRow (staged : List Attendance) :
    ∀ rows : List Attendance, keepsLive rows (staged.foldl insertRow rows) := by
  induction staged with
  | nil => intro rows; exact keepsLive_refl rows
  | cons s rest ih =>
    intro rows
    exact keepsLive_trans (keepsLive_insertRow rows s) (ih _)

/-- A `Save` of a live record keeps every live id live. -/
theorem keepsLive_update {fault : Bool} {rows rows' : List Attendance} {a : Attendance}
    (ha : a.Deleted = false) (h : AttendanceRepository.Update fault rows a = some rows') :
    keepsLive rows rows' := by
  unfold AttendanceRepository.Update at h
  cases fault with
  | true => simp at h
  | false =>
    simp only [Bool.false_eq_true, if_false] at h
    cases hz : a.ID == 0 with
    | true =>
      simp only [hz, if_true, Option.some.injEq] at h
      subst h
      exact keepsLive_insertRow rows a
    | false =>
      simp only [hz, Bool.false_eq_true, if_false] at h
      cases hany : rows.any (fun r => r.ID == a.ID) with
      | true =>
        simp only [hany, if_true, Option.some.injEq] at h
        subst h
        intro r hr hl
        by_cases hid : r.ID = a.ID
        · exact ⟨a, List.mem_map.mpr ⟨r, hr, by simp [hid]⟩, hid.symm, ha⟩
        · exact ⟨r, List.mem_map.mpr ⟨r, hr, by simp [hid]⟩, rfl, hl⟩
      | false =>
        simp only [hany, Bool.false_eq_true, if_false, Option.some.injEq] at h
        subst h
        intro r hr hl
        exact ⟨r, by simp [hr], rfl, hl⟩

/-- The record that the existing-record lookup hands to the loop is live, also
when it is the zero record of a failed lookup. -/
theorem findExisting_live {fault : Bool} {rows : List Attendance} {sid : Nat} {date : Time}
    {a : Attendance}
    (h : (AttendanceRepository.FindExisting fault rows sid date).1 = some a) :
    a.Deleted = false := by
  cases fault with
  | true =>
    simp [AttendanceRepository.FindExisting] at h
    subst h
    rfl
  | false =>
    have := (findExisting_some h).2
    simp [existingCond] at this
    exact this.1.1

/-- The roster loop keeps every live id live, however it ends. -/
theorem markLoop_keepsLive (f : Faults) (req : MarkAttendanceRequest) (date : Time)
    (markedBy : Nat) :
    ∀ (roster : List Student) (i : Nat) (rows staged : List Attendance),
      match markLoop f req date markedBy i roster rows staged with
      | .done rows' _ => keepsLive rows rows'
      | .aborted rows' => keepsLive rows rows' := by
  intro roster
  induction roster with
  | nil => intro i rows staged; simp [markLoop, keepsLive_refl]
  | cons s rest ih =>
    intro i rows staged
    simp only [markLoop]
    cases hf : (AttendanceRepository.FindExisting (f.findExisting i) rows s.ID date).1 with
    | none => exact ih _ _ _
    | some existing =>
      simp only []
      have hl := findExisting_live hf
      cases hu : AttendanceRepository.Update
          (f.update i { existing with Status := req.status s.ID }) rows
          { existing with Status := req.status s.ID } with
      | none => exact keepsLive_refl rows
      | some rows₁ =>
        simp only []
        have h₁ : keepsLive rows rows₁ :=
          keepsLive_update (a := { existing with Status := req.status s.ID }) hl hu
        have h₂ := ih (i + 1) rows₁ staged
        cases hm : markLoop f req date markedBy (i + 1) rest rows₁ staged with
        | done rows' staged' => rw [hm] at h₂; exact keepsLive_trans h₁ h₂
        | aborted rows' => rw [hm] at h₂; exact keepsLive_trans h₁ h₂

theorem markAttendance_keepsLive (f : Faults) (userID : Option Nat)
    (body : Option MarkAttendanceRequest) (db : DB) :
    keepsLive db.attendances (MarkAttendance f userID body db).2.attendances := by
  unfold MarkAttendance
  cases ShouldBindJSON body with
  | none => exact keepsLive_refl _
  | some req =>
    simp only []
    cases timeParse req.Date with
    | none => exact keepsLive_refl _
    | some date =>
      simp only []
      cases userID with
      | none => exact keepsLive_refl _
      | some markedBy =>
        simp only []
        cases StudentRepository.FindByClassAndSection f.findStudents db.students req.ClassID
            req.SectionID with
        | none => exact keepsLive_refl _
        | some students =>
          simp only []
          split
          · exact keepsLive_refl _
          · have hloop := markLoop_keepsLive f req date markedBy students 0 db.attendances []
            cases hm : markLoop f req date markedBy 0 students db.attendances [] with
            | aborted rows => rw [hm] at hloop; exact hloop
            | done rows staged =>
              rw [hm] at hloop
              simp only []
              split
              · cases hb : AttendanceRepository.CreateBatch (f.createBatch staged) rows staged with
                | none => exact hloop
                | some rows' =>
                  simp only []
                  unfold AttendanceRepository.CreateBatch at hb
                  split at hb
                  · simp at hb
                  · simp only [Option.some.injEq] at hb
                    subst hb
                    exact keepsLive_trans hloop (keepsLive_foldl_insertRow staged rows)
              · exact hloop

theorem findByID_live {fault : Bool} {rows : List Attendance} {id : Nat} {a : Attendance}
    (h : AttendanceRepository.FindByID fault rows id = some a) :
    a ∈ rows ∧ a.Deleted = false ∧ a.ID = id := by
  unfold AttendanceRepository.FindByID at h
  cases fault with
  | true => simp at h
  | false =>
    simp only [Bool.false_eq_true, if_false] at h
    have := firstByID_mem h
    simpa [List.mem_filter] using this

theorem updateAttendance_keepsLive (f : Faults) (idParam : String)
    (body : Option UpdateAttendanceRequest) (db : DB) :
    keepsLive db.attendances (UpdateAttendance f idParam body db).2.attendances := by
  unfold UpdateAttendance
  cases bindUpdateRequest body with
  | none => exact keepsLive_refl _
  | some req =>
    simp only []
    cases hf : AttendanceRepository.FindByID f.query db.attendances (parseUint32 idParam) with
    | none => exact keepsLive_refl _
    | some a =>
      simp only []
      have hl := (findByID_live hf).2.1
      have hl' : (if (req.Status != "") = true then { a with Status := req.Status } else a).Deleted
          = false := by
        split <;> exact hl
      cases hu : AttendanceRepository.Update
          (f.update 0 (if (req.Status != "") = true then { a with Status := req.Status } else a))
          db.attendances
          (if (req.Status != "") = true then { a with Status := req.Status } else a) with
      | none => exact keepsLive_refl _
      | some rows' => exact keepsLive_update hl' hu

/-! ## Claims about the by-student query, `UpdateAttendance` and deletion -/

/-- C19, as stated, fails: `0001-01-01` is a date, and as `end_date` it parses
to the zero time, which the query reads as no bound.  The four rows of student
1 are dated in March 2024, after that end, and the query returns all four. -/
theorem by_student_zero_end_date_is_ignored :
    timeParse "0001-01-01" = some 0 ∧
    (∀ a ∈ exFourStatuses, (0 : Int) < a.Date) ∧
    GetAttendanceByStudent Faults.none "1" "" "0001-01-01"
        { students := [], attendances := exFourStatuses } =
      ⟨200, .records [exStatusRow 4 3 "excused", exStatusRow 3 2 "late",
        exStatusRow 2 1 "absent", exStatusRow 1 0 "present"]⟩ := by
  decide

/-- C19, amended.  When the store answers the query, `FindByStudentID` returns
a list that holds exactly the live rows of the student whose date is at or
after the start when the start is not the zero time and at or before the end
when the end is not the zero time, each row once, and the list is in
date-descending order; `GetAttendanceByStudent` answers 200 with such a list,
its start and end being what `start_date` and `end_date` parse to: the parsed
date for a parameter that parses, and the zero time, so no bound, for a
parameter that is empty, that does not parse, or that is `0001-01-01`. -/
theorem by_student_rows_and_order (f : Faults) (hq : f.query = false) :
    (∀ (rows : List Attendance) (studentID : Nat) (startDate endDate : Time),
      ∃ l, AttendanceRepository.FindByStudentID f.query rows studentID startDate endDate
          = some l ∧
        l.Perm (rows.filter (fun a => !a.Deleted && a.StudentID == studentID &&
          (startDate == 0 || decide (startDate ≤ a.Date)) &&
          (endDate == 0 || decide (a.Date ≤ endDate)))) ∧
        l.Pairwise (fun a b => a.Date ≥ b.Date)) ∧
    (∀ (studentIDParam startDateStr endDateStr : String) (db : DB),
      ∃ l, GetAttendanceByStudent f studentIDParam startDateStr endDateStr db =
          ⟨200, .records l⟩ ∧
        l.Perm (db.attendances.filter (fun a =>
          !a.Deleted && a.StudentID == parseUint32 studentIDParam &&
          (optionalDate startDateStr == 0 || decide (optionalDate startDateStr ≤ a.Date)) &&
          (optionalDate endDateStr == 0 || decide (a.Date ≤ optionalDate endDateStr)))) ∧
        l.Pairwise (fun a b => a.Date ≥ b.Date)) ∧
    optionalDate "" = 0 ∧
    (∀ s, timeParse s = none → optionalDate s = 0) ∧
    (∀ s t, timeParse s = some t → optionalDate s = t) ∧
    timeParse "0001-01-01" = some 0 := by
  have key : ∀ (rows : List Attendance) (studentID : Nat) (startDate endDate : Time),
      AttendanceRepository.FindByStudentID f.query rows studentID startDate endDate =
        some (orderDateDesc (rows.filter (fun a =>
          !a.Deleted && a.StudentID == studentID &&
          (startDate == 0 || decide (startDate ≤ a.Date)) &&
          (endDate == 0 || decide (a.Date ≤ endDate))))) := by
    intro rows studentID startDate endDate
    unfold AttendanceRepository.FindByStudentID
    simp only [hq, Bool.false_eq_true, if_false, Time.IsZero, ge_iff_le]
  refine ⟨?_, ?_, rfl, ?_, ?_, by decide⟩
  rotate_left 2
  · intro s h
    unfold optionalDate
    split
    · simp [h]
    · rfl
  · intro s t h
    unfold optionalDate
    split
    · simp [h]
    · rename_i hs
      have he : s = "" := by simpa using hs
      rw [he] at h
      have hnone : timeParse "" = none := by decide
      rw [hnone] at h
      exact absurd h (by simp)
  · intro rows studentID startDate endDate
    exact ⟨_, key _ _ _ _,
      List.perm_insertionSort (fun a b : Attendance => a.Date ≥ b.Date) _,
      orderDateDesc_sorted _⟩
  · intro studentIDParam startDateStr endDateStr db
    refine ⟨_, ?_, List.perm_insertionSort (fun a b : Attendance => a.Date ≥ b.Date) _,
      orderDateDesc_sorted _⟩
    unfold GetAttendanceByStudent
    simp only [key, listResponse]
    rfl

/-- An instance of C19, amended: the rows of student 1 from 2024-03-06 on are
rows 4, 3, 2 in that order. -/
theorem by_student_rows_and_order_witness :
    GetAttendanceByStudent Faults.none "1" "2024-03-06" ""
        { students := [], attendances := exFourStatuses } =
      ⟨200, .records [exStatusRow 4 3 "excused", exStatusRow 3 2 "late",
        exStatusRow 2 1 "absent"]⟩ ∧
    ∃ l, GetAttendanceByStudent Faults.none "1" "2024-03-06" ""
        { students := [], attendances := exFourStatuses } = ⟨200, .records l⟩ ∧
      l.Perm (exFourStatuses.filter (fun a =>
        !a.Deleted && a.StudentID == parseUint32 "1" &&
        (optionalDate "2024-03-06" == 0 || decide (optionalDate "2024-03-06" ≤ a.Date)) &&
        (optionalDate "" == 0 || decide (a.Date ≤ optionalDate "")))) ∧
      l.Pairwise (fun a b => a.Date ≥ b.Date) :=
  ⟨by decide, (by_student_rows_and_order Faults.none rfl).2.1 "1" "2024-03-06" ""
    { students := [], attendances := exFourStatuses }⟩

/-- C18, as stated, fails: no live row has id 99, yet a request for id 99
whose status is not one of the four values, or that has no status, is answered
400 and not 404. -/
theorem updateAttendance_unknown_id_answered_400 :
    (∀ a ∈ exMarkedDay.attendances, a.ID ≠ parseUint32 "99") ∧
    UpdateAttendance Faults.none "99" (some { Status := "holiday" }) exMarkedDay =
      (⟨400, .error bindError⟩, exMarkedDay) ∧
    UpdateAttendance Faults.none "99" (some { Status := "" }) exMarkedDay =
      (⟨400, .error bindError⟩, exMarkedDay) := by
  decide

/-- C18, amended.  `UpdateAttendance` checks the body before it looks the
record up: when the body does not decode, or its status is missing or none of
`present`, `absent`, `late`, `excused`, the answer is 400 whatever the id;
when the status is one of the four and no live row has the id of the path (or
the lookup fails), the answer is 404; with both answers, and with every answer
other than 200, the store is as it was. -/
theorem updateAttendance_rejections (f : Faults) (idParam : String)
    (body : Option UpdateAttendanceRequest) (db : DB) :
    ((∀ req, body = some req → req.Status ∉ allowedStatuses) →
      UpdateAttendance f idParam body db = (⟨400, .error bindError⟩, db)) ∧
    ((∃ req, body = some req ∧ req.Status ∈ allowedStatuses) →
      (f.query = true ∨
        ∀ a ∈ db.attendances, a.Deleted = false → a.ID ≠ parseUint32 idParam) →
      UpdateAttendance f idParam body db =
        (⟨404, .error "Attendance record not found"⟩, db)) ∧
    ((UpdateAttendance f idParam body db).1.code ≠ 200 →
      (UpdateAttendance f idParam body db).2 = db) := by
  refine ⟨?_, ?_, ?_⟩
  · intro h
    have hb : bindUpdateRequest body = none := by
      cases body with
      | none => rfl
      | some req =>
        have := h req rfl
        simp only [bindUpdateRequest]
        rw [if_neg]
        intro hc
        simp only [Bool.and_eq_true, List.contains_eq_any_beq, List.any_eq_true,
          beq_iff_eq] at hc
        obtain ⟨-, x, hx, rfl⟩ := hc
        exact this hx
    unfold UpdateAttendance
    rw [hb]
  · rintro ⟨req, rfl, hreq⟩ hno
    have hne : req.Status ≠ "" := by
      intro h
      rw [h] at hreq
      revert hreq
      decide
    have hb : bindUpdateRequest (some req) = some req := by
      simp only [bindUpdateRequest]
      rw [if_pos]
      simp [hne, hreq]
    have hf : AttendanceRepository.FindByID f.query db.attendances (parseUint32 idParam)
        = none := by
      cases hfi : AttendanceRepository.FindByID f.query db.attendances (parseUint32 idParam) with
      | none => rfl
      | some a =>
        exfalso
        rcases hno with hq | hno
        · rw [hq] at hfi
          simp [AttendanceRepository.FindByID] at hfi
        · obtain ⟨hm, hl, hid⟩ := findByID_live hfi
          exact hno a hm hl hid
    unfold UpdateAttendance
    rw [hb]
    simp only [hf]
  · unfold UpdateAttendance
    cases bindUpdateRequest body with
    | none => intro _; rfl
    | some req =>
      simp only []
      cases AttendanceRepository.FindByID f.query db.attendances (parseUint32 idParam) with
      | none => intro _; rfl
      | some a =>
        simp only []
        cases AttendanceRepository.Update
          (f.update 0 (if (req.Status != "") = true then { a with Status := req.Status } else a))
          db.attendances
          (if (req.Status != "") = true then { a with Status := req.Status } else a) with
        | none => intro _; rfl
        | some rows' => intro h; exact absurd rfl h

/-- An instance of C18, amended: status `late` for id 99 on a table whose ids
are 1, 2, 3. -/
theorem updateAttendance_rejections_witness :
    UpdateAttendance Faults.none "99" (some { Status := "late" }) exMarkedDay =
      (⟨404, .error "Attendance record not found"⟩, exMarkedDay) :=
  (updateAttendance_rejections Faults.none "99" (some { Status := "late" }) exMarkedDay).2.1
    ⟨{ Status := "late" }, rfl, by decide⟩ (Or.inr (by decide))

/-- C20.  Whatever the store does, after a call of `MarkAttendance` and after
a call of `UpdateAttendance` every id that a live row had before the call is
the id of a live row.  These are the two handlers that give a table back; the
query handlers `GetAttendanceByClass`, `GetAttendanceByStudent`,
`GetAttendanceStatistics` and `GetAttendanceReports` only read, and no handler
calls the repository's `Delete`. -/
theorem no_operation_deletes (f : Faults) (db : DB) (a : Attendance)
    (ha : a ∈ db.attendances) (hlive : a.Deleted = false) :
    (∀ (userID : Option Nat) (body : Option MarkAttendanceRequest),
      ∃ b ∈ (MarkAttendance f userID body db).2.attendances,
        b.ID = a.ID ∧ b.Deleted = false) ∧
    (∀ (idParam : String) (body : Option UpdateAttendanceRequest),
      ∃ b ∈ (UpdateAttendance f idParam body db).2.attendances,
        b.ID = a.ID ∧ b.Deleted = false) :=
  ⟨fun userID body => markAttendance_keepsLive f userID body db a ha hlive,
    fun idParam body => updateAttendance_keepsLive f idParam body db a ha hlive⟩

/-- An instance of C20: row 2 of the marked day, after a re-mark and after an
update of its status. -/
theorem no_operation_deletes_witness :
    (∃ b ∈ (MarkAttendance Faults.none (some 7) (some (exRequest [(1, "absent")]))
        exMarkedDay).2.attendances, b.ID = 2 ∧ b.Deleted = false) ∧
    (∃ b ∈ (UpdateAttendance Faults.none "2" (some { Status := "excused" })
        exMarkedDay).2.attendances, b.ID = 2 ∧ b.Deleted = false) :=
  ⟨(no_operation_deletes Faults.none exMarkedDay (exRow 2 2 "late") (by decide) rfl).1
      (some 7) (some (exRequest [(1, "absent")])),
    (no_operation_deletes Faults.none exMarkedDay (exRow 2 2 "late") (by decide) rfl).2
      "2" (some { Status := "excused" })⟩

/-! ## Lemmas about calendar days -/

/-- The day number of a civil timestamp is that of its date: the time of day
does not count. -/
theorem DATE_instant (c : Civil) (hv : c.valid) :
    DATE c.instant = daysSinceYearOne c.year + daysBefore c.month c.year + (c.day - 1) := by
  obtain ⟨hm1, hm2, -, -, h1, h2, h3, h4, h5, h6⟩ := hv
  unfold Civil.instant DATE
  rw [timeDate_of_month c.year c.month hm1 hm2]
  omega

/-- Dates that exist and have the same day number are the same date. -/
theorem sameDay_of_DATE_eq (c c' : Civil) (hv : c.valid) (hv' : c'.valid)
    (h : DATE c.instant = DATE c'.instant) : c.sameDay c' := by
  rw [DATE_instant c hv, DATE_instant c' hv'] at h
  obtain ⟨hm1, hm2, hd1, hd2, -⟩ := hv
  obtain ⟨hm1', hm2', hd1', hd2', -⟩ := hv'
  have e := year_month_of_timeDate c.year c.month c.day 0 0 hm1 hm2 hd1 hd2 (le_refl 0)
    (by norm_num)
  have e' := year_month_of_timeDate c'.year c'.month c'.day 0 0 hm1' hm2' hd1' hd2' (le_refl 0)
    (by norm_num)
  have ht : @Eq Int (timeDate c.year c.month c.day 0 0 0 0)
      (timeDate c'.year c'.month c'.day 0 0 0 0) := by
    rw [timeDate_of_month c.year c.month hm1 hm2, timeDate_of_month c'.year c'.month hm1' hm2']
    omega
  rw [ht] at e
  have hy : c.year = c'.year := e.1.symm.trans e'.1
  have hm : c.month = c'.month := by
    have := e.2.symm.trans e'.2
    exact_mod_cast this
  refine ⟨hy, hm, ?_⟩
  rw [hy, hm] at h
  omega

/-- Every instant is the instant of a civil timestamp. -/
theorem exists_civil (t : Time) : ∃ c : Civil, c.valid ∧ t = c.instant := by
  obtain ⟨hD, hyd0, hyd1⟩ := yearOfDay_spec (t / 86400)
  obtain ⟨hm1, hm2, hb0, hb1⟩ :=
    monthOfYday_spec (yearOfDay (t / 86400)).1 (yearOfDay (t / 86400)).2 hyd0 hyd1
  generalize (yearOfDay (t / 86400)).1 = Y at *
  generalize (yearOfDay (t / 86400)).2 = yd at *
  generalize monthOfYday Y 11 1 yd = M at *
  refine ⟨{ year := Y, month := M, day := yd - daysBefore M Y + 1, hour := t % 86400 / 3600,
            min := t % 3600 / 60, sec := t % 60 }, ?_, ?_⟩
  · refine ⟨hm1, hm2, ?_, ?_, ?_, ?_, ?_, ?_, ?_, ?_⟩ <;> simp only <;> omega
  · unfold Civil.instant
    simp only
    rw [timeDate_of_month Y M hm1 hm2]
    have e3 : @Eq Int t ((daysSinceYearOne Y + daysBefore M Y + (yd - daysBefore M Y + 1 - 1))
        * 86400 + t % 86400 / 3600 * 3600 + t % 3600 / 60 * 60 + t % 60 - 0) := by
      omega
    exact e3

/-! ## Claims about the lookup -/

theorem bindUpdateRequest_some {body : Option UpdateAttendanceRequest}
    {req : UpdateAttendanceRequest} (h : bindUpdateRequest body = some req) :
    body = some req ∧ req.Status ≠ "" ∧ req.Status ∈ allowedStatuses := by
  cases body with
  | none => simp [bindUpdateRequest] at h
  | some r =>
    simp only [bindUpdateRequest] at h
    split at h
    · rename_i hc
      simp only [Option.some.injEq] at h
      subst h
      simp only [Bool.and_eq_true, bne_iff_ne, ne_eq, List.contains_eq_any_beq,
        List.any_eq_true, beq_iff_eq] at hc
      obtain ⟨hne, x, hx, rfl⟩ := hc
      exact ⟨rfl, hne, hx⟩
    · simp at h

/-- C22.  On a table with sound primary keys, when `UpdateAttendance` answers
200: the body carried a status that is one of the four values, a live row
`old` has the id of the path, the answer carries that row with the status of
the request, and the table after the call is the table before it with the
status of the row of that id replaced by the status of the request: student,
class, section, date, marking user (and id and soft-delete mark) of that row
are what they were, every other row is what it was, and no row is added or
removed. -/
theorem updateAttendance_success (f : Faults) (idParam : String)
    (body : Option UpdateAttendanceRequest) (db : DB) (hw : WellFormed db.attendances)
    (h200 : (UpdateAttendance f idParam body db).1.code = 200) :
    ∃ req old, body = some req ∧ req.Status ∈ allowedStatuses ∧
      old ∈ db.attendances ∧ old.Deleted = false ∧ old.ID = parseUint32 idParam ∧
      UpdateAttendance f idParam body db =
        (⟨200, .record { old with Status := req.Status }⟩,
          { db with attendances := db.attendances.map (fun r =>
              if r.ID = parseUint32 idParam then { r with Status := req.Status } else r) }) := by
  unfold UpdateAttendance at h200 ⊢
  cases hb : bindUpdateRequest body with
  | none => rw [hb] at h200; simp at h200
  | some req =>
    obtain ⟨hbody, hne, hallowed⟩ := bindUpdateRequest_some hb
    rw [hb] at h200
    simp only [] at h200 ⊢
    cases hf : AttendanceRepository.FindByID f.query db.attendances (parseUint32 idParam) with
    | none => rw [hf] at h200; simp at h200
    | some old =>
      obtain ⟨hmem, hlive, hid⟩ := findByID_live hf
      rw [hf] at h200
      have hst : (req.Status != "") = true := by simpa using hne
      simp only [hst, if_true] at h200 ⊢
      cases hu : AttendanceRepository.Update (f.update 0 { old with Status := req.Status })
          db.attendances { old with Status := req.Status } with
      | none => rw [hu] at h200; simp at h200
      | some rows =>
        refine ⟨req, old, hbody, hallowed, hmem, hlive, hid, ?_⟩
        have hz : old.ID ≠ 0 := hw.2 old hmem
        have hany : db.attendances.any (fun r => r.ID == old.ID) = true := by
          simp only [List.any_eq_true]
          exact ⟨old, hmem, by simp⟩
        unfold AttendanceRepository.Update at hu
        cases hfu : f.update 0 { old with Status := req.Status } with
        | true => rw [hfu] at hu; simp at hu
        | false =>
          rw [hfu] at hu
          simp only [Bool.false_eq_true, if_false, beq_iff_eq, hz, hany, if_true,
            Option.some.injEq] at hu
          subst hu
          simp only [Prod.mk.injEq, true_and]
          congr 1
          apply List.map_congr_left
          intro r hr
          by_cases hrid : r.ID = old.ID
          · have : r = old := List.inj_on_of_nodup_map hw.1 hr hmem hrid
            subst this
            simp [hid]
          · have : ¬ r.ID = parseUint32 idParam := by rw [← hid]; exact hrid
            simp [hrid, this]

/-- An instance of C22: status `excused` for row 2 of the marked day. -/
theorem updateAttendance_success_witness :
    ∃ req old, some ({ Status := "excused" } : UpdateAttendanceRequest) = some req ∧
      req.Status ∈ allowedStatuses ∧
      old ∈ exMarkedDay.attendances ∧ old.Deleted = false ∧ old.ID = parseUint32 "2" ∧
      UpdateAttendance Faults.none "2" (some { Status := "excused" }) exMarkedDay =
        (⟨200, .record { old with Status := req.Status }⟩,
          { exMarkedDay with attendances := exMarkedDay.attendances.map (fun r =>
              if r.ID = parseUint32 "2" then { r with Status := req.Status } else r) }) :=
  updateAttendance_success Faults.none "2" (some { Status := "excused" }) exMarkedDay
    (by decide) (by decide)

/-- C25.  Whenever `MarkAttendance` answers 400 or 401 the store after the call
is the store before it.  These are the answers to a body that does not bind,
a date that does not parse, a missing `user_id`, a failed roster query and an
empty roster, each of which is met before the roster loop, where the first
write is. -/
theorem markAttendance_rejection_writes_nothing (f : Faults) (userID : Option Nat)
    (body : Option MarkAttendanceRequest) (db : DB) :
    (((MarkAttendance f userID body db).1.code = 400 ∨
        (MarkAttendance f userID body db).1.code = 401) →
      (MarkAttendance f userID body db).2 = db) ∧
    (ShouldBindJSON body = none →
      MarkAttendance f userID body db = (⟨400, .error bindError⟩, db)) ∧
    (∀ req, ShouldBindJSON body = some req →
      (timeParse req.Date = none →
        MarkAttendance f userID body db =
          (⟨400, .error "Invalid date format. Use YYYY-MM-DD"⟩, db)) ∧
      (∀ date, timeParse req.Date = some date →
        (userID = none →
          MarkAttendance f userID body db = (⟨401, .error "User not authenticated"⟩, db)) ∧
        (userID ≠ none →
          (StudentRepository.FindByClassAndSection f.findStudents db.students req.ClassID
              req.SectionID = none →
            MarkAttendance f userID body db =
              (⟨400, .error "Failed to fetch students"⟩, db)) ∧
          (StudentRepository.FindByClassAndSection f.findStudents db.students req.ClassID
              req.SectionID = some [] →
            MarkAttendance f userID body db =
              (⟨400, .error "No students found for the selected class and section"⟩,
                db))))) := by
  refine ⟨?_, ?_, ?_⟩
  · unfold MarkAttendance
    cases ShouldBindJSON body with
    | none => intro _; rfl
    | some req =>
      simp only []
      cases timeParse req.Date with
      | none => intro _; rfl
      | some date =>
        simp only []
        cases userID with
        | none => intro _; rfl
        | some markedBy =>
          simp only []
          cases StudentRepository.FindByClassAndSection f.findStudents db.students req.ClassID
              req.SectionID with
          | none => intro _; rfl
          | some students =>
            simp only []
            split
            · intro _; rfl
            · cases markLoop f req date markedBy 0 students db.attendances [] with
              | aborted rows => intro h; simp at h
              | done rows staged =>
                simp only []
                split
                · cases AttendanceRepository.CreateBatch (f.createBatch staged) rows staged with
                  | none => intro h; simp at h
                  | some rows' => intro h; simp at h
                · intro h; simp at h
  · intro hb
    unfold MarkAttendance
    rw [hb]
  · intro req hb
    refine ⟨?_, ?_⟩
    · intro hd
      unfold MarkAttendance
      rw [hb]
      simp only [hd]
    · intro date hd
      refine ⟨?_, ?_⟩
      · intro hu
        unfold MarkAttendance
        rw [hb]
        simp only [hd, hu]
      · intro hu
        obtain ⟨markedBy, rfl⟩ := Option.ne_none_iff_exists'.mp hu
        refine ⟨?_, ?_⟩
        · intro hr
          unfold MarkAttendance
          rw [hb]
          simp only [hd, hr]
        · intro hr
          unfold MarkAttendance
          rw [hb]
          simp only [hd, hr]
          rfl

/-- An instance of C25: a mark request for a date that does not parse, on the
marked day. -/
theorem markAttendance_rejection_writes_nothing_witness :
    (MarkAttendance Faults.none (some 7)
      (some { exRequest [(1, "absent")] with Date := "05/03/2024" }) exMarkedDay).2 =
      exMarkedDay :=
  (markAttendance_rejection_writes_nothing Faults.none (some 7)
    (some { exRequest [(1, "absent")] with Date := "05/03/2024" }) exMarkedDay).1
    (Or.inl (by decide))

/-- C27.  When the existing-record lookup of iteration `i` fails with a store
error, `FindExisting` returns the zero record with the error; the loop does
not look at the error, takes the update branch with the zero record carrying
the status that the request has for the student, and stages nothing for the
student: when the `Save` of that record fails the loop ends (the 500 of a
failed update), and when it succeeds a new row of student id 0, dated at the
zero time, has been inserted and the loop goes on with the next student and
the staged records it had. -/
theorem lookup_error_takes_update_branch (f : Faults) (req : MarkAttendanceRequest)
    (date : Time) (markedBy i : Nat) (student : Student) (rest : List Student)
    (rows staged : List Attendance) (herr : f.findExisting i = true) :
    AttendanceRepository.FindExisting (f.findExisting i) rows student.ID date =
      (some Attendance.zero, true) ∧
    Attendance.zero.StudentID = 0 ∧
    (f.update i { Attendance.zero with Status := req.status student.ID } = true →
      markLoop f req date markedBy i (student :: rest) rows staged = .aborted rows) ∧
    (f.update i { Attendance.zero with Status := req.status student.ID } = false →
      markLoop f req date markedBy i (student :: rest) rows staged =
        markLoop f req date markedBy (i + 1) rest
          (rows ++ [{ Attendance.zero with
            Status := req.status student.ID, ID := nextID rows }]) staged) := by
  have hfind : AttendanceRepository.FindExisting (f.findExisting i) rows student.ID date =
      (some Attendance.zero, true) := by
    simp [AttendanceRepository.FindExisting, herr]
  refine ⟨hfind, rfl, ?_, ?_⟩
  · intro hu
    rw [markLoop, hfind]
    simp only [hu, AttendanceRepository.Update, if_true]
  · intro hu
    rw [markLoop, hfind]
    simp only [hu, AttendanceRepository.Update, Bool.false_eq_true, if_false]
    rfl

/-- An instance of C27: students 1 and 2, student 2 marked `late`; every lookup
fails and every write succeeds.  The call answers 201, the row of student 2 is
what it was, and two rows of student 0 have been inserted, with the statuses
that the request has for students 1 and 2. -/
theorem lookup_error_takes_update_branch_witness :
    markLoop Faults.lookupErrs (exRequest [(1, "present"), (2, "absent")]) exDay 7 0
        [exStudent 1, exStudent 2] exHalfMarked.attendances [] =
      markLoop Faults.lookupErrs (exRequest [(1, "present"), (2, "absent")]) exDay 7 1
        [exStudent 2]
        (exHalfMarked.attendances ++ [{ Attendance.zero with
          Status := (exRequest [(1, "present"), (2, "absent")]).status (exStudent 1).ID,
          ID := nextID exHalfMarked.attendances }]) [] ∧
    MarkAttendance Faults.lookupErrs (some 7)
        (some (exRequest [(1, "present"), (2, "absent")])) exHalfMarked =
      (⟨201, .message "Attendance marked successfully"⟩,
        { exHalfMarked with attendances :=
          [exRow 1 2 "late", { Attendance.zero with Status := "present", ID := 2 },
            { Attendance.zero with Status := "absent", ID := 3 }] }) :=
  ⟨(lookup_error_takes_update_branch Faults.lookupErrs
      (exRequest [(1, "present"), (2, "absent")]) exDay 7 0 (exStudent 1) [exStudent 2]
      exHalfMarked.attendances [] rfl).2.2.2 rfl, by decide⟩

/-- C28.  `GetStatistics` and `GetClassStatistics` return statistics and no
error whatever the store does (in this development they are functions to
`Stats`: the source returns `nil` as the error on its one return path and does
not look at the results of the counts).  So for every store and every pattern
of failing counts `GetAttendanceStatistics` answers 200 with statistics
whenever `student_id` or `class_id` is not empty; when the first count fails
these statistics are all zero. -/
theorem statistics_always_answer_200 (f : Faults)
    (studentIDStr classIDStr sectionIDStr startDateStr endDateStr : String) (db : DB)
    (h : studentIDStr ≠ "" ∨ classIDStr ≠ "") :
    ∃ s, GetAttendanceStatistics f studentIDStr classIDStr sectionIDStr startDateStr
        endDateStr db = ⟨200, .stats s⟩ ∧
      (f.count 0 = true →
        s = { total := 0, present := 0, absent := 0, late := 0, excused := 0,
              percentage := 0 }) := by
  have hzero : ∀ q : Query, f.count 0 = true →
      countByStatus f.count db.attendances q =
        { total := 0, present := 0, absent := 0, late := 0, excused := 0,
          percentage := 0 } := by
    intro q h0
    simp [countByStatus, Query.Count, h0, percentageOf]
  unfold GetAttendanceStatistics
  by_cases hs : studentIDStr = ""
  · have hc : classIDStr ≠ "" := by
      rcases h with h | h
      · exact absurd hs h
      · exact h
    simp only [hs, bne_self_eq_false, Bool.false_eq_true, if_false, bne_iff_ne, ne_eq, hc,
      not_false_eq_true, if_true]
    exact ⟨_, rfl, fun h0 => hzero _ h0⟩
  · simp only [bne_iff_ne, ne_eq, hs, not_false_eq_true, if_true]
    exact ⟨_, rfl, fun h0 => hzero _ h0⟩

/-- An instance of C28: statistics of class 1 on a store whose counts all
fail. -/
theorem statistics_always_answer_200_witness :
    ∃ s, GetAttendanceStatistics { Faults.none with count := fun _ => true } "" "1" "" "" ""
        exMarkedDay = ⟨200, .stats s⟩ ∧
      (({ Faults.none with count := fun _ => true } : Faults).count 0 = true →
        s = { total := 0, present := 0, absent := 0, late := 0, excused := 0,
              percentage := 0 }) :=
  statistics_always_answer_200 { Faults.none with count := fun _ => true } "" "1" "" "" ""
    exMarkedDay (Or.inr (by decide))

/-- C29.  With a `student_id` that is not empty, `GetAttendanceStatistics`
answers what it answers to the same request without `class_id` and
`section_id`: 200 with the statistics of the student. -/
theorem statistics_student_id_first (f : Faults)
    (studentIDStr classIDStr sectionIDStr startDateStr endDateStr : String) (db : DB)
    (h : studentIDStr ≠ "") :
    GetAttendanceStatistics f studentIDStr classIDStr sectionIDStr startDateStr endDateStr db =
      GetAttendanceStatistics f studentIDStr "" "" startDateStr endDateStr db ∧
    GetAttendanceStatistics f studentIDStr classIDStr sectionIDStr startDateStr endDateStr db =
      ⟨200, .stats (AttendanceRepository.GetStatistics f.count db.attendances
        (parseUint32 studentIDStr) (optionalDate startDateStr) (optionalDate endDateStr))⟩ := by
  unfold GetAttendanceStatistics
  simp [h]

/-- An instance of C29: `student_id` 1 together with `class_id` 2 and
`section_id` 3. -/
theorem statistics_student_id_first_witness :
    GetAttendanceStatistics Faults.none "1" "2" "3" "" "" exMarkedDay =
      GetAttendanceStatistics Faults.none "1" "" "" "" "" exMarkedDay :=
  (statistics_student_id_first Faults.none "1" "2" "3" "" "" exMarkedDay (by decide)).1

/-! ## Lemmas about what the roster loop writes -/

/-- The loop reads the request only through the class, the section and the
statuses of the roster students. -/
theorem markLoop_congr (f : Faults) (req req' : MarkAttendanceRequest) (date : Time)
    (markedBy : Nat) (hc : req'.ClassID = req.ClassID) (hs : req'.SectionID = req.SectionID) :
    ∀ (roster : List Student) (i : Nat) (rows staged : List Attendance),
      (∀ s ∈ roster, req'.status s.ID = req.status s.ID) →
      markLoop f req' date markedBy i roster rows staged =
        markLoop f req date markedBy i roster rows staged := by
  intro roster
  induction roster with
  | nil => intro i rows staged _; simp [markLoop]
  | cons s rest ih =>
    intro i rows staged h
    have hst : req'.status s.ID = req.status s.ID := h s (List.mem_cons_self _ _)
    have hrest : ∀ t ∈ rest, req'.status t.ID = req.status t.ID :=
      fun t ht => h t (List.mem_cons_of_mem _ ht)
    have hnew : newRecord req' date markedBy s = newRecord req date markedBy s := by
      simp [newRecord, hst, hc, hs]
    simp only [markLoop, hst, hnew]
    cases (AttendanceRepository.FindExisting (f.findExisting i) rows s.ID date).1 with
    | none => exact ih _ _ _ hrest
    | some existing =>
      simp only []
      cases AttendanceRepository.Update
          (f.update i { existing with Status := req.status s.ID }) rows
          { existing with Status := req.status s.ID } with
      | none => rfl
      | some rows₁ => exact ih _ _ _ hrest

/-- Saving a found row of another student leaves the rows of student `k` as
they are. -/
theorem update_other_student {rows rows' : List Attendance} {existing : Attendance}
    {v : String} (k : Nat) (hw : WellFormed rows) (hmem : existing ∈ rows)
    (hk : existing.StudentID ≠ k)
    (h : AttendanceRepository.Update false rows { existing with Status := v } = some rows') :
    rows'.filter (fun a => a.StudentID == k) = rows.filter (fun a => a.StudentID == k) := by
  unfold AttendanceRepository.Update at h
  have hz : existing.ID ≠ 0 := hw.2 existing hmem
  have hany : rows.any (fun r => r.ID == existing.ID) = true := by
    simp only [List.any_eq_true]
    exact ⟨existing, hmem, by simp⟩
  simp only [Bool.false_eq_true, if_false, beq_iff_eq, hz, hany, if_true, Option.some.injEq] at h
  subst h
  have hf : ∀ r ∈ rows, (if r.ID = existing.ID then { existing with Status := v } else r).StudentID
      = r.StudentID := by
    intro r hr
    by_cases hid : r.ID = existing.ID
    · have : r = existing := List.inj_on_of_nodup_map hw.1 hr hmem hid
      subst this
      simp
    · simp [hid]
  rw [List.filter_map]
  have e1 : rows.filter ((fun a : Attendance => a.StudentID == k) ∘
      (fun r => if r.ID = existing.ID then { existing with Status := v } else r)) =
      rows.filter (fun a => a.StudentID == k) := by
    apply List.filter_congr
    intro r hr
    simp only [Function.comp, hf r hr]
  rw [e1]
  have e2 : ∀ r ∈ rows.filter (fun a => a.StudentID == k),
      (if r.ID = existing.ID then { existing with Status := v } else r) = r := by
    intro r hr
    rw [List.mem_filter] at hr
    have hrk : r.StudentID = k := by simpa using hr.2
    by_cases hid : r.ID = existing.ID
    · have : r = existing := List.inj_on_of_nodup_map hw.1 hr.1 hmem hid
      subst this
      exact absurd hrk hk
    · simp [hid]
  calc List.map _ (rows.filter (fun a => a.StudentID == k))
      = List.map id (rows.filter (fun a => a.StudentID == k)) := List.map_congr_left e2
    _ = rows.filter (fun a => a.StudentID == k) := List.map_id _

/-- Inserting records of other students leaves the rows of student `k` as they
are. -/
theorem foldl_insertRow_other_student (k : Nat) (staged : List Attendance)
    (hk : ∀ a ∈ staged, a.StudentID ≠ k) : ∀ rows : List Attendance,
    (staged.foldl insertRow rows).filter (fun a => a.StudentID == k) =
      rows.filter (fun a => a.StudentID == k) := by
  induction staged with
  | nil => intro rows; rfl
  | cons a rest ih =>
    intro rows
    have ha : a.StudentID ≠ k := hk a (List.mem_cons_self _ _)
    rw [List.foldl_cons, ih (fun b hb => hk b (List.mem_cons_of_mem _ hb))]
    simp [insertRow, List.filter_append, ha]

/-- The roster loop when no failed lookup can write, on a table with sound
keys: the rows of a student who is not on the roster stay as they are, the
table stays sound and the staged records are records of roster students. -/
theorem markLoop_other_student (f : Faults) (req : MarkAttendanceRequest) (date : Time)
    (markedBy : Nat) (hz : ∀ j, f.findExisting j = true →
      ∀ v, f.update j { Attendance.zero with Status := v } = true) (k : Nat) :
    ∀ (roster : List Student) (i : Nat) (rows staged : List Attendance), WellFormed rows →
      (∀ s ∈ roster, s.ID ≠ k) → (∀ a ∈ staged, a.StudentID ≠ k) →
      match markLoop f req date markedBy i roster rows staged with
      | .done rows' staged' =>
        rows'.filter (fun a => a.StudentID == k) = rows.filter (fun a => a.StudentID == k) ∧
        ∀ a ∈ staged', a.StudentID ≠ k
      | .aborted rows' =>
        rows'.filter (fun a => a.StudentID == k) = rows.filter (fun a => a.StudentID == k) := by
  intro roster
  induction roster with
  | nil => intro i rows staged _ _ hst; simpa [markLoop] using hst
  | cons s rest ih =>
    intro i rows staged hw hr hst
    have hsk : s.ID ≠ k := hr s (List.mem_cons_self _ _)
    have hrest : ∀ t ∈ rest, t.ID ≠ k := fun t ht => hr t (List.mem_cons_of_mem _ ht)
    cases hfi : f.findExisting i with
    | true =>
      have hu := hz i hfi (req.status s.ID)
      simp only [markLoop, hfi, AttendanceRepository.FindExisting, if_true]
      simp only [hu, AttendanceRepository.Update, if_true]
    | false =>
    simp only [markLoop, hfi]
    cases hf : (AttendanceRepository.FindExisting false rows s.ID date).1 with
    | none =>
      simp only []
      apply ih _ _ _ hw hrest
      intro a ha
      rcases List.mem_append.mp ha with h | h
      · exact hst a h
      · simp only [List.mem_singleton] at h
        subst h
        exact hsk
    | some existing =>
      simp only []
      obtain ⟨hmem, hcond⟩ := findExisting_some hf
      have hes : existing.StudentID ≠ k := by
        simp only [existingCond, Bool.and_eq_true, beq_iff_eq] at hcond
        rw [hcond.1.2]
        exact hsk
      cases hfu : f.update i { existing with Status := req.status s.ID } with
      | true => simp [AttendanceRepository.Update]
      | false =>
        cases hu : AttendanceRepository.Update false rows
            { existing with Status := req.status s.ID } with
        | none => simp
        | some rows₁ =>
          simp only []
          have hw₁ : WellFormed rows₁ := wellFormed_congr (update_key hw hmem hu) hw
          have e₁ := update_other_student k hw hmem hes hu
          have := ih (i + 1) rows₁ staged hw₁ hrest hst
          cases hm : markLoop f req date markedBy (i + 1) rest rows₁ staged with
          | done rows' staged' =>
            rw [hm] at this
            exact ⟨this.1.trans e₁, this.2⟩
          | aborted rows' =>
            rw [hm] at this
            exact this.trans e₁

/-! ## Claims about what `MarkAttendance` accepts and writes -/

/-- C23.  A status that is not empty and none of `present`, `absent`, `late`,
`excused`, such as `holiday`: sent for student 1 of the roster 1, 2, 3 on an
empty day, to a store that accepts it, `MarkAttendance` answers 201 and the
row inserted for student 1 carries that status as it was sent; the record
staged for any student carries the student's status of the request as it is;
and `UpdateAttendance` answers 400 to that status, for every id and store. -/
theorem markAttendance_accepts_any_status (v : String) (hv : v ≠ "")
    (hnot : v ∉ allowedStatuses) :
    MarkAttendance Faults.none (some 7) (some (exRequest [(1, v)])) exEmptyDay =
      (⟨201, .message "Attendance marked successfully"⟩,
        { exEmptyDay with attendances :=
          [exRow 1 1 v, exRow 2 2 "absent", exRow 3 3 "absent"] }) ∧
    (∀ (req : MarkAttendanceRequest) (date : Time) (markedBy : Nat) (s : Student),
      req.status s.ID = v → (newRecord req date markedBy s).Status = v) ∧
    (∀ (f : Faults) (idParam : String) (db : DB),
      UpdateAttendance f idParam (some { Status := v }) db = (⟨400, .error bindError⟩, db)) := by
  refine ⟨?_, ?_, ?_⟩
  · have hp : timeParse "2024-03-05" = some exDay := by decide
    have hve : (v == "") = false := by simpa using hv
    simp [MarkAttendance, ShouldBindJSON, exRequest, hp, exEmptyDay,
      StudentRepository.FindByClassAndSection, Faults.none, exStudent, markLoop,
      AttendanceRepository.FindExisting, firstByID, newRecord, MarkAttendanceRequest.status,
      List.lookup, hve, AttendanceRepository.CreateBatch, insertRow, nextID, exRow]
  · intro req date markedBy s hs
    have hve : (v == "") = false := by simpa using hv
    simp [newRecord, hs, hve]
  · intro f idParam db
    have hb : bindUpdateRequest (some { Status := v }) = none := by
      simp only [bindUpdateRequest]
      rw [if_neg]
      intro hc
      simp only [Bool.and_eq_true, List.contains_eq_any_beq, List.any_eq_true,
        beq_iff_eq] at hc
      obtain ⟨-, x, hx, rfl⟩ := hc
      exact hnot hx
    unfold UpdateAttendance
    rw [hb]

/-- An instance of C23: the status `holiday`. -/
theorem markAttendance_accepts_any_status_witness :
    MarkAttendance Faults.none (some 7) (some (exRequest [(1, "holiday")])) exEmptyDay =
      (⟨201, .message "Attendance marked successfully"⟩,
        { exEmptyDay with attendances :=
          [exRow 1 1 "holiday", exRow 2 2 "absent", exRow 3 3 "absent"] }) ∧
    UpdateAttendance Faults.none "1" (some { Status := "holiday" })
        { exEmptyDay with attendances :=
          [exRow 1 1 "holiday", exRow 2 2 "absent", exRow 3 3 "absent"] } =
      (⟨400, .error bindError⟩,
        { exEmptyDay with attendances :=
          [exRow 1 1 "holiday", exRow 2 2 "absent", exRow 3 3 "absent"] }) :=
  ⟨(markAttendance_accepts_any_status "holiday" (by decide) (by decide)).1,
    (markAttendance_accepts_any_status "holiday" (by decide) (by decide)).2.2 Faults.none "1" _⟩

/-- What the foreign key keeps out: on a store that accepts rows of student id
0, with student 1 as the roster and a status map with the keys 1 and 0, a
lookup that fails makes the call insert a row of student id 0. -/
theorem markAttendance_writes_row_of_student_zero :
    StudentRepository.FindByClassAndSection Faults.lookupErrs.findStudents
      exOneStudent.students 1 1 = some [exStudent 1] ∧
    MarkAttendance Faults.lookupErrs (some 7)
        (some (exRequest [(1, "present"), (0, "late")])) exOneStudent =
      (⟨201, .message "Attendance marked successfully"⟩,
        { exOneStudent with attendances :=
          [{ Attendance.zero with Status := "present", ID := 1 }] }) ∧
    ({ Attendance.zero with Status := "present", ID := 1 } : Attendance).StudentID = 0 := by
  decide

/-- C26.  (1) On the schema of the program, where `attendances` has sound
primary keys and `student_id` is a foreign key into `students`, whose ids are
not 0 (`lookupsSafe`, which also holds of any store in a call whose lookups do
not fail): the rows of a student id that is not on the resolved roster are
after a call of `MarkAttendance` what they were before it, none being created,
changed or removed, whether the id is a key of the status map or not and
whichever store calls fail.  (2) Whatever the store does, a request whose
status map is replaced by one that has the same entries for the roster
students gets the same answer and leaves the same store. -/
theorem markAttendance_writes_roster_only (f : Faults) (userID : Option Nat)
    (req : MarkAttendanceRequest) (db : DB) :
    (∀ k : Nat, lookupsSafe f db.students → WellFormed db.attendances →
      (∀ students, StudentRepository.FindByClassAndSection f.findStudents db.students
          req.ClassID req.SectionID = some students → ∀ s ∈ students, s.ID ≠ k) →
      (MarkAttendance f userID (some req) db).2.attendances.filter
          (fun a => a.StudentID == k) =
        db.attendances.filter (fun a => a.StudentID == k)) ∧
    (∀ m m' : List (Nat × String), req.Attendance = some m →
      (∀ students, StudentRepository.FindByClassAndSection f.findStudents db.students
          req.ClassID req.SectionID = some students →
        ∀ s ∈ students, m'.lookup s.ID = m.lookup s.ID) →
      MarkAttendance f userID (some { req with Attendance := some m' }) db =
        MarkAttendance f userID (some req) db) := by
  constructor
  · intro k hlk hw hk
    unfold MarkAttendance
    cases hb : ShouldBindJSON (some req) with
    | none => rfl
    | some req₁ =>
      have hreq : req₁ = req := by
        have := shouldBindJSON_some hb
        simpa using this.symm
      subst hreq
      simp only []
      cases hd : timeParse req₁.Date with
      | none => rfl
      | some date =>
        simp only []
        cases userID with
        | none => rfl
        | some markedBy =>
          simp only []
          cases hr : StudentRepository.FindByClassAndSection f.findStudents db.students
              req₁.ClassID req₁.SectionID with
          | none => rfl
          | some students =>
            simp only []
            split
            · rfl
            · have hloop := markLoop_other_student f req₁ date markedBy
                (zero_record_refused hlk) k students 0
                db.attendances [] hw (hk students hr) (by simp)
              cases hm : markLoop f req₁ date markedBy 0 students db.attendances [] with
              | aborted rows => rw [hm] at hloop; exact hloop
              | done rows staged =>
                rw [hm] at hloop
                simp only []
                split
                · cases hcb : AttendanceRepository.CreateBatch (f.createBatch staged) rows
                      staged with
                  | none => exact hloop.1
                  | some rows' =>
                    simp only []
                    unfold AttendanceRepository.CreateBatch at hcb
                    split at hcb
                    · simp at hcb
                    · simp only [Option.some.injEq] at hcb
                      subst hcb
                      rw [foldl_insertRow_other_student k staged hloop.2 rows]
                      exact hloop.1
                · exact hloop.1
  · intro m m' hm hagree
    have hbind : ShouldBindJSON (some { req with Attendance := some m' }) =
        (ShouldBindJSON (some req)).map (fun r => { r with Attendance := some m' }) := by
      simp only [ShouldBindJSON, hm, Option.isNone_some, Bool.or_false]
      split <;> simp [hm]
    unfold MarkAttendance
    rw [hbind]
    cases hb : ShouldBindJSON (some req) with
    | none => rfl
    | some req₁ =>
      have hreq : req₁ = req := by
        have := shouldBindJSON_some hb
        simpa using this.symm
      subst hreq
      simp only [Option.map_some']
      cases hd : timeParse req₁.Date with
      | none => rfl
      | some date =>
        simp only []
        cases userID with
        | none => rfl
        | some markedBy =>
          simp only []
          cases hr : StudentRepository.FindByClassAndSection f.findStudents db.students
              req₁.ClassID req₁.SectionID with
          | none => rfl
          | some students =>
            simp only []
            have hst : ∀ s ∈ students,
                MarkAttendanceRequest.status { req₁ with Attendance := some m' } s.ID =
                  req₁.status s.ID := by
              intro s hs
              simp only [MarkAttendanceRequest.status, hm, hagree students hr s hs]
            rw [markLoop_congr f req₁ { req₁ with Attendance := some m' } date markedBy rfl rfl
              students 0 db.attendances [] hst]

/-- An instance of C26: the marked day, whose roster is students 1, 2, 3, on
a store that enforces the foreign key, the lookup for the second student
failing; the status map has an entry for id 0 besides the entry for student 1.
The rows of student id 0 are what they were (there are none), and the call
does what it does without that entry. -/
theorem markAttendance_writes_roster_only_witness :
    (MarkAttendance (Faults.foreignKeys exMarkedDay.students (fun j => j == 1)) (some 7)
        (some (exRequest [(0, "late"), (1, "absent")])) exMarkedDay).2.attendances.filter
        (fun a => a.StudentID == 0) =
      exMarkedDay.attendances.filter (fun a => a.StudentID == 0) ∧
    MarkAttendance (Faults.foreignKeys exMarkedDay.students (fun j => j == 1)) (some 7)
        (some { exRequest [(0, "late"), (1, "absent")] with
          Attendance := some [(1, "absent")] }) exMarkedDay =
      MarkAttendance (Faults.foreignKeys exMarkedDay.students (fun j => j == 1)) (some 7)
        (some (exRequest [(0, "late"), (1, "absent")])) exMarkedDay :=
  ⟨(markAttendance_writes_roster_only
      (Faults.foreignKeys exMarkedDay.students (fun j => j == 1)) (some 7)
      (exRequest [(0, "late"), (1, "absent")]) exMarkedDay).1 0
      (Or.inr ⟨foreignKeys_enforces _ _, by decide⟩) (by decide)
      (fun students h s hs => by
        have e : students = [exStudent 1, exStudent 2, exStudent 3] :=
          (Option.some.inj h).symm
        subst e
        revert s
        decide),
    (markAttendance_writes_roster_only
      (Faults.foreignKeys exMarkedDay.students (fun j => j == 1)) (some 7)
      (exRequest [(0, "late"), (1, "absent")]) exMarkedDay).2 [(0, "late"), (1, "absent")]
      [(1, "absent")] rfl
      (fun students h s hs => by
        have e : students = [exStudent 1, exStudent 2, exStudent 3] :=
          (Option.some.inj h).symm
        subst e
        revert s
        decide)⟩

/-! ## Lemmas about `float64` rounding -/

/-- Rounding moves a number by at most one half. -/
theorem roundHalfEven_near (q : ℚ) :
    (roundHalfEven q : ℚ) - 1 / 2 ≤ q ∧ q ≤ roundHalfEven q + 1 / 2 := by
  have h1 := Int.floor_le q
  have h2 := Int.lt_floor_add_one q
  unfold roundHalfEven
  simp only
  split_ifs <;> push_cast <;> constructor <;> linarith

theorem roundHalfEven_intCast (n : ℤ) : roundHalfEven (n : ℚ) = n :=
  roundHalfEven_of_near n (by linarith) (by linarith)

theorem roundHalfEven_mono {x y : ℚ} (h : x ≤ y) : roundHalfEven x ≤ roundHalfEven y := by
  by_contra hlt
  have hlt' : roundHalfEven y + 1 ≤ roundHalfEven x := by omega
  have hq : ((roundHalfEven y : ℤ) : ℚ) + 1 ≤ roundHalfEven x := by exact_mod_cast hlt'
  have hx := (roundHalfEven_near x).1
  have hy := (roundHalfEven_near y).2
  have hxy : x = y := by linarith
  subst hxy
  exact hlt (le_refl _)

/-- A positive number and its `float64` lie between the same two powers of 2. -/
theorem float64_binade {q : ℚ} (hq : 0 < q) :
    (2 : ℚ) ^ (Int.log 2 q) ≤ float64 q ∧ float64 q ≤ (2 : ℚ) ^ (Int.log 2 q + 1) := by
  have h1 : (2 : ℚ) ^ (Int.log 2 q) ≤ q := by
    have := Int.zpow_log_le_self (b := 2) (by norm_num) hq
    exact_mod_cast this
  have h2 : q < (2 : ℚ) ^ (Int.log 2 q + 1) := by
    have := Int.lt_zpow_succ_log_self (b := 2) (by norm_num) q
    exact_mod_cast this
  rw [float64_of_bounds (Int.log 2 q) h1 h2]
  generalize Int.log 2 q = e at h1 h2
  have hs : (0 : ℚ) < 2 ^ (e - 52) := by positivity
  have e1 : (2 : ℚ) ^ e = 2 ^ (52 : ℤ) * 2 ^ (e - 52) := by
    rw [← zpow_add₀ (by norm_num : (2 : ℚ) ≠ 0)]
    congr 1
    ring
  have e2 : (2 : ℚ) ^ (e + 1) = 2 ^ (53 : ℤ) * 2 ^ (e - 52) := by
    rw [← zpow_add₀ (by norm_num : (2 : ℚ) ≠ 0)]
    congr 1
    ring
  have hlo : ((2 ^ 52 : ℤ) : ℚ) ≤ q / 2 ^ (e - 52) := by
    rw [le_div_iff₀ hs]
    have : (((2 ^ 52 : ℤ) : ℚ)) = 2 ^ (52 : ℤ) := by norm_num
    rw [this, ← e1]
    exact h1
  have hhi : q / 2 ^ (e - 52) ≤ ((2 ^ 53 : ℤ) : ℚ) := by
    rw [div_le_iff₀ hs]
    have : (((2 ^ 53 : ℤ) : ℚ)) = 2 ^ (53 : ℤ) := by norm_num
    rw [this, ← e2]
    exact le_of_lt h2
  have r1 : (2 ^ 52 : ℤ) ≤ roundHalfEven (q / 2 ^ (e - 52)) := by
    have := roundHalfEven_mono hlo
    rwa [roundHalfEven_intCast] at this
  have r2 : roundHalfEven (q / 2 ^ (e - 52)) ≤ (2 ^ 53 : ℤ) := by
    have := roundHalfEven_mono hhi
    rwa [roundHalfEven_intCast] at this
  have r1' : (2 : ℚ) ^ (52 : ℤ) ≤ (roundHalfEven (q / 2 ^ (e - 52)) : ℚ) := by
    have : ((2 ^ 52 : ℤ) : ℚ) ≤ (roundHalfEven (q / 2 ^ (e - 52)) : ℚ) := by exact_mod_cast r1
    calc (2 : ℚ) ^ (52 : ℤ) = ((2 ^ 52 : ℤ) : ℚ) := by norm_num
      _ ≤ _ := this
  have r2' : (roundHalfEven (q / 2 ^ (e - 52)) : ℚ) ≤ (2 : ℚ) ^ (53 : ℤ) := by
    have : (roundHalfEven (q / 2 ^ (e - 52)) : ℚ) ≤ ((2 ^ 53 : ℤ) : ℚ) := by exact_mod_cast r2
    calc (roundHalfEven (q / 2 ^ (e - 52)) : ℚ) ≤ ((2 ^ 53 : ℤ) : ℚ) := this
      _ = (2 : ℚ) ^ (53 : ℤ) := by norm_num
  rw [e1, e2]
  exact ⟨mul_le_mul_of_nonneg_right r1' hs.le, mul_le_mul_of_nonneg_right r2' hs.le⟩

theorem float64_zero : float64 0 = 0 := by
  simp [float64]

theorem float64_pos {q : ℚ} (hq : 0 < q) : 0 < float64 q :=
  lt_of_lt_of_le (by positivity) (float64_binade hq).1

/-- Rounding to `float64` keeps the order of numbers that are not negative. -/
theorem float64_mono {x y : ℚ} (hx : 0 ≤ x) (h : x ≤ y) : float64 x ≤ float64 y := by
  rcases eq_or_lt_of_le hx with h0 | hpos
  · rw [← h0, float64_zero]
    rcases eq_or_lt_of_le (hx.trans h) with hy0 | hypos
    · rw [← hy0, float64_zero]
    · exact (float64_pos hypos).le
  · have hypos : 0 < y := lt_of_lt_of_le hpos h
    have hlog : Int.log 2 x ≤ Int.log 2 y := Int.log_mono_right hpos h
    rcases eq_or_lt_of_le hlog with he | hlt
    · have hx1 : (2 : ℚ) ^ (Int.log 2 x) ≤ x := by
        have := Int.zpow_log_le_self (b := 2) (by norm_num) hpos
        exact_mod_cast this
      have hx2 : x < (2 : ℚ) ^ (Int.log 2 x + 1) := by
        have := Int.lt_zpow_succ_log_self (b := 2) (by norm_num) x
        exact_mod_cast this
      have hy1 : (2 : ℚ) ^ (Int.log 2 x) ≤ y := hx1.trans h
      have hy2 : y < (2 : ℚ) ^ (Int.log 2 x + 1) := by
        rw [he]
        have := Int.lt_zpow_succ_log_self (b := 2) (by norm_num) y
        exact_mod_cast this
      rw [float64_of_bounds _ hx1 hx2, float64_of_bounds _ hy1 hy2]
      have hs : (0 : ℚ) < 2 ^ (Int.log 2 x - 52) := by positivity
      apply mul_le_mul_of_nonneg_right _ hs.le
      have : roundHalfEven (x / 2 ^ (Int.log 2 x - 52)) ≤
          roundHalfEven (y / 2 ^ (Int.log 2 x - 52)) :=
        roundHalfEven_mono (div_le_div_of_nonneg_right h hs.le)
      exact_mod_cast this
    · have hstep : (2 : ℚ) ^ (Int.log 2 x + 1) ≤ 2 ^ (Int.log 2 y) :=
        zpow_le_zpow_right₀ (by norm_num) (by omega)
      exact ((float64_binade hpos).2.trans hstep).trans (float64_binade hypos).1

theorem float64_one : float64 1 = 1 := by
  rw [float64_of_bounds 0 (by norm_num) (by norm_num),
    roundHalfEven_of_near (2 ^ 52) (by norm_num) (by norm_num)]
  norm_num

theorem float64_hundred : float64 100 = 100 := by
  rw [float64_of_bounds 6 (by norm_num) (by norm_num),
    roundHalfEven_of_near (100 * 2 ^ 46) (by norm_num) (by norm_num)]
  norm_num

/-- The percentage of a part of a whole lies between 0 and 100. -/
theorem percentageOf_bounds (present total : Nat) (h : present ≤ total) :
    0 ≤ percentageOf present total ∧ percentageOf present total ≤ 100 := by
  unfold percentageOf
  split
  · rename_i ht
    have hp0 : (0 : ℚ) ≤ (present : ℚ) := by positivity
    have hpt : (present : ℚ) ≤ (total : ℚ) := by exact_mod_cast h
    have ht0 : (0 : ℚ) < (total : ℚ) := by exact_mod_cast ht
    have ha0 : 0 ≤ float64 present := by
      have := float64_mono (le_refl 0) hp0
      rwa [float64_zero] at this
    have hab : float64 present ≤ float64 total := float64_mono hp0 hpt
    have hb0 : 0 < float64 total := float64_pos ht0
    have hr0 : 0 ≤ float64 present / float64 total := div_nonneg ha0 hb0.le
    have hr1 : float64 present / float64 total ≤ 1 := (div_le_one hb0).mpr hab
    have hq0 : 0 ≤ float64 (float64 present / float64 total) := by
      have := float64_mono (le_refl 0) hr0
      rwa [float64_zero] at this
    have hq1 : float64 (float64 present / float64 total) ≤ 1 := by
      have := float64_mono hr0 hr1
      rwa [float64_one] at this
    have hm0 : 0 ≤ float64 (float64 present / float64 total) * 100 := by positivity
    have hm1 : float64 (float64 present / float64 total) * 100 ≤ 100 := by linarith
    constructor
    · have := float64_mono (le_refl 0) hm0
      rwa [float64_zero] at this
    · have := float64_mono hm0 hm1
      rwa [float64_hundred] at this
  · exact ⟨le_refl 0, by norm_num⟩

/-- The `present` of `countByStatus` is at most its `total`, whichever counts
fail. -/
theorem countByStatus_present_le_total (fault : Nat → Bool) (rows : List Attendance)
    (q : Query) : (countByStatus fault rows q).present ≤ (countByStatus fault rows q).total := by
  cases h0 : fault 0 with
  | true => simp [countByStatus, Query.Count, h0]
  | false =>
    cases h1 : fault 1 with
    | true => simp [countByStatus, Query.Count, h0, h1]
    | false =>
      rw [countByStatus_present _ _ _ h0 h1, countByStatus_total _ _ _ h0]
      apply List.Sublist.length_le
      apply List.monotone_filter_right
      intro a ha
      simp only [Bool.and_eq_true] at ha
      simpa using ha.1

theorem countByStatus_bounds (fault : Nat → Bool) (rows : List Attendance) (q : Query) :
    (countByStatus fault rows q).present ≤ (countByStatus fault rows q).total ∧
    (countByStatus fault rows q).present + (countByStatus fault rows q).absent +
      (countByStatus fault rows q).late + (countByStatus fault rows q).excused ≤
      (countByStatus fault rows q).total ∧
    0 ≤ (countByStatus fault rows q).percentage ∧
    (countByStatus fault rows q).percentage ≤ 100 := by
  have h := countByStatus_present_le_total fault rows q
  obtain ⟨ha, hl, he⟩ := countByStatus_absent_late_excused fault rows q
  have hp := percentageOf_bounds _ _ h
  rw [← countByStatus_percentage] at hp
  exact ⟨h, by rw [ha, hl, he]; simpa using h, hp.1, hp.2⟩

/-! ## Claims about the bounds of the statistics -/

/-- C30.  For every table, every argument and every pattern of failing
counts, the statistics returned by `GetStatistics` and by `GetClassStatistics`
have `present` at most `total`, the sum of `present`, `absent`, `late` and
`excused` at most `total`, and a `percentage` from 0 to 100; the counts are
natural numbers, so none is negative. -/
theorem statistics_bounds (fault : Nat → Bool) (rows : List Attendance) :
    (∀ (studentID : Nat) (startDate endDate : Time),
      (AttendanceRepository.GetStatistics fault rows studentID startDate endDate).present ≤
        (AttendanceRepository.GetStatistics fault rows studentID startDate endDate).total ∧
      (AttendanceRepository.GetStatistics fault rows studentID startDate endDate).present +
        (AttendanceRepository.GetStatistics fault rows studentID startDate endDate).absent +
        (AttendanceRepository.GetStatistics fault rows studentID startDate endDate).late +
        (AttendanceRepository.GetStatistics fault rows studentID startDate endDate).excused ≤
        (AttendanceRepository.GetStatistics fault rows studentID startDate endDate).total ∧
      0 ≤ (AttendanceRepository.GetStatistics fault rows studentID startDate
        endDate).percentage ∧
      (AttendanceRepository.GetStatistics fault rows studentID startDate
        endDate).percentage ≤ 100) ∧
    (∀ (classID sectionID : Nat) (startDate endDate : Time),
      (AttendanceRepository.GetClassStatistics fault rows classID sectionID startDate
        endDate).present ≤
        (AttendanceRepository.GetClassStatistics fault rows classID sectionID startDate
          endDate).total ∧
      (AttendanceRepository.GetClassStatistics fault rows classID sectionID startDate
          endDate).present +
        (AttendanceRepository.GetClassStatistics fault rows classID sectionID startDate
          endDate).absent +
        (AttendanceRepository.GetClassStatistics fault rows classID sectionID startDate
          endDate).late +
        (AttendanceRepository.GetClassStatistics fault rows classID sectionID startDate
          endDate).excused ≤
        (AttendanceRepository.GetClassStatistics fault rows classID sectionID startDate
          endDate).total ∧
      0 ≤ (AttendanceRepository.GetClassStatistics fault rows classID sectionID startDate
        endDate).percentage ∧
      (AttendanceRepository.GetClassStatistics fault rows classID sectionID startDate
        endDate).percentage ≤ 100) :=
  ⟨fun _ _ _ => countByStatus_bounds fault rows _,
    fun _ _ _ _ => countByStatus_bounds fault rows _⟩

/-! ## Lemmas about the middleware -/

theorem roleMiddleware_next_iff (allowedRoles : List String) (c c' : Context) :
    RoleMiddleware allowedRoles c = .next c' ↔
      c' = c ∧ ∃ role, c.user_role = some role ∧ role ∈ allowedRoles := by
  unfold RoleMiddleware
  cases hr : c.user_role with
  | none => simp
  | some role =>
    simp only [Option.some.injEq, exists_eq_left']
    by_cases hm : role ∈ allowedRoles
    · have : allowedRoles.any (fun allowedRole => role == allowedRole) = true := by
        simp only [List.any_eq_true, beq_iff_eq]
        exact ⟨role, hm, rfl⟩
      simp [this, hm, eq_comm]
    · have : allowedRoles.any (fun allowedRole => role == allowedRole) = false := by
        rw [Bool.eq_false_iff]
        simp only [ne_eq, List.any_eq_true, beq_iff_eq, not_exists, not_and]
        intro x hx hrx
        exact hm (hrx ▸ hx)
      simp [this, hm]

theorem authMiddleware_next {ValidateToken : String → Except String Claims}
    {authorization : String} {c c' : Context}
    (h : AuthMiddleware ValidateToken authorization c = .next c') :
    ∃ token claims, ValidateToken token = .ok claims ∧ c'.user_role = some claims.Role ∧
      c'.user_id = some claims.UserID := by
  have key : ∀ tok : String,
      (if tok == "" then Step.abort 401 "Invalid authorization header format"
        else
          match ValidateToken tok with
          | .error err => Step.abort 401 ("Invalid or expired token: " ++ err)
          | .ok claims =>
            Step.next { c with user_id := some claims.UserID, user_email := some claims.Email,
                               user_role := some claims.Role }) = .next c' →
      ∃ token claims, ValidateToken token = .ok claims ∧ c'.user_role = some claims.Role ∧
        c'.user_id = some claims.UserID := by
    intro tok ht
    split at ht
    · simp at ht
    · split at ht
      · simp at ht
      · rename_i claims hv
        simp only [Step.next.injEq] at ht
        subst ht
        exact ⟨_, claims, hv, rfl, rfl⟩
  unfold AuthMiddleware at h
  by_cases he : (authorization == "") = true
  · rw [if_pos he] at h
    simp at h
  · rw [if_neg he] at h
    exact key _ h

/-- On the chain of an admin route the final handler is reached only by a
request whose token is valid and carries the role `admin`. -/
theorem serve_admin_chain (ValidateToken : String → Except String Claims)
    (method authorization h name : String) (c : Context)
    (hs : serve ValidateToken method authorization
      [.Logger, .Recovery, .CORS, .AuthMiddleware, .RoleMiddleware ["admin"], .handler h]
      Context.empty = .handled name c) :
    name = h ∧ c.user_role = some "admin" ∧
    ∃ token claims, ValidateToken token = .ok claims ∧ claims.Role = "admin" ∧
      c.user_id = some claims.UserID := by
  simp only [serve] at hs
  split at hs
  · simp at hs
  · cases ha : AuthMiddleware ValidateToken authorization Context.empty with
    | abort code msg => rw [ha] at hs; simp at hs
    | next c₁ =>
      rw [ha] at hs
      simp only at hs
      cases hr : RoleMiddleware ["admin"] c₁ with
      | abort code msg => rw [hr] at hs; simp at hs
      | next c₂ =>
        rw [hr] at hs
        simp only [Outcome.handled.injEq] at hs
        obtain ⟨hc₂, role, hrole, hmem⟩ := (roleMiddleware_next_iff _ _ _).mp hr
        obtain ⟨token, claims, hv, hcr, hid⟩ := authMiddleware_next ha
        have hadmin : role = "admin" := by simpa using hmem
        subst hadmin
        obtain ⟨rfl, rfl⟩ := hs
        subst hc₂
        refine ⟨rfl, hrole, token, claims, hv, ?_, hid⟩
        rw [hcr] at hrole
        exact (Option.some.inj hrole)

/-! ## Claims about access to the attendance routes -/

/-- C24.  `RoleMiddleware(allowed...)` calls `c.Next()`, with the context as it
was, exactly when the context holds a role that is one of the allowed roles;
it aborts with 401 when the context holds no role, and with 403 when it holds
a role that is not allowed.  The routes under `/api/admin/attendance` are the
six attendance routes, each with the chain of `gin.Default()`, the CORS
function, `AuthMiddleware`, `RoleMiddleware("admin")` and its handler; no
other route has an attendance handler; and on these routes the handler is
reached only by a request whose token `jwt.ValidateToken` accepts with the
role `admin`. -/
theorem attendance_routes_admin_only :
    (∀ (allowedRoles : List String) (c c' : Context),
      RoleMiddleware allowedRoles c = .next c' ↔
        c' = c ∧ ∃ role, c.user_role = some role ∧ role ∈ allowedRoles) ∧
    (∀ (allowedRoles : List String) (c : Context), c.user_role = none →
      RoleMiddleware allowedRoles c = .abort 401 "User role not found") ∧
    (∀ (allowedRoles : List String) (c : Context) (role : String),
      c.user_role = some role → role ∉ allowedRoles →
      RoleMiddleware allowedRoles c = .abort 403 "Insufficient permissions") ∧
    (routes.filter RouteInfo.isAttendance).map (fun r => (r.Method, r.Path, r.Handlers)) =
      [("POST", "/api/admin/attendance/mark",
          [.Logger, .Recovery, .CORS, .AuthMiddleware, .RoleMiddleware ["admin"],
            .handler "attendanceHandler.MarkAttendance"]),
        ("GET", "/api/admin/attendance/class/:class_id",
          [.Logger, .Recovery, .CORS, .AuthMiddleware, .RoleMiddleware ["admin"],
            .handler "attendanceHandler.GetAttendanceByClass"]),
        ("GET", "/api/admin/attendance/student/:student_id",
          [.Logger, .Recovery, .CORS, .AuthMiddleware, .RoleMiddleware ["admin"],
            .handler "attendanceHandler.GetAttendanceByStudent"]),
        ("GET", "/api/admin/attendance/statistics",
          [.Logger, .Recovery, .CORS, .AuthMiddleware, .RoleMiddleware ["admin"],
            .handler "attendanceHandler.GetAttendanceStatistics"]),
        ("GET", "/api/admin/attendance/reports",
          [.Logger, .Recovery, .CORS, .AuthMiddleware, .RoleMiddleware ["admin"],
            .handler "attendanceHandler.GetAttendanceReports"]),
        ("PUT", "/api/admin/attendance/:id",
          [.Logger, .Recovery, .CORS, .AuthMiddleware, .RoleMiddleware ["admin"],
            .handler "attendanceHandler.UpdateAttendance"])] ∧
    (∀ r ∈ routes, ∀ h ∈ r.Handlers, h.isAttendance = true → r.isAttendance = true) ∧
    (∀ r ∈ routes, r.isAttendance = true →
      ∀ (ValidateToken : String → Except String Claims) (method authorization name : String)
        (c : Context),
        serve ValidateToken method authorization r.Handlers Context.empty = .handled name c →
        c.user_role = some "admin" ∧
        ∃ token claims, ValidateToken token = .ok claims ∧ claims.Role = "admin" ∧
          c.user_id = some claims.UserID) := by
  have key : ∀ {A B C : Prop}, A → B → (A → C) → A ∧ B ∧ C := fun a b f => ⟨a, b, f a⟩
  refine ⟨roleMiddleware_next_iff, ?_, ?_, key (by decide) (by decide) ?_⟩
  · intro allowedRoles c h
    simp [RoleMiddleware, h]
  · intro allowedRoles c role h hnot
    have : allowedRoles.any (fun allowedRole => role == allowedRole) = false := by
      rw [Bool.eq_false_iff]
      simp only [ne_eq, List.any_eq_true, beq_iff_eq, not_exists, not_and]
      intro x hx hrx
      exact hnot (hrx ▸ hx)
    simp [RoleMiddleware, h, this]
  · intro hlist r hr ha ValidateToken method authorization name c hs
    have hmem : (r.Method, r.Path, r.Handlers) ∈
        (routes.filter RouteInfo.isAttendance).map (fun r => (r.Method, r.Path, r.Handlers)) :=
      List.mem_map_of_mem _ (List.mem_filter.mpr ⟨hr, ha⟩)
    rw [hlist] at hmem
    simp only [List.mem_cons, Prod.mk.injEq, List.mem_singleton, List.not_mem_nil,
      or_false] at hmem
    rcases hmem with ⟨-, -, h⟩ | ⟨-, -, h⟩ | ⟨-, -, h⟩ | ⟨-, -, h⟩ | ⟨-, -, h⟩ | ⟨-, -, h⟩ <;>
      (rw [h] at hs
       exact (serve_admin_chain ValidateToken method authorization _ name c hs).2)

/-- An instance of C24: a context with the role `teacher` is turned away from
an admin route with 403, and a request with a teacher's token does not reach
`MarkAttendance`. -/
theorem attendance_routes_admin_only_witness :
    RoleMiddleware ["admin"] { Context.empty with user_role := some "teacher" } =
      .abort 403 "Insufficient permissions" ∧
    serve exValidateToken "POST" "Bearer teacher-token"
      [.Logger, .Recovery, .CORS, .AuthMiddleware, .RoleMiddleware ["admin"],
        .handler "attendanceHandler.MarkAttendance"] Context.empty =
      .aborted 403 "Insufficient permissions" ∧
    serve exValidateToken "POST" "Bearer admin-token"
      [.Logger, .Recovery, .CORS, .AuthMiddleware, .RoleMiddleware ["admin"],
        .handler "attendanceHandler.MarkAttendance"] Context.empty =
      .handled "attendanceHandler.MarkAttendance"
        { user_id := some 7, user_email := some "admin@school", user_role := some "admin" } :=
  ⟨attendance_routes_admin_only.2.2.1 ["admin"]
      { Context.empty with user_role := some "teacher" } "teacher" rfl (by decide),
    by decide, by decide⟩

end ERP
